import Mathlib

/-!
Bob: the redemption engine.

A shallow embedding of the redemption scripts of the repository
(`auto-redeem.js`, `builder-redeem.js`, `viem-redeem.js`) and theorems about it.

Conventions of the embedding.

* A JavaScript value of type `string | undefined` is an `Option String`.
* Every asynchronous call whose outcome is decided outside the program (a liveness
  probe, a contract read, an HTTP request) is an oracle: a function from the number
  of calls made so far to the outcome of the next call.  The program is
  deterministic once the oracles are fixed.
* A `for (let i = 0; i < n; i++)` loop is a recursion on the number of iterations
  that remain, `n - i`; the loop variable `i` is kept as an argument wherever the
  body reads it.
* Waiting (`setTimeout`) has no effect on any value and is left out.
-/

namespace Bob

/-- Equality of results is decidable, so closed statements about runs can be evaluated. -/
instance instDecidableEqExcept {ε α : Type} [DecidableEq ε] [DecidableEq α] :
    DecidableEq (Except ε α)
  | .ok a, .ok b => if h : a = b then isTrue (by rw [h]) else isFalse (by intro h2; cases h2; exact h rfl)
  | .error a, .error b =>
    if h : a = b then isTrue (by rw [h]) else isFalse (by intro h2; cases h2; exact h rfl)
  | .ok _, .error _ => isFalse (by intro h; cases h)
  | .error _, .ok _ => isFalse (by intro h; cases h)

/-! ## `auto-redeem.js`: the RPC endpoint pool -/

namespace AutoRedeem

/-- The configured endpoint list of `auto-redeem.js`. -/
def RPCS : List String :=
  [ "https://polygon-rpc.com",
    "https://rpc.ankr.com/polygon",
    "https://polygon.llamarpc.com",
    "https://1rpc.io/matic",
    "https://polygon-mainnet.public.blastapi.io" ]

/-- `getNextRpc()`: reads `RPCS[currentRpcIndex]` (`undefined` when the index is out of
range) and advances `currentRpcIndex` to `(currentRpcIndex + 1) % RPCS.length`.  The
module-level variable `currentRpcIndex` is passed in and returned.  The list is a
parameter so that statements can range over every list length; for the empty list
JavaScript computes `NaN` where this model keeps a number, a case no theorem below
relies on (they assume the cursor is below the length). -/
def getNextRpc (rpcs : List String) (currentRpcIndex : Nat) : Option String × Nat :=
  (rpcs[currentRpcIndex]?, (currentRpcIndex + 1) % rpcs.length)

/-- What one call of `getWorkingProvider` leaves behind: its result (the `rpc` of the
returned `{ provider, rpc }`, or the message of the thrown `Error`), the value of
`currentRpcIndex` afterwards, and the endpoints whose liveness was probed, in order. -/
structure Acquired where
  result : Except String (Option String)
  cursor : Nat
  probed : List (Option String)
deriving DecidableEq

/-- The loop of `getWorkingProvider`, with `remaining = RPCS.length * 2 - i` iterations
to go.  `probe i rpc` tells whether the `try` block of iteration `i` (a provider for `rpc`
is made and `Promise.race([p.getBlockNumber(), timeout])` awaited) runs to its `return`
(`true`) or ends in the `catch` block, by an error or by the timeout (`false`). -/
def getWorkingProviderLoop (rpcs : List String) (probe : Nat → Option String → Bool) :
    (remaining : Nat) → (i : Nat) → (currentRpcIndex : Nat) → Acquired
  | 0, _, cur => { result := .error "All RPCs failed", cursor := cur, probed := [] }
  | remaining + 1, i, cur =>
    let next := getNextRpc rpcs cur
    if probe i next.1 then
      { result := .ok next.1, cursor := next.2, probed := [next.1] }
    else
      let rest := getWorkingProviderLoop rpcs probe remaining (i + 1) next.2
      { rest with probed := next.1 :: rest.probed }

/-- `getWorkingProvider()`: up to `RPCS.length * 2` iterations of select-and-probe. -/
def getWorkingProvider (rpcs : List String) (probe : Nat → Option String → Bool)
    (currentRpcIndex : Nat) : Acquired :=
  getWorkingProviderLoop rpcs probe (rpcs.length * 2) 0 currentRpcIndex

/-- The endpoints selected by `n` consecutive `getNextRpc` calls from cursor `cur`. -/
def selections (rpcs : List String) (cur n : Nat) : List (Option String) :=
  (List.range n).map fun k => rpcs[(cur + k) % rpcs.length]?

/-! ## `auto-redeem.js`: the retry controller -/

/-- What one call of `retry` leaves behind: how it completed (`ok (some x)`: returned
`x`; `ok none`: the loop ended and the function returned `undefined`; `error e`: threw
`e`) and how many times `fn` was invoked. -/
structure Retried (ε α : Type) where
  outcome : Except ε (Option α)
  calls : Nat
deriving DecidableEq

/-- The loop of `retry`, with `remaining` iterations to go before `i < maxAttempts`
fails.  `fn i` is the outcome of the invocation of `fn` made in iteration `i` (the
`(i + 1)`-th invocation): `ok x` when the promise resolves to `x`, `error e` when it
rejects with `e`.  `maxAttempts` is an integer (a JavaScript number that is not an
integer is outside the model). -/
def retryLoop {ε α : Type} (fn : Nat → Except ε α) (maxAttempts : Int) :
    (remaining : Nat) → (i : Nat) → Retried ε α
  | 0, _ => { outcome := .ok none, calls := 0 }
  | remaining + 1, i =>
    match fn i with
    | .ok x => { outcome := .ok (some x), calls := 1 }
    | .error e =>
      if (i : Int) = maxAttempts - 1 then { outcome := .error e, calls := 1 }
      else
        let rest := retryLoop fn maxAttempts remaining (i + 1)
        { rest with calls := rest.calls + 1 }

/-- `retry(fn, maxAttempts, delay)`: the loop runs while `i < maxAttempts`, that is
`maxAttempts.toNat` times at most.  The defaults `maxAttempts = 3` and `delay = 2000`
are written out by the callers in this model. -/
def retry {ε α : Type} (fn : Nat → Except ε α) (maxAttempts : Int) (_delay : Nat) :
    Retried ε α :=
  retryLoop fn maxAttempts maxAttempts.toNat 0

end AutoRedeem

/-! ## `viem-redeem.js`: the Safe transaction hash -/

/-- A byte string (a viem `Hex` value or a `Uint8Array`): one number below 256 per byte. -/
abbrev Bytes := List Nat

/-- The bytes of a string, as `toHex(string)` and `hmac.update(string)` take them: its
UTF-8 encoding. -/
def utf8Bytes (s : String) : Bytes :=
  s.toList.flatMap fun c => (String.utf8EncodeChar c).map UInt8.toNat

/-- The `len`-byte big-endian representation of `n` (its low `len` bytes). -/
def toBytesBE (len n : Nat) : Bytes :=
  (List.range len).map fun i => n / 256 ^ (len - 1 - i) % 256

namespace ViemRedeem

/-- A value handed to `encodeAbiParameters`, tagged with the ABI type it is paired with
in the `parseAbiParameters` string.  Only the static types the script uses occur. -/
inductive AbiArg where
  | bytes32 (b : Bytes)
  | uint256 (n : Nat)
  | uint8 (n : Nat)
  | address (a : Bytes)
deriving DecidableEq

/-- The 32-byte word of one argument; `none` where viem throws (a number outside the
range of its type, a `bytes32` that is not 32 bytes, an address that is not 20 bytes).
Numbers are big-endian and left-padded, addresses are left-padded with 12 zero bytes. -/
def encodeWord : AbiArg → Option Bytes
  | .bytes32 b => if b.length = 32 then some b else none
  | .uint256 n => if n < 2 ^ 256 then some (toBytesBE 32 n) else none
  | .uint8 n => if n < 2 ^ 8 then some (toBytesBE 32 n) else none
  | .address a => if a.length = 20 then some (List.replicate 12 0 ++ a) else none

/-- `encodeAbiParameters` on static types: the words of the arguments, in order. -/
def encodeAbiParameters : List AbiArg → Option Bytes
  | [] => some []
  | arg :: rest => do
    let word ← encodeWord arg
    let tail ← encodeAbiParameters rest
    pure (word ++ tail)

/-- The type string whose hash is `SAFE_TX_TYPEHASH`. -/
def SAFE_TX_TYPE : String :=
  "SafeTx(address to,uint256 value,bytes data,uint8 operation,uint256 safeTxGas,uint256 baseGas,uint256 gasPrice,address gasToken,address refundReceiver,uint256 nonce)"

/-- The type string whose hash is `DOMAIN_SEPARATOR_TYPEHASH`. -/
def DOMAIN_SEPARATOR_TYPE : String :=
  "EIP712Domain(uint256 chainId,address verifyingContract)"

/-- `SAFE_TX_TYPEHASH = keccak256(toHex('SafeTx(...)'))`; `keccak256` is the library's
hash function, a parameter of the model. -/
def SAFE_TX_TYPEHASH (keccak256 : Bytes → Bytes) : Bytes :=
  keccak256 (utf8Bytes SAFE_TX_TYPE)

/-- `DOMAIN_SEPARATOR_TYPEHASH = keccak256(toHex('EIP712Domain(...)'))`. -/
def DOMAIN_SEPARATOR_TYPEHASH (keccak256 : Bytes → Bytes) : Bytes :=
  keccak256 (utf8Bytes DOMAIN_SEPARATOR_TYPE)

/-- The 20 zero bytes of `'0x0000000000000000000000000000000000000000'`. -/
def zeroAddress : Bytes := List.replicate 20 0

/-- `calculateDomainSeparator(chainId, safeAddress)`; `chainId` stands for
`BigInt(chainId)`. -/
def calculateDomainSeparator (keccak256 : Bytes → Bytes) (chainId : Nat)
    (safeAddress : Bytes) : Option Bytes :=
  (encodeAbiParameters
    [.bytes32 (DOMAIN_SEPARATOR_TYPEHASH keccak256), .uint256 chainId, .address safeAddress]).map
    keccak256

/-- `calculateSafeTxHash(chainId, safeAddress, to, value, data, operation, nonce)`;
`value` and `nonce` stand for `BigInt(value)` and `BigInt(nonce)`, `to_` for `to`.  `none` where an
encoding step throws. -/
def calculateSafeTxHash (keccak256 : Bytes → Bytes) (chainId : Nat) (safeAddress to_ : Bytes)
    (value : Nat) (data : Bytes) (operation nonce : Nat) : Option Bytes := do
  let domainSeparator ← calculateDomainSeparator keccak256 chainId safeAddress
  let dataHash := keccak256 data
  let safeTxHash ← (encodeAbiParameters
    [ .bytes32 (SAFE_TX_TYPEHASH keccak256),
      .address to_,
      .uint256 value,
      .bytes32 dataHash,
      .uint8 operation,
      .uint256 0,
      .uint256 0,
      .uint256 0,
      .address zeroAddress,
      .address zeroAddress,
      .uint256 nonce ]).map keccak256
  let encoded := [0x19, 0x01] ++ domainSeparator ++ safeTxHash
  pure (keccak256 encoded)

end ViemRedeem

/-! ## The typed-data scheme, as the specification words it -/

namespace Spec

/-- The fields of a `SafeTransaction`, in the declared order, each with its ABI type. -/
def safeTxFields : List (String × String) :=
  [ ("address", "to"), ("uint256", "value"), ("bytes", "data"), ("uint8", "operation"),
    ("uint256", "safeTxGas"), ("uint256", "baseGas"), ("uint256", "gasPrice"),
    ("address", "gasToken"), ("address", "refundReceiver"), ("uint256", "nonce") ]

/-- The canonical type signature string of a struct: `Name(type1 name1,type2 name2,...)`. -/
def typeSignature (name : String) (fields : List (String × String)) : String :=
  name ++ "(" ++ ",".intercalate (fields.map fun f => f.1 ++ " " ++ f.2) ++ ")"

/-- The ABI word of an unsigned integer: 32 bytes, big-endian. -/
def uintWord (n : Nat) : Bytes := toBytesBE 32 n

/-- The ABI word of an address: its 20 bytes after 12 zero bytes. -/
def addressWord (a : Bytes) : Bytes := List.replicate 12 0 ++ a

end Spec


/-! ## Signature packing

JavaScript strings are lists of characters here (the strings handled are ASCII, where
characters and UTF-16 code units coincide); a JavaScript number that may be `NaN` is an
`Option Int`, `none` standing for `NaN`. -/

namespace Js

/-- `str.slice(start, end)` for non-negative `start` and `end`. -/
def slice (str : List Char) (start stop : Nat) : List Char :=
  (str.take stop).drop start

/-- The value of a hexadecimal digit, either case. -/
def hexDigitValue (c : Char) : Option Nat :=
  if '0' ≤ c ∧ c ≤ '9' then some (c.toNat - '0'.toNat)
  else if 'a' ≤ c ∧ c ≤ 'f' then some (c.toNat - 'a'.toNat + 10)
  else if 'A' ≤ c ∧ c ≤ 'F' then some (c.toNat - 'A'.toNat + 10)
  else none

/-- The white space and line terminators that `parseInt` skips at the start. -/
def isStrWhiteSpace (c : Char) : Bool :=
  c.toNat ∈ [0x09, 0x0A, 0x0B, 0x0C, 0x0D, 0x20, 0xA0, 0x1680, 0x2028, 0x2029, 0x202F,
    0x205F, 0x3000, 0xFEFF] || (0x2000 ≤ c.toNat && c.toNat ≤ 0x200A)

/-- The number written by a list of hexadecimal digits, most significant first. -/
def hexDigitsValue (digits : List Char) : Nat :=
  digits.foldl (fun acc c => acc * 16 + (hexDigitValue c).getD 0) 0

/-- `parseInt(str, 16)`: skips leading white space, reads an optional sign and an
optional `0x` or `0X`, then the longest run of hexadecimal digits; `NaN` when that run
is empty. -/
def parseInt16 (str : List Char) : Option Int :=
  let trimmed := str.dropWhile isStrWhiteSpace
  let negative := trimmed.head? = some '-'
  let unsigned :=
    if trimmed.head? = some '-' ∨ trimmed.head? = some '+' then trimmed.drop 1 else trimmed
  let body :=
    if unsigned.take 2 = ['0', 'x'] ∨ unsigned.take 2 = ['0', 'X'] then unsigned.drop 2
    else unsigned
  let digits := body.takeWhile fun c => (hexDigitValue c).isSome
  if digits = [] then none
  else if negative then some (-(hexDigitsValue digits : Int))
  else some (hexDigitsValue digits : Int)

/-- `n.toString(16)` for an integer or `NaN`: lower-case digits, no leading zero. -/
def toString16 : Option Int → List Char
  | none => ['N', 'a', 'N']
  | some n => if n < 0 then '-' :: Nat.toDigits 16 n.natAbs else Nat.toDigits 16 n.natAbs

/-- `str.padStart(targetLength, padChar)` for a one-character pad string. -/
def padStart (str : List Char) (targetLength : Nat) (padChar : Char) : List Char :=
  List.replicate (targetLength - str.length) padChar ++ str

end Js

namespace Viem

/-- `charCodeToBase16`: the value of a hexadecimal digit, `undefined` for other
characters. -/
def charCodeToBase16 (c : Char) : Option Nat := Js.hexDigitValue c

/-- The loop of `hexToBytes`: two characters per byte, `none` where it throws on a
character that is not a hexadecimal digit. -/
def hexPairs : List Char → Option Bytes
  | [] => some []
  | [_] => none
  | left :: right :: rest => do
    let nibbleLeft ← charCodeToBase16 left
    let nibbleRight ← charCodeToBase16 right
    let tail ← hexPairs rest
    pure ((nibbleLeft * 16 + nibbleRight) :: tail)

/-- `hexToBytes(hex)`: drops the two-character prefix, pads an odd digit string with a
leading `0`, and reads the bytes. -/
def hexToBytes (hex : List Char) : Option Bytes :=
  let hexString := hex.drop 2
  let padded := if hexString.length % 2 = 1 then '0' :: hexString else hexString
  hexPairs padded

/-- The table `hexes`: `i.toString(16).padStart(2, '0')`, for `i` below 256. -/
def hexes (i : Nat) : List Char :=
  Js.padStart (Js.toString16 (some (i : Int))) 2 '0'

/-- `bytesToHex(bytes)`: `0x` followed by two lower-case digits per byte. -/
def bytesToHex (bytes : Bytes) : List Char :=
  '0' :: 'x' :: bytes.flatMap hexes

end Viem

namespace Ethers

/-- The fields of the result of `splitSignature` that the script reads. -/
structure Signature where
  r : Bytes
  s : Bytes
  v : Nat
deriving DecidableEq

/-- `ethers.utils.splitSignature(sig)` on the bytes of `sig` (ethers v5): a 65-byte
signature is cut into `r`, `s` and the last byte `v`; a 64-byte compact one carries the
parity in the top bit of `s`; a `v` of 0 or 1 is lifted by 27 and any other `v` below 27
is rejected, like every other length (`none`: throws). -/
def splitSignature (bytes : Bytes) : Option Signature :=
  let lift (sig : Signature) : Option Signature :=
    if sig.v < 27 then
      if sig.v = 0 ∨ sig.v = 1 then some { sig with v := sig.v + 27 } else none
    else some sig
  if bytes.length = 64 then
    lift { r := bytes.take 32,
           s := ((bytes.getD 32 0) % 128) :: (bytes.take 64).drop 33,
           v := 27 + (bytes.getD 32 0) / 128 }
  else if bytes.length = 65 then
    lift { r := bytes.take 32, s := (bytes.take 64).drop 32, v := bytes.getD 64 0 }
  else none

/-- `ethers.utils.solidityPack(['bytes32', 'bytes32', 'uint8'], [r, s, v])`: the three
values side by side, the last one on a single byte; `none` where a value does not fit
its type (throws). -/
def solidityPack (r s : Bytes) (v : Nat) : Option Bytes :=
  if r.length = 32 ∧ s.length = 32 ∧ v < 256 then some (r ++ s ++ [v]) else none

end Ethers

namespace AutoRedeem

/-- Lines 158-159 of `auto-redeem.js`: `split = splitSignature(sig)` and
`packed = solidityPack([...], [split.r, split.s, split.v + 4])`. -/
def packed (sig : Bytes) : Option Bytes := do
  let split ← Ethers.splitSignature sig
  Ethers.solidityPack split.r split.s (split.v + 4)

end AutoRedeem

namespace BuilderRedeem

/-- Lines 177-180 of `builder-redeem.js`: the signature string is cut into `r`, `s` and
the two digits of `v`, and put together again with `v + 4`. -/
def packedSig (signature : List Char) : List Char :=
  let r := Js.slice signature 0 66
  let s := '0' :: 'x' :: Js.slice signature 66 130
  let v := (Js.parseInt16 (Js.slice signature 130 132)).map (· + 4)
  r ++ s.drop 2 ++ Js.padStart (Js.toString16 v) 2 '0'

end BuilderRedeem

namespace ViemRedeem

/-- Lines 209-211 of `viem-redeem.js`: `sigBytes = hexToBytes(signature)`,
`sigBytes[64] = sigBytes[64] + 4` (a `Uint8Array` stores the value modulo 256 and ignores
a store beyond its length) and `adjustedSig = bytesToHex(sigBytes)`; `none` where
`hexToBytes` throws. -/
def adjustedSig (signature : List Char) : Option (List Char) := do
  let sigBytes ← Viem.hexToBytes signature
  let stored := sigBytes.set 64 ((sigBytes.getD 64 0 + 4) % 256)
  pure (Viem.bytesToHex stored)

end ViemRedeem


/-! ## Relayer authentication: `signHmac` -/

namespace Js

/-- `str.replace(/c/g, d)` for a pattern that is one character: every `c` becomes `d`. -/
def replaceAll (str : List Char) (c d : Char) : List Char :=
  str.map fun x => if x = c then d else x

end Js

namespace Node

/-- The base64 alphabet. -/
def base64Alphabet : List Char :=
  "ABCDEFGHIJKLMNOPQRSTUVWXYZabcdefghijklmnopqrstuvwxyz0123456789+/".toList

/-- Three bytes become four characters of `alphabet`; a last group of one or two bytes is
completed with `=`. -/
def base64EncodeWith (alphabet : List Char) : Bytes → List Char
  | [] => []
  | [a] => [alphabet.getD (a / 4) '=', alphabet.getD (a % 4 * 16) '=', '=', '=']
  | [a, b] =>
    [alphabet.getD (a / 4) '=', alphabet.getD (a % 4 * 16 + b / 16) '=',
      alphabet.getD (b % 16 * 4) '=', '=']
  | a :: b :: c :: rest =>
    alphabet.getD (a / 4) '=' :: alphabet.getD (a % 4 * 16 + b / 16) '='
      :: alphabet.getD (b % 16 * 4 + c / 64) '=' :: alphabet.getD (c % 64) '='
      :: base64EncodeWith alphabet rest

/-- `buffer.toString('base64')` and `hmac.digest('base64')`: base64 with padding. -/
def base64Encode (bytes : Bytes) : List Char :=
  base64EncodeWith base64Alphabet bytes

/-- The value of a character in Node's decoding table: the base64 alphabet, with `-` and
`_` accepted for 62 and 63 as well; `none` for a character that is skipped. -/
def unbase64 (c : Char) : Option Nat :=
  if c = '-' then some 62
  else if c = '_' then some 63
  else if base64Alphabet.indexOf c < 64 then some (base64Alphabet.indexOf c) else none

/-- Four 6-bit values become three bytes; a last group of two or three values gives one
or two bytes, a single left-over value gives none. -/
def packSextets : List Nat → Bytes
  | a :: b :: c :: d :: rest =>
    (a * 4 + b / 16) :: (b % 16 * 16 + c / 4) :: (c % 4 * 64 + d) :: packSextets rest
  | [a, b, c] => [a * 4 + b / 16, b % 16 * 16 + c / 4]
  | [a, b] => [a * 4 + b / 16]
  | _ => []

/-- `Buffer.from(str, 'base64')`: decoding stops at the first `=`, characters outside the
table are skipped. -/
def bufferFromBase64 (str : List Char) : Bytes :=
  packSextets ((str.takeWhile fun c => c ≠ '=').filterMap unbase64)

/-- An `Hmac` object of `crypto`: the key it was created with and the data fed so far. -/
structure Hmac where
  key : Bytes
  data : Bytes

/-- `crypto.createHmac('sha256', key)`. -/
def createHmac (key : Bytes) : Hmac := { key := key, data := [] }

/-- `hmac.update(message)` with a string: its UTF-8 bytes are appended. -/
def Hmac.update (hmac : Hmac) (message : List Char) : Hmac :=
  { hmac with data := hmac.data ++ utf8Bytes (String.mk message) }

/-- `hmac.digest('base64')`; `hmacSha256 key data` is the library's HMAC-SHA256, a
parameter of the model. -/
def Hmac.digest (hmacSha256 : Bytes → Bytes → Bytes) (hmac : Hmac) : List Char :=
  base64Encode (hmacSha256 hmac.key hmac.data)

end Node

namespace BuilderRedeem

/-- `signHmac(timestamp, method, path, body = '')` of `builder-redeem.js`; `body` is
`none` when the argument is left out.  `BUILDER_SECRET` is the stored secret. -/
def signHmac (hmacSha256 : Bytes → Bytes → Bytes) (BUILDER_SECRET : List Char)
    (timestamp method path : List Char) (body : Option (List Char)) : List Char :=
  let body := body.getD []
  let message := timestamp ++ method ++ path ++ body
  let secret := Node.bufferFromBase64
    (Js.replaceAll (Js.replaceAll BUILDER_SECRET '-' '+') '_' '/')
  let hmac := Node.createHmac secret
  let hmac := hmac.update message
  Js.replaceAll (Js.replaceAll (hmac.digest hmacSha256) '+' '-') '/' '_'

end BuilderRedeem

namespace ViemRedeem

/-- `signHmac(timestamp, method, path, body = '')` of `viem-redeem.js`: the same steps,
chained in one expression. -/
def signHmac (hmacSha256 : Bytes → Bytes → Bytes) (BUILDER_SECRET : List Char)
    (timestamp method path : List Char) (body : Option (List Char)) : List Char :=
  let body := body.getD []
  let message := timestamp ++ method ++ path ++ body
  let secret := Node.bufferFromBase64
    (Js.replaceAll (Js.replaceAll BUILDER_SECRET '-' '+') '_' '/')
  Js.replaceAll
    (Js.replaceAll (((Node.createHmac secret).update message).digest hmacSha256) '+' '-')
    '/' '_'

end ViemRedeem

namespace Spec

/-- The URL-safe base64 alphabet (RFC 4648, section 5): `-` and `_` for 62 and 63. -/
def base64urlAlphabet : List Char :=
  "ABCDEFGHIJKLMNOPQRSTUVWXYZabcdefghijklmnopqrstuvwxyz0123456789-_".toList

/-- The encoding `base64url` of RFC 4648, section 5, with its padding. -/
def base64url (bytes : Bytes) : List Char :=
  Node.base64EncodeWith base64urlAlphabet bytes

/-- The value of a character of the URL-safe alphabet. -/
def base64urlValue (c : Char) : Option Nat :=
  if base64urlAlphabet.indexOf c < 64 then some (base64urlAlphabet.indexOf c) else none

/-- The values of a run of characters of the URL-safe alphabet; `none` when another
character occurs. -/
def base64urlValues : List Char → Option (List Nat)
  | [] => some []
  | c :: rest => do
    let value ← base64urlValue c
    let values ← base64urlValues rest
    pure (value :: values)

/-- Decoding of `base64url` text: the characters before the padding, each one of the
URL-safe alphabet, are read six bits at a time; `none` for text with another character. -/
def base64urlDecode (text : List Char) : Option Bytes :=
  (base64urlValues (text.takeWhile fun c => c ≠ '=')).map Node.packSextets

/-- The signature of a relayer request, as the specification words it:
`base64url(HMAC-SHA256(secret, timestamp + method + path + body))`, with the secret
base64url-decoded from its stored form. -/
def requestSignature (hmacSha256 : Bytes → Bytes → Bytes) (storedSecret : List Char)
    (timestamp method path body : List Char) : Option (List Char) :=
  (base64urlDecode storedSecret).map fun secret =>
    base64url (hmacSha256 secret (utf8Bytes (String.mk (timestamp ++ method ++ path ++ body))))

end Spec


/-! ## `auto-redeem.js`: the candidate loop of `main`

The chain is a `World` of oracles.  Every external call takes one tick of a clock, and an
oracle is asked with the clock value of the call, so a call repeated later may end
differently.  A computation (`Run`) starts from a clock value and a value of
`currentRpcIndex` and ends in a `Step`: its result, the clock and cursor afterwards, and the
external calls it made, oldest first. -/

namespace AutoRedeem

/-- A thrown value, reduced to the two properties the script reads. -/
structure JsError where
  reason : Option String
  message : Option String
deriving DecidableEq

/-- The arguments shared by `getTransactionHash` and `execTransaction`, in the order of the
Safe ABI: `to, value, data, operation, safeTxGas, baseGas, gasPrice, gasToken,
refundReceiver`. -/
structure SafeTxArgs where
  to_ : String
  value : Nat
  data : Bytes
  operation : Nat
  safeTxGas : Nat
  baseGas : Nat
  gasPrice : Nat
  gasToken : String
  refundReceiver : String
deriving DecidableEq

/-- An external call, with the arguments that matter and, for the nonce read, the value it
returned (`none` when it rejected).  The last one, `payoutDenominator`, is made by
`redeem.js` only. -/
inductive Call where
  | probe (rpc : Option String)
  | getBlockNumber
  | balanceOf
  | nonce (returned : Option Nat)
  | getTransactionHash (args : SafeTxArgs) (nonce : Nat)
  | execTransaction (args : SafeTxArgs) (signatures : Bytes)
  | wait
  | deriveApiKey
  | getTrades
  | getMarket (marketId : String)
  | payoutDenominator (conditionId : String)
deriving DecidableEq

/-- The calls that only read chain state and that the script wraps in `retry`. -/
def Call.isRead : Call → Bool
  | .balanceOf => true
  | .nonce _ => true
  | .getTransactionHash _ _ => true
  | _ => false

/-- The state-changing submission. -/
def Call.isExec : Call → Bool
  | .execTransaction _ _ => true
  | _ => false

/-- One external call, and whether it was made from inside `retry`. -/
structure Event where
  call : Call
  viaRetry : Bool
deriving DecidableEq

/-- What the script reads of a market returned by `client.getMarket`. -/
structure Market where
  closed : Bool
  condition_id : Option String
deriving DecidableEq

/-- The outside of the script: how each external call ends when made at a given clock
value, and the two local library functions whose results the script only passes on.
`getTrades` gives the `market` field of each trade, in order; `getMarket` may answer with
no market (`none`). -/
structure World where
  probe : Nat → Option String → Bool
  getBlockNumber : Nat → Except JsError Nat
  balanceOf : Nat → Except JsError Int
  nonce : Nat → Except JsError Nat
  getTransactionHash : Nat → SafeTxArgs → Nat → Except JsError Bytes
  execTransaction : Nat → SafeTxArgs → Bytes → Except JsError Unit
  wait : Nat → Except JsError Nat
  encodeFunctionData : String → Except JsError Bytes
  signMessage : Bytes → Bytes
  deriveApiKey : Nat → Except JsError Unit
  getTrades : Nat → Except JsError (List String)
  getMarket : Nat → String → Except JsError (Option Market)

/-- Where a computation ends. -/
structure Step (α : Type) where
  result : Except JsError α
  clock : Nat
  cursor : Nat
  events : List Event

/-- A computation of the script: from a clock value and a cursor to a `Step`. -/
def Run (α : Type) : Type := Nat → Nat → Step α

/-- A computation that returns `x` without any call. -/
def Run.pure {α : Type} (x : α) : Run α :=
  fun clock cursor => { result := .ok x, clock := clock, cursor := cursor, events := [] }

/-- Sequencing (`await` then continue): a rejection ends the sequence. -/
def Run.bind {α β : Type} (m : Run α) (f : α → Run β) : Run β :=
  fun clock cursor =>
    let a := m clock cursor
    match a.result with
    | .error e => { result := .error e, clock := a.clock, cursor := a.cursor, events := a.events }
    | .ok x =>
      let b := f x a.clock a.cursor
      { b with events := a.events ++ b.events }

/-- The statement `throw e`. -/
def Run.throw {α : Type} (e : JsError) : Run α :=
  fun clock cursor => { result := .error e, clock := clock, cursor := cursor, events := [] }

/-- The statement `try { body } catch (e) { handler(e) }`. -/
def Run.tryCatch {α : Type} (body : Run α) (handler : JsError → Run α) : Run α :=
  fun clock cursor =>
    let a := body clock cursor
    match a.result with
    | .ok x => { result := .ok x, clock := a.clock, cursor := a.cursor, events := a.events }
    | .error e =>
      let b := handler e a.clock a.cursor
      { b with events := a.events ++ b.events }

instance instMonadRun : Monad Run where
  pure := Run.pure
  bind := Run.bind

/-- One external call outside `retry`: the oracle is asked at the current clock value. -/
def Run.call {α : Type} (oracle : Nat → Except JsError α) (call : Except JsError α → Call) :
    Run α :=
  fun clock cursor =>
    { result := oracle clock, clock := clock + 1, cursor := cursor,
      events := [{ call := call (oracle clock), viaRetry := false }] }

/-- The expression `await retry(() => oracle())`, with the default `maxAttempts = 3` and
`delay = 2000`: invocation `i` of the wrapped call is made at clock value `clock + i`. -/
def Run.retry {α : Type} (oracle : Nat → Except JsError α) (call : Except JsError α → Call) :
    Run (Option α) :=
  fun clock cursor =>
    let r := AutoRedeem.retry (fun i => oracle (clock + i)) 3 2000
    { result := r.outcome, clock := clock + r.calls, cursor := cursor,
      events := (List.range r.calls).map fun i =>
        { call := call (oracle (clock + i)), viaRetry := true } }

/-- The expression `await getWorkingProvider()`; the `Error` it throws has a `message` and
no `reason`. -/
def Run.getWorkingProvider (w : World) : Run (Option String) :=
  fun clock cursor =>
    let a := AutoRedeem.getWorkingProvider RPCS (fun i rpc => w.probe (clock + i) rpc) cursor
    { result := match a.result with
        | .ok rpc => .ok rpc
        | .error msg => .error { reason := none, message := some msg },
      clock := clock + a.probed.length, cursor := a.cursor,
      events := a.probed.map fun rpc => { call := .probe rpc, viaRetry := false } }

end AutoRedeem


namespace AutoRedeem

/-- The conditional-tokens contract. -/
def CTF : String := "0x4D97DCd97eC945f40cF65F87097ACe5EA0476045"

/-- The collateral token. -/
def USDC : String := "0x2791Bca1f2de4661ED88A30C99A7a9449Aa84174"

/-- `ethers.constants.AddressZero`. -/
def AddressZero : String := "0x0000000000000000000000000000000000000000"

/-- A result that is already known: returned or thrown without any call. -/
def Run.ofExcept {α : Type} (r : Except JsError α) : Run α :=
  fun clock cursor => { result := r, clock := clock, cursor := cursor, events := [] }

/-- The error ethers raises, before any call is made, for an argument it cannot encode
(an `undefined` nonce, a signature that does not split or pack). -/
def invalidArgument : JsError :=
  { reason := some "invalid argument", message := some "invalid argument" }

/-- Use of a value that may be `undefined` as an argument of a contract call. -/
def Run.defined {α : Type} : Option α → Run α
  | some x => Run.pure x
  | none => Run.throw invalidArgument

/-- The `try` block of one candidate up to the receipt (lines 139-167): reconnect if the
provider does not answer, encode the call, read the nonce and the transaction hash through
`retry`, sign, pack, submit, wait for one confirmation.  Returns `receipt.status`. -/
def attempt (w : World) (conditionId : String) : Run Nat := do
  Run.tryCatch
    (do let _ ← Run.call w.getBlockNumber (fun _ => Call.getBlockNumber); pure ())
    (fun _ => do let _ ← Run.getWorkingProvider w; pure ())
  let redeemData ← Run.ofExcept (w.encodeFunctionData conditionId)
  let nonce ← Run.retry w.nonce (fun r => Call.nonce r.toOption)
  let nonce ← Run.defined nonce
  let txHash ← Run.retry
    (fun t => w.getTransactionHash t
      { to_ := CTF, value := 0, data := redeemData, operation := 0, safeTxGas := 0,
        baseGas := 0, gasPrice := 0, gasToken := AddressZero, refundReceiver := AddressZero }
      nonce)
    (fun _ => Call.getTransactionHash
      { to_ := CTF, value := 0, data := redeemData, operation := 0, safeTxGas := 0,
        baseGas := 0, gasPrice := 0, gasToken := AddressZero, refundReceiver := AddressZero }
      nonce)
  let txHash ← Run.defined txHash
  let sig := w.signMessage txHash
  let packed ← Run.defined (packed sig)
  let _tx ← Run.call
    (fun t => w.execTransaction t
      { to_ := CTF, value := 0, data := redeemData, operation := 0, safeTxGas := 0,
        baseGas := 0, gasPrice := 0, gasToken := AddressZero, refundReceiver := AddressZero }
      packed)
    (fun _ => Call.execTransaction
      { to_ := CTF, value := 0, data := redeemData, operation := 0, safeTxGas := 0,
        baseGas := 0, gasPrice := 0, gasToken := AddressZero, refundReceiver := AddressZero }
      packed)
  let status ← Run.call w.wait (fun _ => Call.wait)
  pure status

/-- The counters `success`, `skipped`, `failed` of `main`. -/
structure Tally where
  success : Nat
  skipped : Nat
  failed : Nat
deriving DecidableEq

/-- `str.includes(search)`. -/
def includes (str search : String) : Bool :=
  decide (search.toList <:+: str.toList)

/-- `e.reason || e.message || ''`: the first of the two that is a non-empty string. -/
def errorText (e : JsError) : String :=
  match e.reason with
  | some reason => if reason ≠ "" then reason else
    match e.message with
    | some message => message
    | none => ""
  | none =>
    match e.message with
    | some message => message
    | none => ""

/-- One iteration of the candidate loop (lines 138-188): the `try` block and the counter
it increments, or the `catch` block and the counter it increments. -/
def processCandidate (w : World) (conditionId : String) (tally : Tally) : Run Tally :=
  Run.tryCatch
    (do
      let status ← attempt w conditionId
      if status = 1 then pure { tally with success := tally.success + 1 }
      else pure { tally with failed := tally.failed + 1 })
    (fun e =>
      let msg := errorText e
      if includes msg "revert" then pure { tally with skipped := tally.skipped + 1 }
      else if includes msg "network" then pure { tally with failed := tally.failed + 1 }
      else pure { tally with failed := tally.failed + 1 })

/-- The loop `for (const conditionId of ...)` over the candidates it is given. -/
def candidateLoop (w : World) : List String → Tally → Run Tally
  | [], tally => pure tally
  | conditionId :: rest, tally => do
    let tally ← processCandidate w conditionId tally
    candidateLoop w rest tally

/-- Lines 133-191 of `main`: the counters start at zero and the loop runs over
`resolved.slice(0, 8)`. -/
def redeemAll (w : World) (resolved : List String) : Run Tally :=
  candidateLoop w (resolved.take 8) { success := 0, skipped := 0, failed := 0 }

/-- The number of `execTransaction` calls among some events. -/
def execCount (events : List Event) : Nat :=
  events.countP fun e => e.call.isExec

/-- A call made from inside `retry` is a read, and a submission is made outside `retry`. -/
def Event.wellTagged (e : Event) : Prop :=
  (e.viaRetry = true → e.call.isRead = true) ∧ (e.call.isExec = true → e.viaRetry = false)

end AutoRedeem


/-! ## `viem-redeem.js`: the relayer batch of `main` -/

namespace ViemRedeem

/-- The field `signatureParams` of a submission request. -/
structure SignatureParams where
  gasPrice : String
  operation : String
  safeTxnGas : String
  baseGas : String
  gasToken : String
  refundReceiver : String
deriving DecidableEq

/-- The submission request posted to `/submit` (`from_`, `to_` and `type_` stand for the
keys `from`, `to` and `type`). -/
structure Request where
  from_ : String
  to_ : String
  proxyWallet : String
  data : Bytes
  nonce : String
  signature : List Char
  signatureParams : SignatureParams
  type_ : String
  metadata : String
deriving DecidableEq

/-- The body of the relayer's answer to `/submit`. -/
structure Response where
  transactionID : Option String
  state : Option String
deriving DecidableEq

/-- The outside of the script: the hash function, the two local library functions whose
results the script passes on, and the relayer.  `relayerPost k path request` is how the
`(k + 1)`-th POST of the run ends: rejected, or answered with a body that may be missing
(`none`). -/
structure World where
  keccak256 : Bytes → Bytes
  encodeFunctionData : String → Except AutoRedeem.JsError Bytes
  signMessage : Bytes → List Char
  relayerPost : Nat → String → Request → Except AutoRedeem.JsError (Option Response)

/-- The conditional-tokens contract. -/
def CTF : String := "0x4D97DCd97eC945f40cF65F87097ACe5EA0476045"

/-- The Safe. -/
def PROXY : String := "0x0A9551d6C30c6E8C3d2948c8386077f246cece95"

/-- The bytes a hex constant denotes (none when it is not hex). -/
def hexBytes (hex : String) : Bytes :=
  (Viem.hexToBytes hex.toList).getD []

/-- What is known of a candidate that reached the hash step: the nonce it was hashed and
signed with, and whether its `try` block ran to the end (the relayer accepted the
submission and its answer was read). -/
structure Hashed where
  conditionId : String
  nonce : Nat
  completed : Bool
deriving DecidableEq

/-- The variables of the loop, `success` and `nonce`, with the number of POSTs made so far
and the record of the candidates hashed so far, oldest first. -/
structure Batch where
  success : Nat
  nonce : Nat
  posts : Nat
  hashed : List Hashed
deriving DecidableEq

/-- One iteration of the loop (lines 187-244) for the signer `account`: encode, hash with
the tracked nonce, sign, adjust `v`, post; `success++` and `nonce++` only at the end of the
`try` block; an exception anywhere leaves both as they are. -/
def redeemOne (w : World) (account : String) (conditionId : String) (s : Batch) : Batch :=
  match w.encodeFunctionData conditionId with
  | .error _ => s
  | .ok data =>
    match calculateSafeTxHash w.keccak256 137 (hexBytes PROXY) (hexBytes CTF) 0 data 0 s.nonce with
    | none => s
    | some safeTxHash =>
      let signature := w.signMessage safeTxHash
      match adjustedSig signature with
      | none =>
        { s with hashed := s.hashed ++ [{ conditionId := conditionId, nonce := s.nonce,
                                          completed := false }] }
      | some adjusted =>
        let request : Request :=
          { from_ := account,
            to_ := CTF,
            proxyWallet := PROXY,
            data := data,
            nonce := toString s.nonce,
            signature := adjusted,
            signatureParams :=
              { gasPrice := "0", operation := "0", safeTxnGas := "0", baseGas := "0",
                gasToken := "0x0000000000000000000000000000000000000000",
                refundReceiver := "0x0000000000000000000000000000000000000000" },
            type_ := "SAFE",
            metadata := "" }
        match w.relayerPost s.posts "/submit" request with
        | .ok (some _) =>
          { success := s.success + 1, nonce := s.nonce + 1, posts := s.posts + 1,
            hashed := s.hashed ++ [{ conditionId := conditionId, nonce := s.nonce,
                                     completed := true }] }
        | _ =>
          { s with posts := s.posts + 1,
                   hashed := s.hashed ++ [{ conditionId := conditionId, nonce := s.nonce,
                                            completed := false }] }

/-- Lines 181-247 of `main`: `success = 0`, `nonce = parseInt(nonceRes.nonce)`, then the
loop over all of `resolved`. -/
def redeemBatch (w : World) (account : String) (resolved : List String) (nonce : Nat) :
    Batch :=
  resolved.foldl (fun s conditionId => redeemOne w account conditionId s)
    { success := 0, nonce := nonce, posts := 0, hashed := [] }

/-- A relayer that rejects every submission, next to a signer whose signatures are
`07 … 07 1b`, a hash with all-zero digests and calldata `01 02 03`. -/
def rejectingWorld : World where
  keccak256 := fun _ => List.replicate 32 0
  encodeFunctionData := fun _ => .ok [1, 2, 3]
  signMessage := fun _ => Viem.bytesToHex (List.replicate 64 7 ++ [27])
  relayerPost := fun _ _ _ => .error { reason := none, message := some "Request failed" }

end ViemRedeem


/-! ## Predicates used in the statements -/

namespace AutoRedeem

/-- A computation makes at most `k` submissions and tags every call properly, from every
start. -/
def Bounded {α : Type} (k : Nat) (m : Run α) : Prop :=
  ∀ clock cursor, execCount (m clock cursor).events ≤ k
    ∧ ∀ e ∈ (m clock cursor).events, e.wellTagged

/-- Every call a computation makes satisfies `P`, from every start. -/
def Run.All {α : Type} (P : Event → Prop) (m : Run α) : Prop :=
  ∀ clock cursor, ∀ e ∈ (m clock cursor).events, P e

end AutoRedeem

namespace ViemRedeem

/-- The order the nonces of a batch do follow: never smaller than an earlier one, and
greater than the one of an earlier candidate whose `try` block ran to the end. -/
def NonceOrder (a b : Hashed) : Prop :=
  a.nonce ≤ b.nonce ∧ (a.completed = true → a.nonce < b.nonce)

/-- The invariant of the loop: the record is ordered, and the tracked nonce is at least
every recorded nonce, and greater than those of the completed candidates. -/
def BatchInv (s : Batch) : Prop :=
  s.hashed.Pairwise NonceOrder
    ∧ ∀ h ∈ s.hashed, h.nonce ≤ s.nonce ∧ (h.completed = true → h.nonce < s.nonce)

end ViemRedeem

/-! ## `auto-redeem.js`: consecutive selections -/

namespace AutoRedeem

/-- `n` consecutive calls of `getNextRpc()` from a value of `currentRpcIndex`: the endpoints
returned, in order, and the value of `currentRpcIndex` afterwards. -/
def getNextRpcTimes (rpcs : List String) : (n : Nat) → (currentRpcIndex : Nat) →
    List (Option String) × Nat
  | 0, cur => ([], cur)
  | n + 1, cur =>
    let next := getNextRpc rpcs cur
    let rest := getNextRpcTimes rpcs n next.2
    (next.1 :: rest.1, rest.2)

end AutoRedeem


/-! ## The classification of a candidate, as the specification words it -/

namespace Spec

/-- The classes of a candidate after its submission was attempted. -/
inductive Outcome where
  | Success
  | Skipped
  | Failed
deriving DecidableEq

/-- The class of a direct submission, from how the attempt ended: with a receipt status, or
with an error.  `Success`: the submission completed with status 1.  `Skipped`: an error
whose text mentions a revert.  `Failed`: anything else. -/
def classify (revertText : AutoRedeem.JsError → Bool) :
    Except AutoRedeem.JsError Nat → Outcome
  | .ok status => if status = 1 then .Success else .Failed
  | .error e => if revertText e then .Skipped else .Failed

/-- The tally with the counter of one class raised by one. -/
def record (tally : AutoRedeem.Tally) : Outcome → AutoRedeem.Tally
  | .Success => { tally with success := tally.success + 1 }
  | .Skipped => { tally with skipped := tally.skipped + 1 }
  | .Failed => { tally with failed := tally.failed + 1 }

end Spec


/-! ## `auto-redeem.js`: `main` from start to end

`main` ends in one of six ways; only the lines printed by its last section (lines 193-205)
are kept, each as the list of the arguments of its `console.log`. -/

namespace AutoRedeem

/-- A computation with its exception caught and returned as a value. -/
def Run.caught {α : Type} (m : Run α) : Run (Except JsError α) :=
  fun clock cursor =>
    let a := m clock cursor
    { result := .ok a.result, clock := a.clock, cursor := a.cursor, events := a.events }

/-- `ethers.utils.formatUnits(value, 6)`: the whole part, a point, and the six-digit
fraction without its trailing zeros (a single `0` when there is no fraction). -/
def formatUnits6 (value : Int) : String :=
  let magnitude := value.natAbs
  let digits := (toString (magnitude % 1000000)).toList
  let padded := List.replicate (6 - digits.length) '0' ++ digits
  let stripped := (padded.reverse.dropWhile fun c => c = '0').reverse
  let fraction := if stripped = [] then "0" else String.mk stripped
  (if value < 0 then "-" else "") ++ toString (magnitude / 1000000) ++ "." ++ fraction

/-- The rule printed around the report. -/
def separator : String :=
  "═══════════════════════════════════════════════════════════════════"

/-- The line `'Results: ' + success + ... + failed + ...`. -/
def resultsLine (tally : Tally) : String :=
  "Results: " ++ toString tally.success ++ "✅ " ++ toString tally.skipped ++ "⏭️ "
    ++ toString tally.failed ++ "❌"

/-- Lines 193-205 of `main`: acquire a provider, read the balance through `retry`, print it,
print the difference with the balance read before the batch when `diff.gt(0)`; an
exception in this block is swallowed; then the results line.  Returns the lines printed. -/
def finalReport (w : World) (balBefore : Int) (tally : Tally) : Run (List (List String)) := do
  let shown ← Run.tryCatch
    (do
      let _ ← Run.getWorkingProvider w
      let balAfter ← Run.retry w.balanceOf (fun _ => Call.balanceOf)
      let balAfter ← Run.defined balAfter
      let diff := balAfter - balBefore
      if diff > 0 then
        pure [[separator], ["💰 After:", formatUnits6 balAfter, "USDC"],
          ["✅ Claimed:", formatUnits6 diff]]
      else
        pure [[separator], ["💰 After:", formatUnits6 balAfter, "USDC"]])
    (fun _ => pure [])
  pure ([[""]] ++ shown ++ [[resultsLine tally], [separator]])

/-- Lines 133-205 of `main`: the candidate loop, then the final report. -/
def redeemAndReport (w : World) (resolved : List String) (balBefore : Int) :
    Run (Tally × List (List String)) := do
  let tally ← redeemAll w resolved
  let report ← finalReport w balBefore tally
  pure (tally, report)

/-- The loop of lines 89-96 over the market ids it is given: a closed market with a
condition id adds that id to `resolved`; an exception of `getMarket` is swallowed. -/
def findResolvedLoop (w : World) : List String → List String → Run (List String)
  | [], resolved => pure resolved
  | marketId :: rest, resolved => do
    let resolved ← Run.tryCatch
      (do
        let market ← Run.call (fun t => w.getMarket t marketId) (fun _ => Call.getMarket marketId)
        match market with
        | some m =>
          match m.condition_id with
          | some conditionId =>
            if m.closed = true ∧ conditionId ≠ "" then pure (resolved ++ [conditionId])
            else pure resolved
          | none => pure resolved
        | none => pure resolved)
      (fun _ => pure resolved)
    findResolvedLoop w rest resolved

/-- Lines 82-96 of `main`: derive the API key, read the trades, and look up the first 50
distinct markets among them. -/
def findResolved (w : World) : Run (List String) := do
  let _creds ← Run.call w.deriveApiKey (fun _ => Call.deriveApiKey)
  let trades ← Run.call w.getTrades (fun _ => Call.getTrades)
  let marketIds := trades.eraseDups
  findResolvedLoop w (marketIds.take 50) []

/-- How `main` ends. -/
inductive MainEnd where
  | allRpcsFailed
  | clobError (e : JsError)
  | nothingToRedeem
  | lostRpc
  | balanceCheckFailed
  | finished (tally : Tally) (report : List (List String))
deriving DecidableEq

/-- The function `main` of `auto-redeem.js`. -/
def main (w : World) : Run MainEnd := do
  match ← Run.caught (Run.getWorkingProvider w) with
  | .error _ => pure .allRpcsFailed
  | .ok _ =>
    match ← Run.caught (findResolved w) with
    | .error e => pure (.clobError e)
    | .ok resolved =>
      if resolved.length = 0 then pure .nothingToRedeem
      else
        match ← Run.caught (Run.getWorkingProvider w) with
        | .error _ => pure .lostRpc
        | .ok _ =>
          match ← Run.caught
              (do
                let balBefore ← Run.retry w.balanceOf (fun _ => Call.balanceOf)
                Run.defined balBefore) with
          | .error _ => pure .balanceCheckFailed
          | .ok balBefore => do
            let done ← redeemAndReport w resolved balBefore
            pure (.finished done.1 done.2)

end AutoRedeem


namespace AutoRedeem

/-- The error of a failed acquisition, `new Error('All RPCs failed')`. -/
def poolError : JsError := { reason := none, message := some "All RPCs failed" }

/-- A computation started where another one ended. -/
def Step.next {α β : Type} (s : Step α) (m : Run β) : Step β :=
  m s.clock s.cursor

/-- The calls made for a candidate inside the loop. -/
def Call.ofCandidate : Call → Bool
  | .getBlockNumber => true
  | .nonce _ => true
  | .getTransactionHash _ _ => true
  | .execTransaction _ _ => true
  | .wait => true
  | _ => false

/-- A world in which every call goes through: every endpoint answers, the Safe's nonce is
7, every submission is confirmed with status 1, signatures are `07 … 07 1b`, and the
account has no trades. -/
def quietWorld : World where
  probe := fun _ _ => true
  getBlockNumber := fun _ => .ok 1
  balanceOf := fun _ => .ok 0
  nonce := fun _ => .ok 7
  getTransactionHash := fun _ _ _ => .ok (List.replicate 32 0)
  execTransaction := fun _ _ _ => .ok ()
  wait := fun _ => .ok 1
  encodeFunctionData := fun _ => .ok [1, 2, 3]
  signMessage := fun _ => List.replicate 64 7 ++ [27]
  deriveApiKey := fun _ => .ok ()
  getTrades := fun _ => .ok []
  getMarket := fun _ _ => .ok none

/-- The quiet world with every endpoint unreachable. -/
def deadWorld : World :=
  { quietWorld with probe := fun _ _ => false }

/-- The quiet world with every endpoint unreachable and a provider that does not answer
the first `getBlockNumber` (at clock value 0) and answers afterwards. -/
def lapseWorld : World :=
  { quietWorld with
    probe := fun _ _ => false
    getBlockNumber := fun t =>
      if t = 0 then .error { reason := none, message := some "timeout" } else .ok 1 }

end AutoRedeem


/-! ## `redeem.js`: the candidate loop and the last lines of `main`

The script uses one provider and no `retry`; its calls are logged like those of
`auto-redeem.js`, none of them from inside `retry`. -/

namespace Redeem

open AutoRedeem

/-- The outside of `redeem.js`: how each external call ends when made at a given clock
value, and the two local library functions whose results the script passes on. -/
structure World where
  payoutDenominator : Nat → String → Except JsError Nat
  nonce : Nat → Except JsError Nat
  getTransactionHash : Nat → SafeTxArgs → Nat → Except JsError Bytes
  execTransaction : Nat → SafeTxArgs → Bytes → Except JsError Unit
  wait : Nat → Except JsError Unit
  encodeFunctionData : String → Except JsError Bytes
  signMessage : Bytes → Bytes

/-- How the `try` block of a candidate ends when it does not throw: at the `continue` of a
zero payout denominator, or at its last statement. -/
inductive Pass where
  | notResolved
  | confirmed
deriving DecidableEq

/-- The counters `success` and `skipped` of `main`. -/
structure Tally where
  success : Nat
  skipped : Nat
deriving DecidableEq

/-- The `try` block of one candidate (lines 74-114): read the payout denominator and
`continue` when it is zero; otherwise encode the call, read the nonce and the transaction
hash, sign, pack, submit and wait. -/
def attempt (w : World) (conditionId : String) : Run Pass := do
  let denom ← Run.call (fun t => w.payoutDenominator t conditionId)
    (fun _ => Call.payoutDenominator conditionId)
  if denom = 0 then pure Pass.notResolved
  else do
    let redeemData ← Run.ofExcept (w.encodeFunctionData conditionId)
    let nonce ← Run.call w.nonce (fun r => Call.nonce r.toOption)
    let txHash ← Run.call
      (fun t => w.getTransactionHash t
        { to_ := CTF, value := 0, data := redeemData, operation := 0, safeTxGas := 0,
          baseGas := 0, gasPrice := 0, gasToken := AddressZero, refundReceiver := AddressZero }
        nonce)
      (fun _ => Call.getTransactionHash
        { to_ := CTF, value := 0, data := redeemData, operation := 0, safeTxGas := 0,
          baseGas := 0, gasPrice := 0, gasToken := AddressZero, refundReceiver := AddressZero }
        nonce)
    let sig := w.signMessage txHash
    let packed ← Run.defined (packed sig)
    let _tx ← Run.call
      (fun t => w.execTransaction t
        { to_ := CTF, value := 0, data := redeemData, operation := 0, safeTxGas := 0,
          baseGas := 0, gasPrice := 0, gasToken := AddressZero, refundReceiver := AddressZero }
        packed)
      (fun _ => Call.execTransaction
        { to_ := CTF, value := 0, data := redeemData, operation := 0, safeTxGas := 0,
          baseGas := 0, gasPrice := 0, gasToken := AddressZero, refundReceiver := AddressZero }
        packed)
    let _receipt ← Run.call w.wait (fun _ => Call.wait)
    pure Pass.confirmed

/-- One iteration of the candidate loop (lines 70-129): `success++` at the end of the `try`
block, no counter at the `continue`, `skipped++` in the `catch` block for an error whose
text contains `revert`, no counter for any other error. -/
def processCandidate (w : World) (conditionId : String) (tally : Tally) : Run Tally :=
  Run.tryCatch
    (do
      let pass ← attempt w conditionId
      match pass with
      | .notResolved => pure tally
      | .confirmed => pure { tally with success := tally.success + 1 })
    (fun e =>
      let msg := errorText e
      if includes msg "revert" then pure { tally with skipped := tally.skipped + 1 }
      else if includes msg "network" then pure tally
      else pure tally)

/-- The loop `for (const conditionId of resolved)`. -/
def candidateLoop (w : World) : List String → Tally → Run Tally
  | [], tally => pure tally
  | conditionId :: rest, tally => do
    let tally ← processCandidate w conditionId tally
    candidateLoop w rest tally

/-- Lines 135-143 of `main`, after the balance was read: the lines printed. -/
def finalReport (balBefore balAfter : Int) (tally : Tally) : List (List String) :=
  let diff := balAfter - balBefore
  [["\n═══════════════════════════════════════════════════════════════════"], ["💰 Balance after:", formatUnits6 balAfter, "USDC"]]
    ++ (if diff > 0 then [["✅ Redeemed:", formatUnits6 diff, "USDC"]] else [])
    ++ [["Results:", toString tally.success, "success,", toString tally.skipped, "skipped"],
        ["═══════════════════════════════════════════════════════════════════"]]

/-- A world in which every call goes through and every payout denominator is zero. -/
def unresolvedWorld : World where
  payoutDenominator := fun _ _ => .ok 0
  nonce := fun _ => .ok 7
  getTransactionHash := fun _ _ _ => .ok (List.replicate 32 0)
  execTransaction := fun _ _ _ => .ok ()
  wait := fun _ => .ok ()
  encodeFunctionData := fun _ => .ok [1, 2, 3]
  signMessage := fun _ => List.replicate 64 7 ++ [27]

end Redeem


namespace AutoRedeem

/-- The quiet world with a collateral balance of 4 at every read. -/
def lossWorld : World :=
  { quietWorld with balanceOf := fun _ => .ok 4 }

end AutoRedeem


namespace AutoRedeem

/-- The world of the end-to-end scenario, for a run of the candidate loop started at clock
value 0: every call goes through, except that the submission of the second candidate (clock
value 8) is rejected with `execution reverted` and the first two nonce reads of the third
candidate (clock values 10 and 11) time out; the balance read at the end is 115 units of
one million. -/
def scenarioWorld : World :=
  { quietWorld with
    nonce := fun t =>
      if t = 10 ∨ t = 11 then .error { reason := none, message := some "timeout" } else .ok 7
    execTransaction := fun t _ _ =>
      if t = 8 then
        .error { reason := some "execution reverted", message := some "call exception" }
      else .ok ()
    balanceOf := fun _ => .ok 115000000 }

end AutoRedeem


/-! ## Signing: `signMessage`

`wallet.signMessage` of ethers and `account.signMessage` of viem hash the message with the
signed-message prefix and hand that digest to ECDSA.  The hash function and the ECDSA
signing of a digest with the private key (`signDigest`) are parameters. -/

namespace Ethers

/-- The constant `messagePrefix`. -/
def messagePrefix : String := "\x19Ethereum Signed Message:\n"

/-- `hashMessage(message)` for a byte message:
`keccak256(concat([toUtf8Bytes(messagePrefix), toUtf8Bytes(String(message.length)), message]))`. -/
def hashMessage (keccak256 : Bytes → Bytes) (message : Bytes) : Bytes :=
  keccak256 (utf8Bytes messagePrefix ++ utf8Bytes (toString message.length) ++ message)

/-- `wallet.signMessage(message)`: the signature of the digest `hashMessage(message)`. -/
def signMessage {σ : Type} (keccak256 : Bytes → Bytes) (signDigest : Bytes → σ)
    (message : Bytes) : σ :=
  signDigest (hashMessage keccak256 message)

end Ethers

namespace Viem

/-- `toPrefixedMessage({ raw })`: the bytes of the string
`\x19Ethereum Signed Message:\n${size(raw)}` followed by the raw bytes. -/
def toPrefixedMessage (raw : Bytes) : Bytes :=
  utf8Bytes ("\x19Ethereum Signed Message:\n" ++ toString raw.length) ++ raw

/-- `hashMessage({ raw })`: `keccak256(toPrefixedMessage(message))`. -/
def hashMessage (keccak256 : Bytes → Bytes) (raw : Bytes) : Bytes :=
  keccak256 (toPrefixedMessage raw)

/-- `account.signMessage({ message: { raw } })`: the signature of the digest
`hashMessage(message)`. -/
def signMessage {σ : Type} (keccak256 : Bytes → Bytes) (signDigest : Bytes → σ)
    (raw : Bytes) : σ :=
  signDigest (hashMessage keccak256 raw)

end Viem

namespace AutoRedeem

/-- Line 157 of `auto-redeem.js`: `sig = await wallet.signMessage(arrayify(txHash))`. -/
def sig {σ : Type} (keccak256 : Bytes → Bytes) (signDigest : Bytes → σ) (txHash : Bytes) : σ :=
  Ethers.signMessage keccak256 signDigest txHash

end AutoRedeem

namespace BuilderRedeem

/-- Line 174 of `builder-redeem.js`:
`signature = await account.signMessage({ message: { raw: txHash } })`. -/
def signature {σ : Type} (keccak256 : Bytes → Bytes) (signDigest : Bytes → σ)
    (txHash : Bytes) : σ :=
  Viem.signMessage keccak256 signDigest txHash

end BuilderRedeem

namespace ViemRedeem

/-- Line 206 of `viem-redeem.js`:
`signature = await account.signMessage({ message: { raw: hexToBytes(safeTxHash) } })`. -/
def signature {σ : Type} (keccak256 : Bytes → Bytes) (signDigest : Bytes → σ)
    (safeTxHash : Bytes) : σ :=
  Viem.signMessage keccak256 signDigest safeTxHash

end ViemRedeem


/-! ## The calldata of `redeemPositions` -/

namespace Js

/-- `str.repeat(count)`. -/
def «repeat» (str : String) (count : Nat) : String :=
  String.join (List.replicate count str)

end Js

namespace Abi

/-- The bytes of a hex string `0x…`; `none` when the prefix is missing, a character is not a
hexadecimal digit or the number of digits is odd. -/
def parseHex (hex : List Char) : Option Bytes :=
  match hex with
  | '0' :: 'x' :: digits => Viem.hexPairs digits
  | _ => none

/-- A function of an ABI: its name and the types of its inputs, in order. -/
structure Function where
  name : String
  inputs : List String
deriving DecidableEq

/-- The signature `name(type1,type2,...)` whose hash gives the selector. -/
def Function.signature (f : Function) : String :=
  f.name ++ "(" ++ ",".intercalate f.inputs ++ ")"

/-- The four-byte selector of a function. -/
def selector (keccak256 : Bytes → Bytes) (f : Function) : Bytes :=
  (keccak256 (utf8Bytes f.signature)).take 4

/-- The words of the elements of a `uint256[]`, in order. -/
def encodeUints : List Nat → Option Bytes
  | [] => some []
  | x :: rest => do
    let word ← ViemRedeem.encodeWord (.uint256 x)
    let tail ← encodeUints rest
    pure (word ++ tail)

/-- `encodeFunctionData` for a function with inputs `(address, bytes32, bytes32, uint256[])`:
the selector, the three static words, the offset of the array (four words), then the array
length and its elements; `none` where the library throws.  (The checksum of a mixed-case
address, which needs the hash function, is not checked.) -/
def encodeFunctionData (keccak256 : Bytes → Bytes) (f : Function)
    (collateralToken parentCollectionId conditionId : String) (indexSets : List Nat) :
    Option Bytes := do
  let token ← parseHex collateralToken.toList
  let parent ← parseHex parentCollectionId.toList
  let condition ← parseHex conditionId.toList
  let tokenWord ← ViemRedeem.encodeWord (.address token)
  let parentWord ← ViemRedeem.encodeWord (.bytes32 parent)
  let conditionWord ← ViemRedeem.encodeWord (.bytes32 condition)
  let offset ← ViemRedeem.encodeWord (.uint256 (4 * 32))
  let count ← ViemRedeem.encodeWord (.uint256 indexSets.length)
  let elements ← encodeUints indexSets
  pure (selector keccak256 f ++ tokenWord ++ parentWord ++ conditionWord ++ offset ++ count
    ++ elements)

end Abi

namespace AutoRedeem

/-- The fragment given to `new ethers.utils.Interface` (lines 129-131). -/
def ctfInterface : Abi.Function :=
  { name := "redeemPositions", inputs := ["address", "bytes32", "bytes32", "uint256[]"] }

/-- `ethers.constants.HashZero`. -/
def HashZero : String :=
  "0x0000000000000000000000000000000000000000000000000000000000000000"

/-- Lines 147-149 of `auto-redeem.js`: `redeemData`. -/
def redeemData (keccak256 : Bytes → Bytes) (conditionId : String) : Option Bytes :=
  Abi.encodeFunctionData keccak256 ctfInterface USDC HashZero conditionId [1, 2]

end AutoRedeem

namespace BuilderRedeem

/-- The collateral token. -/
def USDC : String := "0x2791Bca1f2de4661ED88A30C99A7a9449Aa84174"

/-- The constant `CTF_ABI` (lines 143-151). -/
def CTF_ABI : Abi.Function :=
  { name := "redeemPositions", inputs := ["address", "bytes32", "bytes32", "uint256[]"] }

/-- Lines 164-168 of `builder-redeem.js`: `data`, with `'0x' + '0'.repeat(64)` for the
parent collection id. -/
def data (keccak256 : Bytes → Bytes) (conditionId : String) : Option Bytes :=
  Abi.encodeFunctionData keccak256 CTF_ABI USDC ("0x" ++ Js.repeat "0" 64) conditionId [1, 2]

end BuilderRedeem

namespace ViemRedeem

/-- The collateral token. -/
def USDC : String := "0x2791Bca1f2de4661ED88A30C99A7a9449Aa84174"

/-- The constant `CTF_ABI` (lines 168-179). -/
def CTF_ABI : Abi.Function :=
  { name := "redeemPositions", inputs := ["address", "bytes32", "bytes32", "uint256[]"] }

/-- Lines 189-198 of `viem-redeem.js`: `data`, with the parent collection id written out. -/
def data (keccak256 : Bytes → Bytes) (conditionId : String) : Option Bytes :=
  Abi.encodeFunctionData keccak256 CTF_ABI USDC
    "0x0000000000000000000000000000000000000000000000000000000000000000" conditionId [1, 2]

end ViemRedeem


/-! ## `market-data-collector.js`: the order book

Numbers are the elements of a type with `+`, `-` and `0` and a decidable equality (`NaN` is
outside the model); a number is truthy when it is not `0`. -/

namespace MarketDataCollector

/-- A level of one side of the book, after parsing: `parseFloat(level.price)` and
`parseFloat(level.size || 0)`. -/
structure Level (α : Type) where
  price : α
  size : α

/-- The body of the answer of `/book`: the two sides, each possibly missing. -/
structure OrderBook (α : Type) where
  bids : Option (List (Level α))
  asks : Option (List (Level α))

/-- The object returned by `fetchOrderBook`. -/
structure BookSummary (α : Type) where
  bestBid : Option α
  bestAsk : Option α
  spread : Option α
  bidDepth : α
  askDepth : α

/-- `fetchOrderBook(tokenId)`, from the outcome of the request: `null` (`none`) when the
request or the parsing of its body throws, else the summary of the book. -/
def fetchOrderBook {α : Type} [Add α] [Sub α] [Zero α] [DecidableEq α]
    (response : Except String (OrderBook α)) : Option (BookSummary α) :=
  match response with
  | .error _ => none
  | .ok orderBook =>
    let bids := orderBook.bids.getD []
    let asks := orderBook.asks.getD []
    let bestBid := if bids.length > 0 then bids.head?.map (fun level => level.price) else none
    let bestAsk := if asks.length > 0 then asks.head?.map (fun level => level.price) else none
    let spread :=
      match bestBid, bestAsk with
      | some bid, some ask => if bid ≠ 0 ∧ ask ≠ 0 then some (ask - bid) else none
      | _, _ => none
    let bidDepth := (bids.take 5).foldl (fun sum b => sum + b.size) 0
    let askDepth := (asks.take 5).foldl (fun sum a => sum + a.size) 0
    some { bestBid := bestBid, bestAsk := bestAsk, spread := spread,
           bidDepth := bidDepth, askDepth := askDepth }

/-- The levels of one side with the given sizes, all at price 1. -/
def levelsOfSizes {α : Type} [One α] (sizes : List α) : List (Level α) :=
  sizes.map fun size => { price := 1, size := size }

end MarketDataCollector


/-! ## `market-data-collector.js`: `collectData`

A number that may be `NaN` (the parsed outcome price, and the stored price that may come
from it) is an `Option`, `none` standing for `NaN`; division needs a field. -/

namespace MarketDataCollector

/-- What `collectData` reads of the object returned by `fetchMarketBySlug`; `prices` holds
`parseFloat(p)` for each entry `p` of `market.prices`. -/
structure Market (α : Type) where
  conditionId : Option String
  question : Option String
  closed : Bool
  tokenIds : List String
  outcomes : List String
  prices : List (Option α)
  volume : α

/-- The values bound to the twelve placeholders of the `INSERT INTO market_data`. -/
structure Row (α : Type) where
  timestamp : Nat
  market_id : Option String
  market_name : Option String
  token_id : String
  outcome : Option String
  price : Option α
  bid : Option α
  ask : Option α
  spread : Option α
  volume_24h : α
  bid_depth : α
  ask_depth : α
deriving DecidableEq

/-- Lines 153-155: `(orderBook.bestBid && orderBook.bestAsk) ? (orderBook.bestBid +
orderBook.bestAsk) / 2 : price`; `null` and `0` are falsy. -/
def midPrice {α : Type} [Field α] [DecidableEq α] (orderBook : BookSummary α)
    (price : Option α) : Option α :=
  match orderBook.bestBid, orderBook.bestAsk with
  | some bestBid, some bestAsk =>
    if bestBid ≠ 0 ∧ bestAsk ≠ 0 then some ((bestBid + bestAsk) / 2) else price
  | _, _ => price

/-- The outside of `collectData`: the slugs scraped (already without duplicates), the
market found for a slug (`none` for `null`), and the answer of `/book` for the token at
index `i` of the market of a slug. -/
structure World (α : Type) where
  slugs : List String
  fetchMarketBySlug : String → Option (Market α)
  book : String → Nat → Except String (OrderBook α)

/-- What a loop leaves behind: the rows inserted, oldest first, and whether an exception
ended it (the `catch` of `collectData` then ends the run). -/
structure Collected (α : Type) where
  rows : List (Row α)
  thrown : Bool

/-- The loop over the tokens of one market (lines 145-184), with `remaining =
market.tokenIds.length - i` iterations to go.  A token without an order book is passed
over; the log line after the insert throws when the market has no `question`. -/
def tokenLoop {α : Type} [Field α] [DecidableEq α] (w : World α) (timestamp : Nat)
    (slug : String) (market : Market α) : (remaining : Nat) → (i : Nat) → Collected α
  | 0, _ => { rows := [], thrown := false }
  | remaining + 1, i =>
    let tokenId := market.tokenIds.getD i ""
    let outcome := market.outcomes[i]?
    let price := (market.prices[i]?).join
    match fetchOrderBook (w.book slug i) with
    | none => tokenLoop w timestamp slug market remaining (i + 1)
    | some orderBook =>
      let row : Row α :=
        { timestamp := timestamp,
          market_id := market.conditionId,
          market_name := market.question,
          token_id := tokenId,
          outcome := outcome,
          price := midPrice orderBook price,
          bid := orderBook.bestBid,
          ask := orderBook.bestAsk,
          spread := orderBook.spread,
          volume_24h := market.volume,
          bid_depth := orderBook.bidDepth,
          ask_depth := orderBook.askDepth }
      match market.question with
      | none => { rows := [row], thrown := true }
      | some _ =>
        let rest := tokenLoop w timestamp slug market remaining (i + 1)
        { rest with rows := row :: rest.rows }

/-- The loop over the slugs (lines 140-185): a slug without a market, or with a closed one,
is passed over. -/
def slugLoop {α : Type} [Field α] [DecidableEq α] (w : World α) (timestamp : Nat) :
    List String → Collected α
  | [] => { rows := [], thrown := false }
  | slug :: rest =>
    match w.fetchMarketBySlug slug with
    | none => slugLoop w timestamp rest
    | some market =>
      if market.closed then slugLoop w timestamp rest
      else
        let here := tokenLoop w timestamp slug market market.tokenIds.length 0
        if here.thrown then here
        else
          let later := slugLoop w timestamp rest
          { later with rows := here.rows ++ later.rows }

/-- `collectData()` at `Date.now() = now`: the rows it inserts, in order. -/
def collectData {α : Type} [Field α] [DecidableEq α] (w : World α) (now : Nat) :
    List (Row α) :=
  if w.slugs.length = 0 then []
  else (slugLoop w (now / 1000) w.slugs).rows

/-- One open market with one token, outcome price `price`, and a book whose sides have one
level each, at the given prices and with size 10. -/
def oneTokenWorld {α : Type} [Field α] (price bid ask : α) : World α where
  slugs := ["btc-updown-15m-1700000000"]
  fetchMarketBySlug := fun _ =>
    some { conditionId := some "0xabc123", question := some "Bitcoin Up or Down", closed := false,
           tokenIds := ["token_up"], outcomes := ["Up"], prices := [some price], volume := 0 }
  book := fun _ _ =>
    .ok { bids := some [{ price := bid, size := 10 }], asks := some [{ price := ask, size := 10 }] }

end MarketDataCollector


/-! ## `calculate-buckets.js`: `calculateMetrics`

Numbers are the elements of a linearly ordered field, so that the arithmetic is exact;
`Math.log` and `Math.sqrt` are parameters of the model. -/

namespace CalculateBuckets

/-- One row of the query of `calculateMetrics`. -/
structure PriceRow (α : Type) where
  timestamp : Nat
  price : α

/-- The object `calculateMetrics` resolves with. -/
structure Metrics (α : Type) where
  timestamp : Nat
  marketId : String
  logReturn : α
  realizedVol60 : α
  efficiency60 : α

/-- The loop of lines 29-32, with `remaining = prices.length - i` iterations to go: the values
pushed to `logReturns`, in order. -/
def logReturnsLoop {α : Type} [LinearOrderedField α] (log : α → α) (prices : List α) :
    (remaining : Nat) → (i : Nat) → List α
  | 0, _ => []
  | remaining + 1, i =>
    let r := log (prices.getD i 0 / prices.getD (i - 1) 0)
    r :: logReturnsLoop log prices remaining (i + 1)

/-- The array `logReturns` after the loop, which starts at `i = 1`. -/
def logReturns {α : Type} [LinearOrderedField α] (log : α → α) (prices : List α) : List α :=
  logReturnsLoop log prices (prices.length - 1) 1

/-- The loop of lines 44-46, with `remaining = prices.length - i` iterations to go. -/
def totalAbsMoveLoop {α : Type} [LinearOrderedField α] (prices : List α) :
    (remaining : Nat) → (i : Nat) → (totalAbsMove : α) → α
  | 0, _, totalAbsMove => totalAbsMove
  | remaining + 1, i, totalAbsMove =>
    totalAbsMoveLoop prices remaining (i + 1)
      (totalAbsMove + |prices.getD i 0 - prices.getD (i - 1) 0|)

/-- `calculateMetrics(marketId)`, from the outcome of the query (at most 60 rows, newest
first): rejected with the error of the query, resolved with `null` (`none`) for fewer than
60 rows, else resolved with the metrics.  `rows.reverse()` reverses `rows` itself, so the
timestamp is read from the reversed array. -/
def calculateMetrics {α : Type} [LinearOrderedField α] (log sqrt : α → α) (marketId : String)
    (query : Except String (List (PriceRow α))) : Except String (Option (Metrics α)) :=
  match query with
  | .error err => .error err
  | .ok rows =>
    if rows.length < 60 then .ok none
    else
      let rows := rows.reverse
      let prices := rows.map fun r => r.price
      let currentTimestamp := (rows.map fun r => r.timestamp).getD (rows.length - 1) 0
      let logReturns := logReturns log prices
      let sumSquaredReturns := logReturns.foldl (fun sum r => sum + r * r) 0
      let realizedVol60 := sqrt sumSquaredReturns
      let priceNow := prices.getD (prices.length - 1) 0
      let price60mAgo := prices.getD 0 0
      let netMove := |priceNow - price60mAgo|
      let totalAbsMove := totalAbsMoveLoop prices (prices.length - 1) 1 0
      let efficiency60 := if totalAbsMove > 0 then netMove / totalAbsMove else 0
      let latestLogReturn := logReturns.getD (logReturns.length - 1) 0
      .ok (some
        { timestamp := currentTimestamp,
          marketId := marketId,
          logReturn := latestLogReturn,
          realizedVol60 := realizedVol60,
          efficiency60 := efficiency60 })

/-- Sixty rows, newest first, whose prices in chronological order are `1, 2, …, 60`. -/
def risingRows (α : Type) [LinearOrderedField α] : List (PriceRow α) :=
  (List.range 60).map fun k => { timestamp := 60 - k, price := ((60 - k : Nat) : α) }

end CalculateBuckets


/-! ## Relayer authentication: the headers and the request -/

/-- The three builder settings of the environment (`BUILDER_API_KEY`, `BUILDER_SECRET`,
`BUILDER_PASSPHRASE`), read by both relayer scripts; `signHmac` needs the secret to be a
string. -/
structure BuilderEnv where
  BUILDER_KEY : Option String
  BUILDER_SECRET : List Char
  BUILDER_PASSPHRASE : Option String

/-- The object returned by `getBuilderHeaders`; `contentType` stands for the key
`'Content-Type'`. -/
structure BuilderHeaders where
  contentType : String
  POLY_BUILDER_API_KEY : Option String
  POLY_BUILDER_TIMESTAMP : List Char
  POLY_BUILDER_PASSPHRASE : Option String
  POLY_BUILDER_SIGNATURE : List Char
deriving DecidableEq

/-- A request handed to axios: `axios.get(url, { headers, timeout })` has no body,
`axios.post(url, body, { headers, timeout })` has one. -/
structure HttpRequest where
  method : String
  url : List Char
  body : Option (List Char)
  headers : BuilderHeaders
  timeout : Nat
deriving DecidableEq

namespace BuilderRedeem

/-- The relayer. -/
def RELAYER_URL : List Char := "https://relayer-v2.polymarket.com".toList

/-- `getBuilderHeaders(method, path, body = '')` of `builder-redeem.js` at `Date.now() = now`
(milliseconds); `body` is `none` when the argument is left out. -/
def getBuilderHeaders (hmacSha256 : Bytes → Bytes → Bytes) (env : BuilderEnv) (now : Nat)
    (method path : List Char) (body : Option (List Char)) : BuilderHeaders :=
  let body := body.getD []
  let ts := (toString (now / 1000)).toList
  { contentType := "application/json",
    POLY_BUILDER_API_KEY := env.BUILDER_KEY,
    POLY_BUILDER_TIMESTAMP := ts,
    POLY_BUILDER_PASSPHRASE := env.BUILDER_PASSPHRASE,
    POLY_BUILDER_SIGNATURE := signHmac hmacSha256 env.BUILDER_SECRET ts method path (some body) }

/-- The request sent by `relayerPost(path, data)`; `stringify` is `JSON.stringify`. -/
def relayerPost {δ : Type} (hmacSha256 : Bytes → Bytes → Bytes) (stringify : δ → List Char)
    (env : BuilderEnv) (now : Nat) (path : List Char) (data : δ) : HttpRequest :=
  let body := stringify data
  let headers := getBuilderHeaders hmacSha256 env now "POST".toList path (some body)
  { method := "POST", url := RELAYER_URL ++ path, body := some body, headers := headers,
    timeout := 30000 }

/-- The request sent by `relayerGet(path)`. -/
def relayerGet (hmacSha256 : Bytes → Bytes → Bytes) (env : BuilderEnv) (now : Nat)
    (path : List Char) : HttpRequest :=
  let headers := getBuilderHeaders hmacSha256 env now "GET".toList path none
  { method := "GET", url := RELAYER_URL ++ path, body := none, headers := headers,
    timeout := 15000 }

end BuilderRedeem

namespace ViemRedeem

/-- The relayer. -/
def RELAYER_URL : List Char := "https://relayer-v2.polymarket.com".toList

/-- `getBuilderHeaders(method, path, body = '')` of `viem-redeem.js`. -/
def getBuilderHeaders (hmacSha256 : Bytes → Bytes → Bytes) (env : BuilderEnv) (now : Nat)
    (method path : List Char) (body : Option (List Char)) : BuilderHeaders :=
  let body := body.getD []
  let ts := (toString (now / 1000)).toList
  { contentType := "application/json",
    POLY_BUILDER_API_KEY := env.BUILDER_KEY,
    POLY_BUILDER_TIMESTAMP := ts,
    POLY_BUILDER_PASSPHRASE := env.BUILDER_PASSPHRASE,
    POLY_BUILDER_SIGNATURE := signHmac hmacSha256 env.BUILDER_SECRET ts method path (some body) }

/-- The request sent by `relayerPost(path, data)`; `stringify` is `JSON.stringify`. -/
def relayerPost {δ : Type} (hmacSha256 : Bytes → Bytes → Bytes) (stringify : δ → List Char)
    (env : BuilderEnv) (now : Nat) (path : List Char) (data : δ) : HttpRequest :=
  let body := stringify data
  let headers := getBuilderHeaders hmacSha256 env now "POST".toList path (some body)
  { method := "POST", url := RELAYER_URL ++ path, body := some body, headers := headers,
    timeout := 30000 }

/-- The request sent by `relayerGet(path)`. -/
def relayerGet (hmacSha256 : Bytes → Bytes → Bytes) (env : BuilderEnv) (now : Nat)
    (path : List Char) : HttpRequest :=
  let headers := getBuilderHeaders hmacSha256 env now "GET".toList path none
  { method := "GET", url := RELAYER_URL ++ path, body := none, headers := headers,
    timeout := 15000 }

end ViemRedeem


/-! ## `viem-redeem.js`: what is hashed and what is posted -/

namespace ViemRedeem

/-- The arguments of one call of `calculateSafeTxHash`. -/
structure HashArgs where
  chainId : Nat
  safeAddress : Bytes
  to_ : Bytes
  value : Nat
  data : Bytes
  operation : Nat
  nonce : Nat
deriving DecidableEq

/-- The call `calculateSafeTxHash(...)` with these arguments. -/
def HashArgs.hash (keccak256 : Bytes → Bytes) (a : HashArgs) : Option Bytes :=
  calculateSafeTxHash keccak256 a.chainId a.safeAddress a.to_ a.value a.data a.operation a.nonce

/-- Lines 189-233: the `try` block of one candidate up to the POST, for the tracked nonce
`nonce`: the arguments it hands to `calculateSafeTxHash` and the request it builds from the
signature of that hash; `none` when a step before the POST throws. -/
def prepare (w : World) (account : String) (conditionId : String) (nonce : Nat) :
    Option (HashArgs × Request) :=
  match w.encodeFunctionData conditionId with
  | .error _ => none
  | .ok data =>
    let args : HashArgs :=
      { chainId := 137, safeAddress := hexBytes PROXY, to_ := hexBytes CTF, value := 0,
        data := data, operation := 0, nonce := nonce }
    match args.hash w.keccak256 with
    | none => none
    | some safeTxHash =>
      let signature := w.signMessage safeTxHash
      match adjustedSig signature with
      | none => none
      | some adjusted =>
        let request : Request :=
          { from_ := account,
            to_ := CTF,
            proxyWallet := PROXY,
            data := data,
            nonce := toString nonce,
            signature := adjusted,
            signatureParams :=
              { gasPrice := "0", operation := "0", safeTxnGas := "0", baseGas := "0",
                gasToken := "0x0000000000000000000000000000000000000000",
                refundReceiver := "0x0000000000000000000000000000000000000000" },
            type_ := "SAFE",
            metadata := "" }
        some (args, request)

end ViemRedeem


namespace ViemRedeem

/-- What the loop keeps true, for the nonce `initial` fetched before it: the tracked nonce is
`initial` plus `success`, `success` counts the candidates whose `try` block ran to the end,
and each candidate was hashed with `initial` plus the number of such candidates before it. -/
def NonceTracks (initial : Nat) (s : Batch) : Prop :=
  s.nonce = initial + s.success
    ∧ s.success = s.hashed.countP (fun h => h.completed)
    ∧ ∀ (k : Nat) (h : Hashed), s.hashed[k]? = some h →
        h.nonce = initial + (s.hashed.take k).countP (fun h => h.completed)

/-- A relayer whose answer to the first POST has the body `null` and which answers every
later POST with a transaction id, next to the signer, hash and calldata of `rejectingWorld`. -/
def nullAnswerWorld : World :=
  { rejectingWorld with
    relayerPost := fun k _ _ =>
      if k = 0 then .ok none
      else .ok (some { transactionID := some "tx-1", state := some "STATE_NEW" }) }

end ViemRedeem


namespace AutoRedeem

/-- The quiet world for an account that traded in ten markets, `m0` to `m9`, all closed,
market `m` having the condition id `0x` followed by `m`. -/
def busyWorld : World :=
  { quietWorld with
    getTrades := fun _ => .ok ["m0", "m1", "m2", "m3", "m4", "m5", "m6", "m7", "m8", "m9"]
    getMarket := fun _ marketId =>
      .ok (some { closed := true, condition_id := some ("0x" ++ marketId) }) }

end AutoRedeem


/-! ## `builder-redeem.js`: the Safe transaction hash through `hashTypedData`

viem's `hashTypedData`, for typed data whose fields have the elementary types below; fields
of a struct type or an array type, which the script does not use, are outside the model. -/

namespace Viem

/-- The type of a field of typed data. -/
inductive SolType where
  | address
  | uint256
  | uint8
  | bytes
  | bytes32
  | string
deriving DecidableEq

/-- The name of a type, as it is written in a type string. -/
def SolType.name : SolType → String
  | .address => "address"
  | .uint256 => "uint256"
  | .uint8 => "uint8"
  | .bytes => "bytes"
  | .bytes32 => "bytes32"
  | .string => "string"

/-- A member `{ name, type }` of a struct type. -/
structure TypedDataParameter where
  name : String
  type_ : SolType
deriving DecidableEq

/-- The value of a field: a hex string (given by its bytes), a non-negative number or
bigint, or a string. -/
inductive TypedValue where
  | hex (bytes : Bytes)
  | number (n : Nat)
  | text (s : String)
deriving DecidableEq

/-- The `domain` of typed data; a key that is left out is `none`. -/
structure TypedDataDomain where
  name : Option String
  version : Option String
  chainId : Option Nat
  verifyingContract : Option Bytes
  salt : Option Bytes

/-- `getTypesForEIP712Domain({ domain })`: one member for each key of the domain that is
there, in the order name, version, chainId, verifyingContract, salt. -/
def getTypesForEIP712Domain (domain : TypedDataDomain) : List TypedDataParameter :=
  (if domain.name.isSome then [{ name := "name", type_ := .string }] else [])
    ++ (if domain.version.isSome then [{ name := "version", type_ := .string }] else [])
    ++ (if domain.chainId.isSome then [{ name := "chainId", type_ := .uint256 }] else [])
    ++ (if domain.verifyingContract.isSome then
          [{ name := "verifyingContract", type_ := .address }] else [])
    ++ (if domain.salt.isSome then [{ name := "salt", type_ := .bytes32 }] else [])

/-- The domain as the object whose keys `hashDomain` reads. -/
def TypedDataDomain.data (domain : TypedDataDomain) : List (String × TypedValue) :=
  (domain.name.toList.map fun s => ("name", TypedValue.text s))
    ++ (domain.version.toList.map fun s => ("version", TypedValue.text s))
    ++ (domain.chainId.toList.map fun n => ("chainId", TypedValue.number n))
    ++ (domain.verifyingContract.toList.map fun a => ("verifyingContract", TypedValue.hex a))
    ++ (domain.salt.toList.map fun b => ("salt", TypedValue.hex b))

/-- `encodeType({ primaryType, types })` for a struct whose members have elementary types:
`Name(type1 name1,type2 name2,...)`. -/
def encodeType (primaryType : String) (members : List TypedDataParameter) : String :=
  primaryType ++ "(" ++ ",".intercalate (members.map fun m => m.type_.name ++ " " ++ m.name)
    ++ ")"

/-- `encodeField`: the ABI type and value a field contributes; a `bytes` value and a `string`
value are replaced by their hash.  `none` where the value does not fit the type. -/
def encodeField (keccak256 : Bytes → Bytes) : SolType → TypedValue → Option ViemRedeem.AbiArg
  | .bytes, .hex b => some (.bytes32 (keccak256 b))
  | .string, .text s => some (.bytes32 (keccak256 (utf8Bytes s)))
  | .address, .hex a => some (.address a)
  | .uint256, .number n => some (.uint256 n)
  | .uint8, .number n => some (.uint8 n)
  | .bytes32, .hex b => some (.bytes32 b)
  | _, _ => none

/-- The fields of `encodeData`, in the order of the members; `data[member.name]` is a
lookup by name. -/
def encodeFields (keccak256 : Bytes → Bytes) (data : List (String × TypedValue)) :
    List TypedDataParameter → Option (List ViemRedeem.AbiArg)
  | [] => some []
  | m :: rest => do
    let value ← data.lookup m.name
    let arg ← encodeField keccak256 m.type_ value
    let args ← encodeFields keccak256 data rest
    pure (arg :: args)

/-- `hashStruct({ data, primaryType, types })`: the hash of the ABI encoding of the type hash
followed by the fields. -/
def hashStruct (keccak256 : Bytes → Bytes) (types : List (String × List TypedDataParameter))
    (primaryType : String) (data : List (String × TypedValue)) : Option Bytes := do
  let members ← types.lookup primaryType
  let typeHash := keccak256 (utf8Bytes (encodeType primaryType members))
  let args ← encodeFields keccak256 data members
  let encoded ← ViemRedeem.encodeAbiParameters (.bytes32 typeHash :: args)
  pure (keccak256 encoded)

/-- The checks of `validateTypedData` on the members of one struct: an integer within the
range of its type, an address of 20 bytes, a `bytes32` of 32 bytes. -/
def validateData (data : List (String × TypedValue)) : List TypedDataParameter → Option Unit
  | [] => some ()
  | m :: rest =>
    let ok : Bool :=
      match m.type_, data.lookup m.name with
      | .uint256, some (.number n) => decide (n < 2 ^ 256)
      | .uint8, some (.number n) => decide (n < 2 ^ 8)
      | .address, some (.hex a) => decide (a.length = 20)
      | .bytes32, some (.hex b) => decide (b.length = 32)
      | .bytes32, _ => false
      | _, _ => true
    if ok then validateData data rest else none

/-- `hashTypedData({ domain, types, primaryType, message })`:
`keccak256(0x1901 ‖ hashDomain ‖ hashStruct(message))`, after validation. -/
def hashTypedData (keccak256 : Bytes → Bytes) (domain : TypedDataDomain)
    (types : List (String × List TypedDataParameter)) (primaryType : String)
    (message : List (String × TypedValue)) : Option Bytes := do
  let types := types ++ [("EIP712Domain", getTypesForEIP712Domain domain)]
  let domainMembers ← types.lookup "EIP712Domain"
  validateData domain.data domainMembers
  if primaryType ≠ "EIP712Domain" then
    let members ← types.lookup primaryType
    validateData message members
  let domainHash ← hashStruct keccak256 types "EIP712Domain" domain.data
  let parts := [0x19, 0x01] ++ domainHash
  if primaryType ≠ "EIP712Domain" then
    let structHash ← hashStruct keccak256 types primaryType message
    pure (keccak256 (parts ++ structHash))
  else
    pure (keccak256 parts)

end Viem

namespace BuilderRedeem

/-- `createSafeTxHash(chainId, safe, to, value, data, operation, nonce)`; `value` and `nonce`
stand for `BigInt(value)` and `BigInt(nonce)`, `to_` for `to`. -/
def createSafeTxHash (keccak256 : Bytes → Bytes) (chainId : Nat) (safe to_ : Bytes)
    (value : Nat) (data : Bytes) (operation nonce : Nat) : Option Bytes :=
  let domain : Viem.TypedDataDomain :=
    { name := none, version := none, chainId := some chainId, verifyingContract := some safe,
      salt := none }
  let types : List (String × List Viem.TypedDataParameter) :=
    [ ("SafeTx",
        [ { name := "to", type_ := .address },
          { name := "value", type_ := .uint256 },
          { name := "data", type_ := .bytes },
          { name := "operation", type_ := .uint8 },
          { name := "safeTxGas", type_ := .uint256 },
          { name := "baseGas", type_ := .uint256 },
          { name := "gasPrice", type_ := .uint256 },
          { name := "gasToken", type_ := .address },
          { name := "refundReceiver", type_ := .address },
          { name := "nonce", type_ := .uint256 } ]) ]
  let message : List (String × Viem.TypedValue) :=
    [ ("to", .hex to_), ("value", .number value), ("data", .hex data),
      ("operation", .number operation),
      ("safeTxGas", .number 0), ("baseGas", .number 0), ("gasPrice", .number 0),
      ("gasToken", .hex (ViemRedeem.hexBytes "0x0000000000000000000000000000000000000000")),
      ("refundReceiver",
        .hex (ViemRedeem.hexBytes "0x0000000000000000000000000000000000000000")),
      ("nonce", .number nonce) ]
  Viem.hashTypedData keccak256 domain types "SafeTx" message

end BuilderRedeem


/-! ## `trade-logger.js`: the trade log

The log file is a state: `none` while it does not exist, else the object it holds (what is
written is what is read back; numbers are exact).  The counters of the summary are
integers. -/

namespace Js

/-- The value of a list of decimal digits, most significant first. -/
def decimalDigitsValue (digits : List Char) : Nat :=
  digits.foldl (fun acc c => acc * 10 + (c.toNat - '0'.toNat)) 0

/-- `parseInt(str)` without a radix: skips leading white space, reads an optional sign,
then hexadecimal digits after `0x` or `0X`, decimal digits otherwise; `NaN` (`none`) when
there is no digit. -/
def parseInt (str : List Char) : Option Int :=
  let trimmed := str.dropWhile isStrWhiteSpace
  let negative := trimmed.head? = some '-'
  let unsigned :=
    if trimmed.head? = some '-' ∨ trimmed.head? = some '+' then trimmed.drop 1 else trimmed
  if unsigned.take 2 = ['0', 'x'] ∨ unsigned.take 2 = ['0', 'X'] then
    let digits := (unsigned.drop 2).takeWhile fun c => (hexDigitValue c).isSome
    if digits = [] then none
    else if negative then some (-(hexDigitsValue digits : Int))
    else some (hexDigitsValue digits : Int)
  else
    let digits := unsigned.takeWhile fun c => c.isDigit
    if digits = [] then none
    else if negative then some (-(decimalDigitsValue digits : Int))
    else some (decimalDigitsValue digits : Int)

/-- `str.split(sep).pop()` for a one-character separator: what follows the last `sep`. -/
def splitPop (str : List Char) (sep : Char) : List Char :=
  (str.reverse.takeWhile fun c => c ≠ sep).reverse

end Js

namespace TradeLogger

/-- The argument of `logTrade`, with the properties it reads. -/
structure TradeInput (α : Type) where
  slug : Option String
  tokenId : Option String
  side : Option String
  outcome : Option String
  size : α
  price : α
  orderId : Option String

/-- An entry of `trades`. -/
structure Trade (α : Type) where
  id : String
  timestamp : Nat
  marketSlug : String
  tokenId : Option String
  side : Option String
  outcome : Option String
  size : α
  price : α
  cost : α
  orderId : Option String
  status : String
  payout : α
  profit : α
  resolvedAt : Option Nat
  marketResult : Option String

/-- The object `summary`. -/
structure Summary (α : Type) where
  totalCost : α
  totalPayout : α
  wins : Int
  losses : Int
  pending : Int

/-- The content of the log file. -/
structure Data (α : Type) where
  trades : List (Trade α)
  summary : Summary α

/-- `initLog()`: creates the file with an empty log when it does not exist, and returns what
the file holds; the second component is the file afterwards. -/
def initLog {α : Type} [Ring α] (file : Option (Data α)) : Data α × Option (Data α) :=
  match file with
  | none =>
    let fresh : Data α :=
      { trades := [],
        summary := { totalCost := 0, totalPayout := 0, wins := 0, losses := 0, pending := 0 } }
    (fresh, some fresh)
  | some data => (data, some data)

/-- `logTrade(trade)` at `Date.now() = now`: the entry it returns and the file afterwards. -/
def logTrade {α : Type} [Ring α] (now : Nat) (trade : TradeInput α) (file : Option (Data α)) :
    Trade α × Option (Data α) :=
  let data := (initLog file).1
  let entry : Trade α :=
    { id := toString now,
      timestamp := now,
      marketSlug := match trade.slug with
        | some slug => if slug ≠ "" then slug else "unknown"
        | none => "unknown",
      tokenId := trade.tokenId,
      side := trade.side,
      outcome := trade.outcome,
      size := trade.size,
      price := trade.price,
      cost := trade.size * trade.price,
      orderId := match trade.orderId with
        | some orderId => if orderId ≠ "" then some orderId else none
        | none => none,
      status := "PENDING",
      payout := 0,
      profit := 0,
      resolvedAt := none,
      marketResult := none }
  let data : Data α :=
    { trades := data.trades ++ [entry],
      summary := { data.summary with
        totalCost := data.summary.totalCost + entry.cost,
        pending := data.summary.pending + 1 } }
  (entry, some data)

/-- What `checkPendingTrades` reads of the first market of the answer. -/
structure MarketAnswer where
  resolved : Bool
  outcome : Option String
  winner : Option String

/-- The outside of one iteration of `checkPendingTrades`: `Date.now()` in milliseconds, and
how the request for the market ends: rejected, or answered with a market that may be
missing. -/
structure Lookup where
  now : Nat
  response : Except String (Option MarketAnswer)

/-- The first of two strings that is there and not empty (`a || b`). -/
def orElse (a b : Option String) : Option String :=
  match a with
  | some x => if x ≠ "" then some x else b
  | none => b

/-- Lines 55-61: whether the trade is passed over because its market should not be resolved
yet: `now < windowEnd + 300`, with `windowStart` parsed from what follows the last `-` of
the slug (0 when nothing follows it); a comparison with `NaN` is false. -/
def tooEarly (now : Nat) (marketSlug : String) : Bool :=
  let last := Js.splitPop marketSlug.toList '-'
  let windowStart := if last = [] then some (0 : Int) else Js.parseInt last
  let windowEnd := windowStart.map fun x => x + 900
  let now : Int := ((now / 1000 : Nat) : Int)
  match windowEnd with
  | some windowEnd => decide (now < windowEnd + 300)
  | none => false

/-- Lines 68-86: the update of a pending trade whose market has a result. -/
def settle {α : Type} [Ring α] (now : Nat) (market : MarketAnswer) (trade : Trade α)
    (summary : Summary α) (updated : Nat) : Trade α × Summary α × Nat :=
  let winner := orElse market.outcome market.winner
  let won : Bool :=
    (trade.outcome = some "Up" ∧ winner = some "Up")
      ∨ (trade.outcome = some "Down" ∧ winner = some "Down")
  let payout : α := if won then trade.size else 0
  let trade : Trade α :=
    { trade with
      status := if won then "WIN" else "LOSS",
      marketResult := winner,
      payout := payout,
      profit := payout - trade.cost,
      resolvedAt := some now }
  let summary : Summary α := { summary with pending := summary.pending - 1 }
  let summary : Summary α :=
    if won then
      { summary with wins := summary.wins + 1,
                     totalPayout := summary.totalPayout + trade.payout }
    else { summary with losses := summary.losses + 1 }
  (trade, summary, updated + 1)

/-- One iteration of the loop of `checkPendingTrades` (lines 53-93) on a trade: the trade,
the summary and the counter `updated` afterwards.  A trade that is not pending, or too
early, is passed over; a request that is rejected, or answered without a market or without
a result, changes nothing. -/
def checkTrade {α : Type} [Ring α] (lookup : Lookup) (trade : Trade α) (summary : Summary α)
    (updated : Nat) : Trade α × Summary α × Nat :=
  if trade.status ≠ "PENDING" then (trade, summary, updated)
  else if tooEarly lookup.now trade.marketSlug then (trade, summary, updated)
  else
    match lookup.response with
    | .error _ => (trade, summary, updated)
    | .ok none => (trade, summary, updated)
    | .ok (some market) =>
      if market.resolved = true ∨ (orElse market.outcome none).isSome then
        settle lookup.now market trade summary updated
      else (trade, summary, updated)

/-- The loop `for (const trade of data.trades)`; `env i` is the outside of the iteration on
the trade at index `i`. -/
def checkLoop {α : Type} [Ring α] (env : Nat → Lookup) :
    (i : Nat) → List (Trade α) → Summary α → Nat → List (Trade α) × Summary α × Nat
  | _, [], summary, updated => ([], summary, updated)
  | i, trade :: rest, summary, updated =>
    let here := checkTrade (env i) trade summary updated
    let later := checkLoop env (i + 1) rest here.2.1 here.2.2
    (here.1 :: later.1, later.2.1, later.2.2)

/-- `checkPendingTrades()`: the number it returns and the file afterwards, written only when
a trade was updated. -/
def checkPendingTrades {α : Type} [Ring α] (env : Nat → Lookup) (file : Option (Data α)) :
    Nat × Option (Data α) :=
  let opened := initLog file
  let done := checkLoop env 0 opened.1.trades opened.1.summary 0
  if done.2.2 > 0 then (done.2.2, some { trades := done.1, summary := done.2.1 })
  else (done.2.2, opened.2)

/-- A call made on the log. -/
inductive Op (α : Type) where
  | logTrade (now : Nat) (trade : TradeInput α)
  | checkPendingTrades (env : Nat → Lookup)

/-- The file after a sequence of calls, made one after the other. -/
def run {α : Type} [Ring α] : List (Op α) → Option (Data α) → Option (Data α)
  | [], file => file
  | .logTrade now trade :: rest, file => run rest (logTrade now trade file).2
  | .checkPendingTrades env :: rest, file => run rest (checkPendingTrades env file).2

/-- The number of trades whose status is `'PENDING'`. -/
def pendingCount {α : Type} (trades : List (Trade α)) : Nat :=
  trades.countP fun trade => trade.status = "PENDING"

/-- The summary agrees with the trade list. -/
def Consistent {α : Type} (data : Data α) : Prop :=
  data.summary.pending + data.summary.wins + data.summary.losses = (data.trades.length : Int)
    ∧ data.summary.pending = (pendingCount data.trades : Int)

end TradeLogger


/-! # Theorems -/

namespace AutoRedeem

theorem selections_succ (rpcs : List String) (cur n : Nat) (hcur : cur < rpcs.length) :
    selections rpcs cur (n + 1)
      = rpcs[cur]? :: selections rpcs ((cur + 1) % rpcs.length) n := by
  unfold selections
  rw [List.range_succ_eq_map, List.map_cons, List.map_map]
  congr 1
  · simp [Nat.mod_eq_of_lt hcur]
  · apply List.map_congr_left
    intro k _
    simp only [Function.comp]
    congr 1
    rw [Nat.mod_add_mod]
    congr 1
    omega

theorem loop_all_fail (rpcs : List String) (probe : Nat → Option String → Bool)
    (hfail : ∀ i rpc, probe i rpc = false) :
    ∀ (n i cur : Nat), cur < rpcs.length →
      getWorkingProviderLoop rpcs probe n i cur
        = { result := .error "All RPCs failed",
            cursor := (cur + n) % rpcs.length,
            probed := selections rpcs cur n } := by
  intro n
  induction n with
  | zero =>
    intro i cur hcur
    simp [getWorkingProviderLoop, selections, Nat.mod_eq_of_lt hcur]
  | succ n ih =>
    intro i cur hcur
    have hpos : 0 < rpcs.length := by omega
    have hlt : (cur + 1) % rpcs.length < rpcs.length := Nat.mod_lt _ hpos
    rw [selections_succ rpcs cur n hcur]
    simp only [getWorkingProviderLoop, getNextRpc, hfail, Bool.false_eq_true, if_false]
    rw [ih (i + 1) _ hlt]
    simp only [Nat.mod_add_mod]
    congr 2
    omega

theorem selections_two_rounds (rpcs : List String) (cur : Nat) :
    selections rpcs cur (rpcs.length * 2)
      = (rpcs.rotate cur ++ rpcs.rotate cur).map some := by
  apply List.ext_getElem
  · simp [selections]; omega
  · intro k h1 h2
    have hk : k < rpcs.length * 2 := by simpa [selections] using h1
    have hpos : 0 < rpcs.length := by omega
    simp only [selections, List.getElem_map, List.getElem_range]
    have hm : (cur + k) % rpcs.length < rpcs.length := Nat.mod_lt _ hpos
    rw [List.getElem?_eq_getElem hm]
    congr 1
    by_cases hlt : k < rpcs.length
    · rw [List.getElem_append_left (by simpa using hlt), List.getElem_rotate]
      congr 1
      rw [Nat.add_comm]
    · have hk2 : k - rpcs.length < rpcs.length := by omega
      rw [List.getElem_append_right (by simpa using Nat.le_of_not_lt hlt)]
      rw [List.getElem_rotate]
      simp only [List.length_rotate]
      congr 1
      have : cur + k = (k - rpcs.length + cur) + rpcs.length := by omega
      rw [this, Nat.add_mod_right]

theorem count_map_some (l : List String) (e : String) :
    (l.map some).count (some e) = l.count e := by
  induction l with
  | nil => rfl
  | cons a l ih =>
    rw [List.map_cons, List.count_cons, List.count_cons, ih]
    by_cases h : a = e <;> simp [h]

theorem loop_error_length (rpcs : List String) (probe : Nat → Option String → Bool) :
    ∀ (n i cur : Nat) (msg : String),
      (getWorkingProviderLoop rpcs probe n i cur).result = .error msg →
      (getWorkingProviderLoop rpcs probe n i cur).probed.length = n := by
  intro n
  induction n with
  | zero => intro i cur msg _; simp [getWorkingProviderLoop]
  | succ n ih =>
    intro i cur msg h
    simp only [getWorkingProviderLoop] at h ⊢
    split at h
    · simp at h
    · rename_i hp
      simp only [hp, Bool.false_eq_true, if_false, List.length_cons]
      rw [ih (i + 1) _ msg h]

theorem loop_last_alive (rpcs : List String) (probe : Nat → Option String → Bool)
    (hfirst : ∀ i j, j + 1 < rpcs.length → probe i rpcs[j]? = false)
    (hlast : ∀ i, probe i rpcs[rpcs.length - 1]? = true) :
    ∀ (d n i cur : Nat), cur + d + 1 = rpcs.length → d < n →
      getWorkingProviderLoop rpcs probe n i cur
        = { result := .ok rpcs[rpcs.length - 1]?,
            cursor := 0,
            probed := selections rpcs cur (d + 1) } := by
  intro d
  induction d with
  | zero =>
    intro n i cur hcur hn
    obtain ⟨m, rfl⟩ : ∃ m, n = m + 1 := ⟨n - 1, by omega⟩
    have hc : cur = rpcs.length - 1 := by omega
    have h1 : (cur + 1) % rpcs.length = 0 := by
      have : cur + 1 = rpcs.length := by omega
      rw [this, Nat.mod_self]
    have hs : selections rpcs cur 1 = [rpcs[cur]?] := by
      simp [selections, List.range_succ, Nat.mod_eq_of_lt (show cur < rpcs.length by omega)]
    simp only [getWorkingProviderLoop, getNextRpc, hs, h1]
    rw [hc, hlast i]
    simp
  | succ d ih =>
    intro n i cur hcur hn
    obtain ⟨m, rfl⟩ : ∃ m, n = m + 1 := ⟨n - 1, by omega⟩
    have hlt : cur < rpcs.length := by omega
    have h1 : (cur + 1) % rpcs.length = cur + 1 := Nat.mod_eq_of_lt (by omega)
    rw [selections_succ rpcs cur (d + 1) hlt, h1]
    simp only [getWorkingProviderLoop, getNextRpc, hfirst i cur (by omega), h1,
      Bool.false_eq_true, if_false]
    rw [ih m (i + 1) (cur + 1) (by omega) (by omega)]

/-- C1: when every liveness probe fails, `getWorkingProvider` started at any cursor below
`|RPCS|` throws `'All RPCs failed'` after exactly `2 × |RPCS|` probes: the probed
endpoints are the list read twice round from the cursor, so each endpoint is probed
twice as often as it is listed (twice, for a list without repetition), and the cursor
is back where it started.  No run, whatever the probes answer, throws after fewer
probes. -/
theorem getWorkingProvider_all_fail (rpcs : List String)
    (probe : Nat → Option String → Bool) (cur : Nat) (hcur : cur < rpcs.length)
    (hfail : ∀ i rpc, probe i rpc = false) :
    (getWorkingProvider rpcs probe cur).result = .error "All RPCs failed"
    ∧ (getWorkingProvider rpcs probe cur).probed.length = 2 * rpcs.length
    ∧ (getWorkingProvider rpcs probe cur).probed
        = (rpcs.rotate cur ++ rpcs.rotate cur).map some
    ∧ (∀ e, (getWorkingProvider rpcs probe cur).probed.count (some e) = 2 * rpcs.count e)
    ∧ (rpcs.Nodup → ∀ e ∈ rpcs, (getWorkingProvider rpcs probe cur).probed.count (some e) = 2)
    ∧ (getWorkingProvider rpcs probe cur).cursor = cur
    ∧ (∀ (probe2 : Nat → Option String → Bool) (cur2 : Nat) (msg : String),
        (getWorkingProvider rpcs probe2 cur2).result = .error msg →
        (getWorkingProvider rpcs probe2 cur2).probed.length = 2 * rpcs.length) := by
  have hrun := loop_all_fail rpcs probe hfail (rpcs.length * 2) 0 cur hcur
  have hcount : ∀ e, ((rpcs.rotate cur ++ rpcs.rotate cur).map some).count (some e)
      = 2 * rpcs.count e := by
    intro e
    rw [count_map_some, List.count_append, (List.rotate_perm rpcs cur).count_eq]
    omega
  unfold getWorkingProvider
  rw [hrun, selections_two_rounds]
  refine ⟨rfl, ?_, rfl, hcount, ?_, ?_, ?_⟩
  · simp; omega
  · intro hnd e he
    show ((rpcs.rotate cur ++ rpcs.rotate cur).map some).count (some e) = 2
    rw [hcount e, List.count_eq_one_of_mem hnd he]
  · show (cur + rpcs.length * 2) % rpcs.length = cur
    rw [Nat.add_mul_mod_self_left, Nat.mod_eq_of_lt hcur]
  · intro probe2 cur2 msg h
    rw [loop_error_length rpcs probe2 _ 0 cur2 msg h, Nat.mul_comm]

/-- Witness of C1 on the configured list, all probes failing, cursor at 3. -/
theorem getWorkingProvider_all_fail_witness :
    (getWorkingProvider RPCS (fun _ _ => false) 3).result = .error "All RPCs failed"
    ∧ (getWorkingProvider RPCS (fun _ _ => false) 3).probed.length = 2 * RPCS.length :=
  have h := getWorkingProvider_all_fail RPCS (fun _ _ => false) 3 (by decide)
    (fun _ _ => rfl)
  ⟨h.1, h.2.1⟩

/-- C2: when the probe fails for each of the first `N - 1` endpoints and succeeds for the
last one, `getWorkingProvider` started at any cursor below `N` returns the last endpoint
as `rpc`, after `N - cursor` probes, hence at most `N`. -/
theorem getWorkingProvider_last_alive (rpcs : List String)
    (probe : Nat → Option String → Bool) (cur : Nat) (hcur : cur < rpcs.length)
    (hfirst : ∀ i j, j + 1 < rpcs.length → probe i rpcs[j]? = false)
    (hlast : ∀ i, probe i rpcs[rpcs.length - 1]? = true) :
    (getWorkingProvider rpcs probe cur).result = .ok rpcs.getLast?
    ∧ rpcs.getLast?.isSome
    ∧ (getWorkingProvider rpcs probe cur).probed.length = rpcs.length - cur
    ∧ (getWorkingProvider rpcs probe cur).probed.length ≤ rpcs.length := by
  have hrun := loop_last_alive rpcs probe hfirst hlast (rpcs.length - cur - 1)
    (rpcs.length * 2) 0 cur (by omega) (by omega)
  have hlen : (selections rpcs cur (rpcs.length - cur - 1 + 1)).length
      = rpcs.length - cur := by
    simp [selections]; omega
  unfold getWorkingProvider
  rw [hrun]
  refine ⟨?_, ?_, hlen, ?_⟩
  · show Except.ok rpcs[rpcs.length - 1]? = Except.ok rpcs.getLast?
    rw [List.getLast?_eq_getElem?]
  · rw [List.getLast?_eq_getElem?, List.getElem?_eq_getElem (by omega)]
    rfl
  · show (selections rpcs cur (rpcs.length - cur - 1 + 1)).length ≤ rpcs.length
    rw [hlen]; omega

/-- Witness of C2 on the configured list: only the fifth endpoint answers, cursor at 2. -/
theorem getWorkingProvider_last_alive_witness :
    (getWorkingProvider RPCS
        (fun _ rpc => rpc == some "https://polygon-mainnet.public.blastapi.io") 2).result
      = .ok RPCS.getLast?
    ∧ (getWorkingProvider RPCS
        (fun _ rpc => rpc == some "https://polygon-mainnet.public.blastapi.io") 2).probed.length
      ≤ RPCS.length :=
  have h := getWorkingProvider_last_alive RPCS
    (fun _ rpc => rpc == some "https://polygon-mainnet.public.blastapi.io") 2 (by decide)
    (by
      intro i j hj
      have hj4 : j < 4 := by
        have h5 : RPCS.length = 5 := rfl
        omega
      interval_cases j <;> simp [RPCS])
    (by intro i; simp [RPCS])
  ⟨h.1, h.2.2.2⟩

/-! ### The retry controller -/

theorem retryLoop_succeeds {ε α : Type} (fn : Nat → Except ε α) (maxAttempts : Int)
    (k : Nat) (x : α) (hk : (k : Int) < maxAttempts)
    (hfail : ∀ j, j < k → ∃ e, fn j = .error e) (hok : fn k = .ok x) :
    ∀ (d r i : Nat), i + d = k → d < r →
      retryLoop fn maxAttempts r i = { outcome := .ok (some x), calls := d + 1 } := by
  intro d
  induction d with
  | zero =>
    intro r i hi hr
    obtain ⟨m, rfl⟩ : ∃ m, r = m + 1 := ⟨r - 1, by omega⟩
    have hik : i = k := by omega
    simp [retryLoop, hik, hok]
  | succ d ih =>
    intro r i hi hr
    obtain ⟨m, rfl⟩ : ∃ m, r = m + 1 := ⟨r - 1, by omega⟩
    obtain ⟨e, he⟩ := hfail i (by omega)
    have hne : ¬ ((i : Int) = maxAttempts - 1) := by omega
    simp only [retryLoop, he, hne, if_false]
    rw [ih m (i + 1) (by omega) (by omega)]

theorem retryLoop_exhausts {ε α : Type} (fn : Nat → Except ε α) (maxAttempts : Int)
    (err : Nat → ε) (hfail : ∀ j : Nat, (j : Int) < maxAttempts → fn j = .error (err j)) :
    ∀ (d i : Nat), (i : Int) + d + 1 = maxAttempts →
      retryLoop fn maxAttempts (d + 1) i
        = { outcome := .error (err (i + d)), calls := d + 1 } := by
  intro d
  induction d with
  | zero =>
    intro i hi
    have hlast : (i : Int) = maxAttempts - 1 := by omega
    simp [retryLoop, hfail i (by omega), hlast]
  | succ d ih =>
    intro i hi
    have hi2 : (i : Int) + (d : Int) + 2 = maxAttempts := by push_cast at hi; omega
    have hne : ¬ ((i : Int) = maxAttempts - 1) := by omega
    rw [retryLoop]
    simp only [hfail i (by omega), hne, if_false]
    rw [ih (i + 1) (by push_cast; omega)]
    have hidx : i + 1 + d = i + (d + 1) := by omega
    rw [hidx]

/-- C3: for `maxAttempts ≥ 1` and `k < maxAttempts`, when `fn` rejects on its first `k`
invocations and resolves to `x` on invocation `k + 1`, `retry` returns `x` and has
invoked `fn` exactly `k + 1` times. -/
theorem retry_returns_first_success {ε α : Type} (fn : Nat → Except ε α)
    (maxAttempts : Int) (delay k : Nat) (x : α) (hmax : 1 ≤ maxAttempts)
    (hk : (k : Int) < maxAttempts)
    (hfail : ∀ j, j < k → ∃ e, fn j = .error e) (hok : fn k = .ok x) :
    retry fn maxAttempts delay = { outcome := .ok (some x), calls := k + 1 } := by
  unfold retry
  exact retryLoop_succeeds fn maxAttempts k x hk hfail hok k maxAttempts.toNat 0
    (by omega) (by omega)

/-- Witness of C3: two rejections, then `"done"`, with `maxAttempts = 3`: the value is
returned after exactly three invocations. -/
theorem retry_returns_first_success_witness :
    retry (fun i => if i < 2 then Except.error i else Except.ok "done") 3 2000
      = { outcome := .ok (some "done"), calls := 3 } :=
  retry_returns_first_success (fun i => if i < 2 then Except.error i else Except.ok "done")
    3 2000 2 "done" (by decide) (by decide)
    (fun j hj => ⟨j, by simp [hj]⟩) (by simp)

/-- C4: for `maxAttempts ≥ 1`, when `fn` rejects on every invocation (invocation `j + 1`
with `err j`), `retry` invokes `fn` exactly `maxAttempts` times and throws the error of
the last invocation, `err (maxAttempts - 1)`, as it is; an earlier error that differs
from it is not the one thrown. -/
theorem retry_throws_last_error {ε α : Type} (fn : Nat → Except ε α)
    (maxAttempts : Int) (delay : Nat) (err : Nat → ε) (hmax : 1 ≤ maxAttempts)
    (hfail : ∀ j : Nat, (j : Int) < maxAttempts → fn j = .error (err j)) :
    retry fn maxAttempts delay
      = { outcome := .error (err (maxAttempts.toNat - 1)), calls := maxAttempts.toNat }
    ∧ ((retry fn maxAttempts delay).calls : Int) = maxAttempts
    ∧ (∀ j, j < maxAttempts.toNat - 1 → err j ≠ err (maxAttempts.toNat - 1) →
        (retry fn maxAttempts delay).outcome ≠ .error (err j)) := by
  have hrun : retry fn maxAttempts delay
      = { outcome := .error (err (maxAttempts.toNat - 1)), calls := maxAttempts.toNat } := by
    unfold retry
    obtain ⟨d, hd⟩ : ∃ d, maxAttempts.toNat = d + 1 := ⟨maxAttempts.toNat - 1, by omega⟩
    rw [hd, retryLoop_exhausts fn maxAttempts err hfail d 0 (by omega)]
    simp
  refine ⟨hrun, ?_, ?_⟩
  · rw [hrun]
    show ((maxAttempts.toNat : Nat) : Int) = maxAttempts
    omega
  · intro j _ hne h
    rw [hrun] at h
    injection h with h
    exact hne h.symm

/-- Witness of C4: every invocation rejects with its own number, `maxAttempts = 3`: the
error thrown is that of the third invocation, after three invocations. -/
theorem retry_throws_last_error_witness :
    retry (fun i => (Except.error i : Except Nat String)) 3 2000
      = { outcome := .error 2, calls := 3 } :=
  (retry_throws_last_error (fun i => (Except.error i : Except Nat String)) 3 2000
    (fun j => j) (by decide) (fun _ _ => rfl)).1

end AutoRedeem

/-! ### The Safe transaction hash -/

namespace ViemRedeem

set_option maxRecDepth 100000 in
theorem typeSignature_safeTx :
    Spec.typeSignature "SafeTx" Spec.safeTxFields = SAFE_TX_TYPE := by
  decide

/-- C5: for a hash function with 32-byte digests and arguments within their ABI types
(`chainId`, `value`, `nonce` below `2^256`, `operation` below `2^8`, 20-byte addresses),
`calculateSafeTxHash` returns `keccak256(0x19 0x01 ‖ D ‖ S)`, where `D` is the hash of the
words (domain type hash, chainId, safeAddress) and `S` the hash of the words
(SafeTx type hash, to, value, keccak256(data), operation, 0, 0, 0, zero address, zero
address, nonce), in that order; the type hashes are the hashes of the canonical type
strings; the final preimage is 66 bytes long. -/
theorem calculateSafeTxHash_layout (keccak256 : Bytes → Bytes)
    (chainId : Nat) (safeAddress to_ : Bytes) (value : Nat) (data : Bytes)
    (operation nonce : Nat)
    (hK : ∀ b, (keccak256 b).length = 32)
    (hchain : chainId < 2 ^ 256) (hsafe : safeAddress.length = 20) (hto : to_.length = 20)
    (hvalue : value < 2 ^ 256) (hop : operation < 2 ^ 8) (hnonce : nonce < 2 ^ 256) :
    ∃ D S : Bytes,
      D = keccak256
            (keccak256 (utf8Bytes "EIP712Domain(uint256 chainId,address verifyingContract)")
              ++ Spec.uintWord chainId ++ Spec.addressWord safeAddress)
      ∧ S = keccak256
            (keccak256 (utf8Bytes (Spec.typeSignature "SafeTx" Spec.safeTxFields))
              ++ Spec.addressWord to_ ++ Spec.uintWord value ++ keccak256 data
              ++ Spec.uintWord operation
              ++ Spec.uintWord 0 ++ Spec.uintWord 0 ++ Spec.uintWord 0
              ++ Spec.addressWord (List.replicate 20 0)
              ++ Spec.addressWord (List.replicate 20 0)
              ++ Spec.uintWord nonce)
      ∧ calculateDomainSeparator keccak256 chainId safeAddress = some D
      ∧ calculateSafeTxHash keccak256 chainId safeAddress to_ value data operation nonce
          = some (keccak256 ([0x19, 0x01] ++ D ++ S))
      ∧ ([0x19, 0x01] ++ D ++ S).length = 2 + 32 + 32 := by
  have hzero : (List.replicate 20 0 : Bytes).length = 20 := List.length_replicate 20 0
  have hzero256 : (0 : Nat) < 2 ^ 256 := Nat.pow_pos (by decide)
  have hD : calculateDomainSeparator keccak256 chainId safeAddress
      = some (keccak256
          (keccak256 (utf8Bytes "EIP712Domain(uint256 chainId,address verifyingContract)")
            ++ Spec.uintWord chainId ++ Spec.addressWord safeAddress)) := by
    simp only [calculateDomainSeparator, encodeAbiParameters, encodeWord, if_pos hchain,
      if_pos hsafe, if_pos (hK _), DOMAIN_SEPARATOR_TYPEHASH, DOMAIN_SEPARATOR_TYPE,
      Spec.uintWord, Spec.addressWord, bind, Option.bind, pure, Option.map,
      List.append_nil, List.append_assoc]
  refine ⟨_, _, rfl, rfl, hD, ?_, ?_⟩
  · simp only [calculateSafeTxHash, hD, encodeAbiParameters, encodeWord, if_pos hto,
      if_pos hvalue, if_pos hop, if_pos hnonce, if_pos hzero, if_pos hzero256, if_pos (hK _),
      typeSignature_safeTx, zeroAddress, SAFE_TX_TYPEHASH,
      Spec.uintWord, Spec.addressWord, bind, Option.bind, pure, Option.map,
      List.append_nil, List.append_assoc]
  · simp [hK]

/-- Witness of C5: chain 137, every address and the calldata made of zero bytes, a hash
function with constant 32-byte digests. -/
theorem calculateSafeTxHash_layout_witness :
    ∃ D S : Bytes,
      D = (fun _ => List.replicate 32 0 : Bytes → Bytes)
            ((fun _ => List.replicate 32 0 : Bytes → Bytes)
                (utf8Bytes "EIP712Domain(uint256 chainId,address verifyingContract)")
              ++ Spec.uintWord 137 ++ Spec.addressWord (List.replicate 20 0))
      ∧ S = (fun _ => List.replicate 32 0 : Bytes → Bytes)
            ((fun _ => List.replicate 32 0 : Bytes → Bytes)
                (utf8Bytes (Spec.typeSignature "SafeTx" Spec.safeTxFields))
              ++ Spec.addressWord (List.replicate 20 0) ++ Spec.uintWord 0
              ++ (fun _ => List.replicate 32 0 : Bytes → Bytes) [0, 0, 0, 0]
              ++ Spec.uintWord 0
              ++ Spec.uintWord 0 ++ Spec.uintWord 0 ++ Spec.uintWord 0
              ++ Spec.addressWord (List.replicate 20 0)
              ++ Spec.addressWord (List.replicate 20 0)
              ++ Spec.uintWord 7)
      ∧ calculateDomainSeparator (fun _ => List.replicate 32 0) 137 (List.replicate 20 0)
          = some D
      ∧ calculateSafeTxHash (fun _ => List.replicate 32 0) 137 (List.replicate 20 0)
            (List.replicate 20 0) 0 [0, 0, 0, 0] 0 7
          = some ((fun _ => List.replicate 32 0 : Bytes → Bytes) ([0x19, 0x01] ++ D ++ S))
      ∧ ([0x19, 0x01] ++ D ++ S).length = 2 + 32 + 32 :=
  calculateSafeTxHash_layout (fun _ => List.replicate 32 0) 137 (List.replicate 20 0)
    (List.replicate 20 0) 0 [0, 0, 0, 0] 0 7 (fun _ => by simp) (by norm_num) (by simp)
    (by simp) (by norm_num) (by norm_num) (by norm_num)

end ViemRedeem

/-! ### Signature packing -/

set_option maxRecDepth 100000 in
theorem hexes_table :
    ∀ b, b < 256 → Viem.hexes b = [Nat.digitChar (b / 16), Nat.digitChar (b % 16)]
      ∧ Viem.charCodeToBase16 (Nat.digitChar (b / 16)) = some (b / 16)
      ∧ Viem.charCodeToBase16 (Nat.digitChar (b % 16)) = some (b % 16) := by
  decide

theorem hexPairs_hexes_append (b : Nat) (hb : b < 256) (rest : List Char) :
    Viem.hexPairs (Viem.hexes b ++ rest) = (Viem.hexPairs rest).map (b :: ·) := by
  obtain ⟨heq, hl, hr⟩ := hexes_table b hb
  have hsum : b / 16 * 16 + b % 16 = b := by omega
  rw [heq]
  show Viem.hexPairs (Nat.digitChar (b / 16) :: Nat.digitChar (b % 16) :: rest) = _
  cases h : Viem.hexPairs rest <;> simp [Viem.hexPairs, hl, hr, hsum, h]

theorem length_hexes (b : Nat) (hb : b < 256) : (Viem.hexes b).length = 2 := by
  rw [(hexes_table b hb).1]; rfl

theorem length_flatMap_hexes (bytes : Bytes) (hbytes : ∀ b ∈ bytes, b < 256) :
    (bytes.flatMap Viem.hexes).length = 2 * bytes.length := by
  induction bytes with
  | nil => rfl
  | cons b bs ih =>
    rw [List.flatMap_cons, List.length_append, length_hexes b (hbytes b (by simp)),
      ih (fun x hx => hbytes x (by simp [hx])), List.length_cons]
    omega

theorem hexPairs_flatMap_hexes (bytes : Bytes) (hbytes : ∀ b ∈ bytes, b < 256) :
    Viem.hexPairs (bytes.flatMap Viem.hexes) = some bytes := by
  induction bytes with
  | nil => rfl
  | cons b bs ih =>
    rw [List.flatMap_cons, hexPairs_hexes_append b (hbytes b (by simp)),
      ih (fun x hx => hbytes x (by simp [hx]))]
    rfl

/-- Reading back what `bytesToHex` wrote gives the bytes again. -/
theorem hexToBytes_bytesToHex (bytes : Bytes) (hbytes : ∀ b ∈ bytes, b < 256) :
    Viem.hexToBytes (Viem.bytesToHex bytes) = some bytes := by
  have hlen := length_flatMap_hexes bytes hbytes
  have hodd : ¬ ((bytes.flatMap Viem.hexes).length % 2 = 1) := by omega
  simp only [Viem.hexToBytes, Viem.bytesToHex, List.drop_succ_cons, List.drop_zero, hodd,
    if_false]
  exact hexPairs_flatMap_hexes bytes hbytes


theorem packedSig_eq (signature : List Char) :
    BuilderRedeem.packedSig signature
      = signature.take 130
        ++ Js.padStart
            (Js.toString16 ((Js.parseInt16 ((signature.take 132).drop 130)).map (· + 4))) 2 '0' := by
  have h1 : signature.take 66 = (signature.take 130).take 66 := by
    rw [List.take_take]; rfl
  have h2 : (signature.take 130).take 66 ++ (signature.take 130).drop 66
      = signature.take 130 := List.take_append_drop 66 _
  simp only [BuilderRedeem.packedSig, Js.slice, List.drop_zero, List.drop_succ_cons]
  rw [h1, h2]

theorem bytesToHex_snoc (a : Bytes) (v : Nat) :
    Viem.bytesToHex (a ++ [v]) = Viem.bytesToHex a ++ Viem.hexes v := by
  simp [Viem.bytesToHex, List.flatMap_append]

theorem length_bytesToHex (a : Bytes) (ha : ∀ b ∈ a, b < 256) :
    (Viem.bytesToHex a).length = 2 + 2 * a.length := by
  simp only [Viem.bytesToHex, List.length_cons, length_flatMap_hexes a ha]
  omega

set_option maxRecDepth 100000 in
theorem repack_v :
    ∀ v, v = 27 ∨ v = 28 →
      Js.padStart (Js.toString16 ((Js.parseInt16 (Viem.hexes v)).map (· + 4))) 2 '0'
        = Viem.hexes (v + 4) := by
  intro v hv
  rcases hv with rfl | rfl <;> decide

/-- The string slicing of `builder-redeem.js`, on the hex string of `a ‖ v`. -/
theorem packedSig_bytesToHex (a : Bytes) (v : Nat) (ha : a.length = 64)
    (hab : ∀ b ∈ a, b < 256) (hv : v = 27 ∨ v = 28) :
    BuilderRedeem.packedSig (Viem.bytesToHex (a ++ [v])) = Viem.bytesToHex (a ++ [v + 4]) := by
  have hlen : (Viem.bytesToHex a).length = 130 := by
    rw [length_bytesToHex a hab, ha]
  have hv256 : v < 256 := by rcases hv with rfl | rfl <;> decide
  have hlenv : (Viem.hexes v).length = 2 := length_hexes v hv256
  have htake : (Viem.bytesToHex a ++ Viem.hexes v).take 130 = Viem.bytesToHex a := by
    rw [List.take_append_of_le_length (by omega), List.take_of_length_le (by omega)]
  have hall : (Viem.bytesToHex a ++ Viem.hexes v).take 132
      = Viem.bytesToHex a ++ Viem.hexes v := by
    rw [List.take_of_length_le]
    rw [List.length_append]; omega
  have hdrop : (Viem.bytesToHex a ++ Viem.hexes v).drop 130 = Viem.hexes v := by
    rw [List.drop_append_of_le_length (by omega), List.drop_of_length_le (by omega)]
    rfl
  rw [packedSig_eq, bytesToHex_snoc, bytesToHex_snoc, htake, hall, hdrop, repack_v v hv]

/-- The byte store of `viem-redeem.js`, on the hex string of `a ‖ v`. -/
theorem adjustedSig_bytesToHex (a : Bytes) (v : Nat) (ha : a.length = 64)
    (hab : ∀ b ∈ a, b < 256) (hv : v = 27 ∨ v = 28) :
    ViemRedeem.adjustedSig (Viem.bytesToHex (a ++ [v]))
      = some (Viem.bytesToHex (a ++ [v + 4])) := by
  have hv256 : v < 256 := by rcases hv with rfl | rfl <;> decide
  have hmod : (v + 4) % 256 = v + 4 := by rcases hv with rfl | rfl <;> decide
  have hall : ∀ b ∈ a ++ [v], b < 256 := by
    intro b hb
    rcases List.mem_append.mp hb with h | h
    · exact hab b h
    · rw [List.mem_singleton.mp h]; exact hv256
  have hget : (a ++ [v]).getD 64 0 = v := by
    rw [List.getD_eq_getElem?_getD, List.getElem?_append_right (by omega)]
    simp [ha]
  have hset : (a ++ [v]).set 64 (v + 4) = a ++ [v + 4] := by
    rw [List.set_append_right _ _ (by omega)]
    simp [ha]
  simp only [ViemRedeem.adjustedSig, hexToBytes_bytesToHex _ hall, hget, hmod, hset, bind,
    Option.bind, pure]

/-- The `splitSignature` and `solidityPack` steps of `auto-redeem.js`, on `r ‖ s ‖ v`. -/
theorem packed_raw (r s : Bytes) (v : Nat) (hr : r.length = 32) (hs : s.length = 32)
    (hv : v = 27 ∨ v = 28) :
    AutoRedeem.packed (r ++ s ++ [v]) = some (r ++ s ++ [v + 4]) := by
  have hlen : (r ++ s ++ [v]).length = 65 := by simp [hr, hs]
  have htr : (r ++ s ++ [v]).take 32 = r := by
    rw [List.append_assoc, List.take_append_of_le_length (by omega),
      List.take_of_length_le (by omega)]
  have hts : ((r ++ s ++ [v]).take 64).drop 32 = s := by
    rw [List.take_append_of_le_length (by simp [hr, hs]),
      List.take_of_length_le (by simp [hr, hs]),
      List.drop_append_of_le_length (by omega), List.drop_of_length_le (by omega)]
    rfl
  have hget : (r ++ s ++ [v]).getD 64 0 = v := by
    rw [List.getD_eq_getElem?_getD, List.getElem?_append_right (by simp [hr, hs])]
    simp [hr, hs]
  have hv27 : ¬ (v < 27) := by omega
  have hv256 : v + 4 < 256 := by omega
  have hne : ¬ ((65 : Nat) = 64) := by decide
  simp only [AutoRedeem.packed, Ethers.splitSignature, Ethers.solidityPack, hlen, htr, hts,
    hget, hv27, hv256, hr, hs, hne, if_true, if_false, and_self, bind, Option.bind]


theorem bytes_snoc_lt (r s : Bytes) (v : Nat) (hrb : ∀ b ∈ r, b < 256)
    (hsb : ∀ b ∈ s, b < 256) (hv : v < 256) : ∀ b ∈ r ++ s ++ [v], b < 256 := by
  intro b hb
  rcases List.mem_append.mp hb with h | h
  · rcases List.mem_append.mp h with h | h
    · exact hrb b h
    · exact hsb b h
  · rw [List.mem_singleton.mp h]; exact hv

theorem getElem?_snoc_64 (r s : Bytes) (v : Nat) (hr : r.length = 32) (hs : s.length = 32) :
    (r ++ s ++ [v])[64]? = some v := by
  rw [List.getElem?_append_right (by simp [hr, hs])]
  simp [hr, hs]

/-- C6: for a raw signature `r ‖ s ‖ v` with `v = 27` or `v = 28`, the byte at position 64 of
the packed signature is `v + 4`, that is 31 for 27 and 32 for 28, in each of the three
implementations: `solidityPack` in `auto-redeem.js`, string slicing in `builder-redeem.js`
and the byte store in `viem-redeem.js` (the last two read back from their hex string). -/
theorem packed_v_byte (r s : Bytes) (v : Nat) (hr : r.length = 32) (hs : s.length = 32)
    (hrb : ∀ b ∈ r, b < 256) (hsb : ∀ b ∈ s, b < 256) (hv : v = 27 ∨ v = 28) :
    (∃ p, AutoRedeem.packed (r ++ s ++ [v]) = some p ∧ p[64]? = some (v + 4))
    ∧ (∃ p, Viem.hexToBytes (BuilderRedeem.packedSig (Viem.bytesToHex (r ++ s ++ [v])))
          = some p ∧ p[64]? = some (v + 4))
    ∧ (∃ q p, ViemRedeem.adjustedSig (Viem.bytesToHex (r ++ s ++ [v])) = some q
          ∧ Viem.hexToBytes q = some p ∧ p[64]? = some (v + 4))
    ∧ (v = 27 → v + 4 = 31) ∧ (v = 28 → v + 4 = 32) := by
  have hv4 : v + 4 < 256 := by omega
  have hlen : (r ++ s).length = 64 := by simp [hr, hs]
  have hrs : ∀ b ∈ r ++ s, b < 256 := by
    intro b hb
    rcases List.mem_append.mp hb with h | h
    · exact hrb b h
    · exact hsb b h
  have hback := hexToBytes_bytesToHex (r ++ s ++ [v + 4]) (bytes_snoc_lt r s (v + 4) hrb hsb hv4)
  refine ⟨⟨_, packed_raw r s v hr hs hv, getElem?_snoc_64 r s (v + 4) hr hs⟩,
    ⟨r ++ s ++ [v + 4], ?_, getElem?_snoc_64 r s (v + 4) hr hs⟩,
    ⟨_, r ++ s ++ [v + 4], adjustedSig_bytesToHex (r ++ s) v hlen hrs hv, hback,
      getElem?_snoc_64 r s (v + 4) hr hs⟩, ?_, ?_⟩
  · rw [packedSig_bytesToHex (r ++ s) v hlen hrs hv, hback]
  · intro h; rw [h]
  · intro h; rw [h]

/-- Witness of C6: `r` made of ones, `s` of twos, raw `v = 27`: every implementation
packs 31 as the last byte. -/
theorem packed_v_byte_witness :
    (∃ p, AutoRedeem.packed (List.replicate 32 1 ++ List.replicate 32 2 ++ [27]) = some p
        ∧ p[64]? = some 31)
    ∧ (∃ p, Viem.hexToBytes (BuilderRedeem.packedSig
          (Viem.bytesToHex (List.replicate 32 1 ++ List.replicate 32 2 ++ [27]))) = some p
        ∧ p[64]? = some 31)
    ∧ (∃ q p, ViemRedeem.adjustedSig
          (Viem.bytesToHex (List.replicate 32 1 ++ List.replicate 32 2 ++ [27])) = some q
        ∧ Viem.hexToBytes q = some p ∧ p[64]? = some 31) :=
  have h := packed_v_byte (List.replicate 32 1) (List.replicate 32 2) 27
    (List.length_replicate 32 1) (List.length_replicate 32 2)
    (fun b hb => by rw [List.eq_of_mem_replicate hb]; decide)
    (fun b hb => by rw [List.eq_of_mem_replicate hb]; decide) (Or.inl rfl)
  ⟨h.1, h.2.1, h.2.2.1⟩

/-- C7: for a raw signature `r ‖ s ‖ v` of 32 + 32 + 1 bytes with `v = 27` or `v = 28`, the
packed signature of `builder-redeem.js` and of `viem-redeem.js` is the same 65 bytes
`r ‖ s ‖ v + 4`: its first 64 bytes are those of the raw signature and its last byte, and
only that one, differs. -/
theorem packed_layout (r s : Bytes) (v : Nat) (hr : r.length = 32) (hs : s.length = 32)
    (hrb : ∀ b ∈ r, b < 256) (hsb : ∀ b ∈ s, b < 256) (hv : v = 27 ∨ v = 28) :
    ∃ p : Bytes,
      Viem.hexToBytes (BuilderRedeem.packedSig (Viem.bytesToHex (r ++ s ++ [v]))) = some p
      ∧ (ViemRedeem.adjustedSig (Viem.bytesToHex (r ++ s ++ [v]))).bind Viem.hexToBytes
          = some p
      ∧ p = r ++ s ++ [v + 4]
      ∧ p.length = 65
      ∧ p.take 32 = r ∧ (p.take 64).drop 32 = s ∧ p.drop 64 = [v + 4]
      ∧ p.take 64 = (r ++ s ++ [v]).take 64
      ∧ p[64]? ≠ (r ++ s ++ [v])[64]? := by
  have hv4 : v + 4 < 256 := by omega
  have hlen : (r ++ s).length = 64 := by simp [hr, hs]
  have hrs : ∀ b ∈ r ++ s, b < 256 := by
    intro b hb
    rcases List.mem_append.mp hb with h | h
    · exact hrb b h
    · exact hsb b h
  have hback := hexToBytes_bytesToHex (r ++ s ++ [v + 4]) (bytes_snoc_lt r s (v + 4) hrb hsb hv4)
  have htake : ∀ w : Nat, (r ++ s ++ [w]).take 64 = r ++ s := by
    intro w
    rw [List.take_append_of_le_length (by omega), List.take_of_length_le (by omega)]
  refine ⟨r ++ s ++ [v + 4], ?_, ?_, rfl, by simp [hr, hs], ?_, ?_, ?_, ?_, ?_⟩
  · rw [packedSig_bytesToHex (r ++ s) v hlen hrs hv, hback]
  · rw [adjustedSig_bytesToHex (r ++ s) v hlen hrs hv]
    exact hback
  · rw [List.append_assoc, List.take_append_of_le_length (by omega),
      List.take_of_length_le (by omega)]
  · rw [htake, List.drop_append_of_le_length (by omega), List.drop_of_length_le (by omega)]
    rfl
  · rw [List.drop_append_of_le_length (by omega), List.drop_of_length_le (by omega)]
    rfl
  · rw [htake, htake]
  · rw [getElem?_snoc_64 r s (v + 4) hr hs, getElem?_snoc_64 r s v hr hs]
    intro h
    injection h with h
    omega

/-- Witness of C7: `r` made of ones, `s` of twos, raw `v = 28`. -/
theorem packed_layout_witness :
    ∃ p : Bytes,
      Viem.hexToBytes (BuilderRedeem.packedSig
          (Viem.bytesToHex (List.replicate 32 1 ++ List.replicate 32 2 ++ [28]))) = some p
      ∧ (ViemRedeem.adjustedSig
          (Viem.bytesToHex (List.replicate 32 1 ++ List.replicate 32 2 ++ [28]))).bind
            Viem.hexToBytes = some p
      ∧ p = List.replicate 32 1 ++ List.replicate 32 2 ++ [28 + 4]
      ∧ p.length = 65
      ∧ p.take 32 = List.replicate 32 1 ∧ (p.take 64).drop 32 = List.replicate 32 2
      ∧ p.drop 64 = [28 + 4]
      ∧ p.take 64 = (List.replicate 32 1 ++ List.replicate 32 2 ++ [28]).take 64
      ∧ p[64]? ≠ (List.replicate 32 1 ++ List.replicate 32 2 ++ [28])[64]? :=
  packed_layout (List.replicate 32 1) (List.replicate 32 2) 28
    (List.length_replicate 32 1) (List.length_replicate 32 2)
    (fun b hb => by rw [List.eq_of_mem_replicate hb]; decide)
    (fun b hb => by rw [List.eq_of_mem_replicate hb]; decide) (Or.inr rfl)


/-! ### Relayer authentication -/

set_option maxRecDepth 100000 in
theorem alphabet_swap_lt :
    ∀ n, n < 64 →
      (fun x => if x = '/' then '_' else x)
          ((fun x => if x = '+' then '-' else x) (Node.base64Alphabet.getD n '='))
        = Spec.base64urlAlphabet.getD n '=' := by
  decide

theorem alphabet_swap (n : Nat) :
    (if (if Node.base64Alphabet.getD n '=' = '+' then '-'
          else Node.base64Alphabet.getD n '=') = '/' then '_'
      else (if Node.base64Alphabet.getD n '=' = '+' then '-'
          else Node.base64Alphabet.getD n '='))
      = Spec.base64urlAlphabet.getD n '=' := by
  by_cases h : n < 64
  · exact alphabet_swap_lt n h
  · have h1 : Node.base64Alphabet.getD n '=' = '=' := by
      rw [List.getD_eq_getElem?_getD, List.getElem?_eq_none]
      · rfl
      · have : Node.base64Alphabet.length = 64 := by decide
        omega
    have h2 : Spec.base64urlAlphabet.getD n '=' = '=' := by
      rw [List.getD_eq_getElem?_getD, List.getElem?_eq_none]
      · rfl
      · have : Spec.base64urlAlphabet.length = 64 := by decide
        omega
    rw [h1, h2]
    decide

/-- Swapping `+` for `-` and `/` for `_` in padded base64 gives padded base64url. -/
theorem replaceAll_base64Encode : ∀ bytes : Bytes,
    Js.replaceAll (Js.replaceAll (Node.base64Encode bytes) '+' '-') '/' '_'
      = Spec.base64url bytes
  | [] => rfl
  | [a] => by
    have hpad : (if (if '=' = '+' then '-' else '=') = '/' then '_'
        else if '=' = '+' then '-' else '=') = '=' := by decide
    simp only [Node.base64Encode, Spec.base64url, Node.base64EncodeWith, Js.replaceAll,
      List.map_cons, List.map_nil, alphabet_swap, hpad]
  | [a, b] => by
    have hpad : (if (if '=' = '+' then '-' else '=') = '/' then '_'
        else if '=' = '+' then '-' else '=') = '=' := by decide
    simp only [Node.base64Encode, Spec.base64url, Node.base64EncodeWith, Js.replaceAll,
      List.map_cons, List.map_nil, alphabet_swap, hpad]
  | a :: b :: c :: rest => by
    have ih := replaceAll_base64Encode rest
    simp only [Node.base64Encode, Spec.base64url, Js.replaceAll] at ih
    simp only [Node.base64Encode, Spec.base64url, Node.base64EncodeWith, Js.replaceAll,
      List.map_cons, alphabet_swap, ih]

set_option maxRecDepth 100000 in
theorem unbase64_swap_mem :
    ∀ c ∈ Spec.base64urlAlphabet,
      Node.unbase64 ((fun x => if x = '_' then '/' else x)
          ((fun x => if x = '-' then '+' else x) c)) = Spec.base64urlValue c := by
  decide

theorem unbase64_swap (c : Char) (n : Nat) (h : Spec.base64urlValue c = some n) :
    Node.unbase64 (if (if c = '-' then '+' else c) = '_' then '/'
      else (if c = '-' then '+' else c)) = some n := by
  have hmem : c ∈ Spec.base64urlAlphabet := by
    unfold Spec.base64urlValue at h
    split at h
    · rename_i hlt
      have hlen : Spec.base64urlAlphabet.length = 64 := by decide
      exact List.indexOf_lt_length.mp (by omega)
    · simp at h
  rw [← h]
  exact unbase64_swap_mem c hmem

theorem swap_eq_pad (c : Char) :
    ((if (if c = '-' then '+' else c) = '_' then '/' else (if c = '-' then '+' else c)) ≠ '=')
      ↔ c ≠ '=' := by
  by_cases h1 : c = '-'
  · subst h1; decide
  · by_cases h2 : c = '_'
    · subst h2; decide
    · simp [h1, h2]

theorem filterMap_unbase64_swap : ∀ (text : List Char) (values : List Nat),
    Spec.base64urlValues text = some values →
    (text.map fun c => if (if c = '-' then '+' else c) = '_' then '/'
        else (if c = '-' then '+' else c)).filterMap Node.unbase64 = values
  | [], values, h => by
    simp only [Spec.base64urlValues, Option.some.injEq] at h
    rw [← h]; rfl
  | c :: rest, values, h => by
    simp only [Spec.base64urlValues, bind, Option.bind, pure] at h
    cases hc : Spec.base64urlValue c with
    | none => rw [hc] at h; simp at h
    | some n =>
      rw [hc] at h
      cases hr : Spec.base64urlValues rest with
      | none => rw [hr] at h; simp at h
      | some vs =>
        rw [hr] at h
        simp only [Option.some.injEq] at h
        rw [List.map_cons, List.filterMap_cons, unbase64_swap c n hc,
          filterMap_unbase64_swap rest vs hr, ← h]

/-- The secret as `signHmac` decodes it is its base64url decoding. -/
theorem bufferFromBase64_swap (secret : List Char) (key : Bytes)
    (h : Spec.base64urlDecode secret = some key) :
    Node.bufferFromBase64 (Js.replaceAll (Js.replaceAll secret '-' '+') '_' '/') = key := by
  unfold Spec.base64urlDecode at h
  cases hv : Spec.base64urlValues (secret.takeWhile fun c => c ≠ '=') with
  | none => rw [hv] at h; simp at h
  | some values =>
    rw [hv] at h
    simp only [Option.map_some', Option.some.injEq] at h
    have hmap : Js.replaceAll (Js.replaceAll secret '-' '+') '_' '/'
        = secret.map fun c => if (if c = '-' then '+' else c) = '_' then '/'
            else (if c = '-' then '+' else c) := by
      simp [Js.replaceAll, List.map_map, Function.comp]
    have htw : ((secret.map fun c => if (if c = '-' then '+' else c) = '_' then '/'
            else (if c = '-' then '+' else c)).takeWhile fun c => c ≠ '=')
        = (secret.takeWhile fun c => c ≠ '=').map fun c =>
            if (if c = '-' then '+' else c) = '_' then '/'
            else (if c = '-' then '+' else c) := by
      rw [List.takeWhile_map]
      congr 2
      funext c
      simp only [Function.comp]
      have := swap_eq_pad c
      by_cases hc : c = '=' <;> simp_all
    rw [Node.bufferFromBase64, hmap, htw, filterMap_unbase64_swap _ values hv, h]


/-- C8: for a stored `BUILDER_SECRET` that is base64url text, `signHmac(timestamp, method,
path, body)` is `base64url(HMAC-SHA256(key, timestamp ‖ method ‖ path ‖ body))`, with `key`
the base64url decoding of the secret and the message the plain concatenation in that
order (`base64url` being the URL-safe alphabet of RFC 4648 with its `=` padding); a
left-out `body` counts as the empty string; `viem-redeem.js` and `builder-redeem.js`
return the same value, whatever the arguments. -/
theorem signHmac_spec (hmacSha256 : Bytes → Bytes → Bytes)
    (BUILDER_SECRET timestamp method path body : List Char)
    (hsecret : (Spec.base64urlDecode BUILDER_SECRET).isSome) :
    Spec.requestSignature hmacSha256 BUILDER_SECRET timestamp method path body
      = some (BuilderRedeem.signHmac hmacSha256 BUILDER_SECRET timestamp method path (some body))
    ∧ (∃ key, Spec.base64urlDecode BUILDER_SECRET = some key
        ∧ BuilderRedeem.signHmac hmacSha256 BUILDER_SECRET timestamp method path (some body)
          = Spec.base64url
              (hmacSha256 key (utf8Bytes (String.mk (timestamp ++ method ++ path ++ body)))))
    ∧ BuilderRedeem.signHmac hmacSha256 BUILDER_SECRET timestamp method path none
        = BuilderRedeem.signHmac hmacSha256 BUILDER_SECRET timestamp method path (some [])
    ∧ (∀ (secret ts m p : List Char) (b : Option (List Char)),
        ViemRedeem.signHmac hmacSha256 secret ts m p b
          = BuilderRedeem.signHmac hmacSha256 secret ts m p b) := by
  obtain ⟨key, hkey⟩ := Option.isSome_iff_exists.mp hsecret
  have hsign : BuilderRedeem.signHmac hmacSha256 BUILDER_SECRET timestamp method path (some body)
      = Spec.base64url
          (hmacSha256 key (utf8Bytes (String.mk (timestamp ++ method ++ path ++ body)))) := by
    simp only [BuilderRedeem.signHmac, Option.getD_some, bufferFromBase64_swap _ key hkey,
      Node.Hmac.digest, Node.Hmac.update, Node.createHmac, List.nil_append,
      replaceAll_base64Encode]
  refine ⟨?_, ⟨key, hkey, hsign⟩, rfl, fun _ _ _ _ _ => rfl⟩
  rw [hsign, Spec.requestSignature, hkey]
  rfl

/-- Witness of C8: the secret `c2VjcmV0IT9-fn4-Pg==`, a `POST` of `{}` to `/submit`. -/
theorem signHmac_spec_witness :
    Spec.requestSignature (fun key data => key ++ data) "c2VjcmV0IT9-fn4-Pg==".toList
        "1700000000".toList "POST".toList "/submit".toList "{}".toList
      = some (BuilderRedeem.signHmac (fun key data => key ++ data)
          "c2VjcmV0IT9-fn4-Pg==".toList "1700000000".toList "POST".toList "/submit".toList
          (some "{}".toList)) :=
  (signHmac_spec (fun key data => key ++ data) "c2VjcmV0IT9-fn4-Pg==".toList
    "1700000000".toList "POST".toList "/submit".toList "{}".toList (by decide)).1


/-! ### The candidate loop of `auto-redeem.js` -/

namespace AutoRedeem

theorem bounded_mono {α : Type} {k k2 : Nat} {m : Run α} (h : Bounded k m) (hk : k ≤ k2) :
    Bounded k2 m :=
  fun clock cursor => ⟨Nat.le_trans (h clock cursor).1 hk, (h clock cursor).2⟩

theorem bounded_pure {α : Type} (x : α) : Bounded 0 (pure x : Run α) :=
  fun _ _ => ⟨Nat.le_refl 0, fun _ he => by cases he⟩

theorem bounded_throw {α : Type} (e : JsError) : Bounded 0 (Run.throw e : Run α) :=
  fun _ _ => ⟨Nat.le_refl 0, fun _ he => by cases he⟩

theorem bounded_ofExcept {α : Type} (r : Except JsError α) : Bounded 0 (Run.ofExcept r) :=
  fun _ _ => ⟨Nat.le_refl 0, fun _ he => by cases he⟩

theorem bounded_defined {α : Type} (x : Option α) : Bounded 0 (Run.defined x) := by
  cases x
  · exact bounded_throw _
  · exact bounded_pure _

theorem bounded_bind {α β : Type} (k1 k2 : Nat) {m : Run α} {f : α → Run β}
    (hm : Bounded k1 m) (hf : ∀ x, Bounded k2 (f x)) : Bounded (k1 + k2) (m >>= f) := by
  intro clock cursor
  show execCount (Run.bind m f clock cursor).events ≤ k1 + k2
    ∧ ∀ e ∈ (Run.bind m f clock cursor).events, e.wellTagged
  unfold Run.bind
  have h1 := hm clock cursor
  cases hres : (m clock cursor).result with
  | error e =>
    simp only [hres]
    exact ⟨Nat.le_trans h1.1 (Nat.le_add_right _ _), h1.2⟩
  | ok x =>
    have h2 := hf x (m clock cursor).clock (m clock cursor).cursor
    simp only [hres, execCount, List.countP_append, List.mem_append]
    refine ⟨Nat.add_le_add h1.1 h2.1, ?_⟩
    intro e he
    rcases he with he | he
    · exact h1.2 e he
    · exact h2.2 e he

theorem bounded_tryCatch {α : Type} (k1 k2 : Nat) {body : Run α} {handler : JsError → Run α}
    (hb : Bounded k1 body) (hh : ∀ e, Bounded k2 (handler e)) :
    Bounded (k1 + k2) (Run.tryCatch body handler) := by
  intro clock cursor
  unfold Run.tryCatch
  have h1 := hb clock cursor
  cases hres : (body clock cursor).result with
  | ok x =>
    simp only [hres]
    exact ⟨Nat.le_trans h1.1 (Nat.le_add_right _ _), h1.2⟩
  | error e =>
    have h2 := hh e (body clock cursor).clock (body clock cursor).cursor
    simp only [hres, execCount, List.countP_append, List.mem_append]
    refine ⟨Nat.add_le_add h1.1 h2.1, ?_⟩
    intro ev hev
    rcases hev with hev | hev
    · exact h1.2 ev hev
    · exact h2.2 ev hev

theorem bounded_call {α : Type} (oracle : Nat → Except JsError α)
    (call : Except JsError α → Call) :
    Bounded 1 (Run.call oracle call) := by
  intro clock cursor
  refine ⟨?_, ?_⟩
  · simp only [Run.call, execCount, List.countP_cons, List.countP_nil]
    split <;> omega
  · intro e he
    simp only [Run.call, List.mem_singleton] at he
    rw [he]
    unfold Event.wellTagged
    exact ⟨fun h => (by cases h), fun _ => rfl⟩

theorem bounded_call_other {α : Type} (oracle : Nat → Except JsError α)
    (call : Except JsError α → Call) (hcall : ∀ r, (call r).isExec = false) :
    Bounded 0 (Run.call oracle call) := by
  intro clock cursor
  refine ⟨?_, (bounded_call oracle call clock cursor).2⟩
  simp [Run.call, execCount, List.countP_cons, hcall]

theorem bounded_retry {α : Type} (oracle : Nat → Except JsError α)
    (call : Except JsError α → Call) (hcall : ∀ r, (call r).isRead = true) :
    Bounded 0 (Run.retry oracle call) := by
  have hexec : ∀ r, (call r).isExec = false := by
    intro r
    have h := hcall r
    cases hc : call r <;> simp [hc, Call.isRead] at h <;> rfl
  intro clock cursor
  refine ⟨?_, ?_⟩
  · simp [Run.retry, execCount, List.countP_eq_zero, hexec]
  · intro e he
    simp only [Run.retry, List.mem_map, List.mem_range] at he
    obtain ⟨i, _, rfl⟩ := he
    unfold Event.wellTagged
    exact ⟨fun _ => hcall _, fun h => by rw [hexec] at h; cases h⟩

theorem bounded_getWorkingProvider (w : World) : Bounded 0 (Run.getWorkingProvider w) := by
  intro clock cursor
  refine ⟨?_, ?_⟩
  · simp [Run.getWorkingProvider, execCount, List.countP_eq_zero, Call.isExec]
  · intro e he
    simp only [Run.getWorkingProvider, List.mem_map] at he
    obtain ⟨rpc, _, rfl⟩ := he
    unfold Event.wellTagged
    exact ⟨fun h => (by cases h), fun _ => rfl⟩

end AutoRedeem

namespace AutoRedeem

theorem all_pure {α : Type} (P : Event → Prop) (x : α) : Run.All P (pure x : Run α) :=
  fun _ _ _ he => by cases he

theorem all_defined {α : Type} (P : Event → Prop) (x : Option α) :
    Run.All P (Run.defined x) := by
  cases x
  · exact fun _ _ _ he => by cases he
  · exact fun _ _ _ he => by cases he

theorem all_bind {α β : Type} (P : Event → Prop) {m : Run α} {f : α → Run β}
    (hm : Run.All P m) (hf : ∀ x, Run.All P (f x)) : Run.All P (m >>= f) := by
  intro clock cursor e he
  change e ∈ (Run.bind m f clock cursor).events at he
  unfold Run.bind at he
  cases hres : (m clock cursor).result with
  | error err =>
    simp only [hres] at he
    exact hm clock cursor e he
  | ok x =>
    simp only [hres, List.mem_append] at he
    rcases he with he | he
    · exact hm clock cursor e he
    · exact hf x _ _ e he

theorem all_call {α : Type} (P : Event → Prop) (oracle : Nat → Except JsError α)
    (call : Except JsError α → Call) (h : ∀ r, P { call := call r, viaRetry := false }) :
    Run.All P (Run.call oracle call) := by
  intro clock cursor e he
  simp only [Run.call, List.mem_singleton] at he
  rw [he]
  exact h _

theorem all_retry {α : Type} (P : Event → Prop) (oracle : Nat → Except JsError α)
    (call : Except JsError α → Call) (h : ∀ r, P { call := call r, viaRetry := true }) :
    Run.All P (Run.retry oracle call) := by
  intro clock cursor e he
  simp only [Run.retry, List.mem_map, List.mem_range] at he
  obtain ⟨i, _, rfl⟩ := he
  exact h _

theorem all_tryCatch {α : Type} (P : Event → Prop) {body : Run α}
    {handler : JsError → Run α} (hb : Run.All P body) (hh : ∀ e, Run.All P (handler e)) :
    Run.All P (Run.tryCatch body handler) := by
  intro clock cursor e he
  unfold Run.tryCatch at he
  cases hres : (body clock cursor).result with
  | ok x =>
    simp only [hres] at he
    exact hb clock cursor e he
  | error err =>
    simp only [hres, List.mem_append] at he
    rcases he with he | he
    · exact hb clock cursor e he
    · exact hh err _ _ e he

theorem all_getWorkingProvider (P : Event → Prop) (w : World)
    (h : ∀ rpc, P { call := .probe rpc, viaRetry := false }) :
    Run.All P (Run.getWorkingProvider w) := by
  intro clock cursor e he
  simp only [Run.getWorkingProvider, List.mem_map] at he
  obtain ⟨rpc, _, rfl⟩ := he
  exact h rpc

theorem all_ofExcept {α : Type} (P : Event → Prop) (r : Except JsError α) :
    Run.All P (Run.ofExcept r) :=
  fun _ _ _ he => by cases he

theorem attempt_reads_retried (w : World) (conditionId : String) :
    Run.All (fun e => e.call.isRead = true → e.viaRetry = true) (attempt w conditionId) := by
  unfold attempt
  refine all_bind _ ?_ (fun _ => ?_)
  · refine all_tryCatch _ ?_ (fun _ => ?_)
    · exact all_bind _ (all_call _ _ _ (fun _ h => by cases h)) (fun _ => all_pure _ _)
    · exact all_bind _ (all_getWorkingProvider _ w (fun _ h => by cases h))
        (fun _ => all_pure _ _)
  refine all_bind _ (all_ofExcept _ _) (fun redeemData => ?_)
  refine all_bind _ (all_retry _ _ _ (fun _ _ => rfl)) (fun nonce => ?_)
  refine all_bind _ (all_defined _ _) (fun nonce => ?_)
  refine all_bind _ (all_retry _ _ _ (fun _ _ => rfl)) (fun txHash => ?_)
  refine all_bind _ (all_defined _ _) (fun txHash => ?_)
  refine all_bind _ (all_defined _ _) (fun packed => ?_)
  refine all_bind _ (all_call _ _ _ (fun _ h => by cases h)) (fun _ => ?_)
  exact all_bind _ (all_call _ _ _ (fun _ h => by cases h)) (fun _ => all_pure _ _)

theorem processCandidate_reads_retried (w : World) (conditionId : String) (tally : Tally) :
    Run.All (fun e => e.call.isRead = true → e.viaRetry = true)
      (processCandidate w conditionId tally) := by
  unfold processCandidate
  refine all_tryCatch _ ?_ (fun e => ?_)
  · refine all_bind _ (attempt_reads_retried w conditionId) (fun status => ?_)
    split
    · exact all_pure _ _
    · exact all_pure _ _
  · show Run.All _ (if includes (errorText e) "revert" = true then _ else _)
    split
    · exact all_pure _ _
    · split
      · exact all_pure _ _
      · exact all_pure _ _

theorem candidateLoop_reads_retried (w : World) :
    ∀ (candidates : List String) (tally : Tally),
      Run.All (fun e => e.call.isRead = true → e.viaRetry = true)
        (candidateLoop w candidates tally)
  | [], tally => by
    unfold candidateLoop
    exact all_pure _ _
  | conditionId :: rest, tally => by
    unfold candidateLoop
    exact all_bind _ (processCandidate_reads_retried w conditionId tally)
      (fun t => candidateLoop_reads_retried w rest t)

theorem attempt_bounded (w : World) (conditionId : String) :
    Bounded 1 (attempt w conditionId) := by
  unfold attempt
  refine bounded_bind 0 1 ?_ (fun _ => ?_)
  · refine bounded_tryCatch 0 0 ?_ (fun _ => ?_)
    · exact bounded_bind 0 0 (bounded_call_other _ _ (fun _ => rfl)) (fun _ => bounded_pure _)
    · exact bounded_bind 0 0 (bounded_getWorkingProvider w) (fun _ => bounded_pure _)
  refine bounded_bind 0 1 (bounded_ofExcept _) (fun redeemData => ?_)
  refine bounded_bind 0 1 (bounded_retry _ _ (fun _ => rfl)) (fun nonce => ?_)
  refine bounded_bind 0 1 (bounded_defined _) (fun nonce => ?_)
  refine bounded_bind 0 1 (bounded_retry _ _ (fun _ => rfl)) (fun txHash => ?_)
  refine bounded_bind 0 1 (bounded_defined _) (fun txHash => ?_)
  refine bounded_bind 0 1 (bounded_defined _) (fun packed => ?_)
  refine bounded_bind 1 0 (bounded_call _ _) (fun _ => ?_)
  exact bounded_bind 0 0 (bounded_call_other _ _ (fun _ => rfl)) (fun _ => bounded_pure _)

theorem processCandidate_bounded (w : World) (conditionId : String) (tally : Tally) :
    Bounded 1 (processCandidate w conditionId tally) := by
  unfold processCandidate
  refine bounded_tryCatch 1 0 ?_ (fun e => ?_)
  · refine bounded_bind 1 0 (attempt_bounded w conditionId) (fun status => ?_)
    split
    · exact bounded_pure _
    · exact bounded_pure _
  · show Bounded 0 (if includes (errorText e) "revert" = true then _ else _)
    split
    · exact bounded_pure _
    · split
      · exact bounded_pure _
      · exact bounded_pure _

theorem candidateLoop_bounded (w : World) :
    ∀ (candidates : List String) (tally : Tally),
      Bounded candidates.length (candidateLoop w candidates tally)
  | [], tally => by
    unfold candidateLoop
    exact bounded_pure _
  | conditionId :: rest, tally => by
    unfold candidateLoop
    have h := bounded_bind 1 rest.length (processCandidate_bounded w conditionId tally)
      (fun t => candidateLoop_bounded w rest t)
    exact bounded_mono h (by simp [List.length_cons]; omega)

/-- C10: in the candidate loop of `auto-redeem.js`, whatever the chain answers,
`execTransaction` is called at most once for each candidate and so at most as many times as
candidates are attempted (the first eight at most); it is never called from inside `retry`;
the calls made from inside `retry` are reads (`balanceOf`, `nonce`, `getTransactionHash`),
and every read of the loop is made from inside `retry`. -/
theorem execTransaction_never_retried (w : World) (resolved : List String)
    (clock cursor : Nat) :
    execCount (redeemAll w resolved clock cursor).events ≤ (resolved.take 8).length
    ∧ (resolved.take 8).length = min 8 resolved.length
    ∧ (∀ e ∈ (redeemAll w resolved clock cursor).events,
        e.call.isExec = true → e.viaRetry = false)
    ∧ (∀ e ∈ (redeemAll w resolved clock cursor).events,
        e.viaRetry = true → e.call.isRead = true)
    ∧ (∀ e ∈ (redeemAll w resolved clock cursor).events,
        e.call.isRead = true → e.viaRetry = true)
    ∧ (∀ (conditionId : String) (tally : Tally) (clock2 cursor2 : Nat),
        execCount (processCandidate w conditionId tally clock2 cursor2).events ≤ 1) := by
  have h := candidateLoop_bounded w (resolved.take 8)
    { success := 0, skipped := 0, failed := 0 } clock cursor
  refine ⟨h.1, List.length_take _ _, fun e he => (h.2 e he).2, fun e he => (h.2 e he).1,
    candidateLoop_reads_retried w (resolved.take 8) _ clock cursor, ?_⟩
  intro conditionId tally clock2 cursor2
  exact (processCandidate_bounded w conditionId tally clock2 cursor2).1

end AutoRedeem

/-! ### The nonce of the relayer batch -/

namespace ViemRedeem

theorem BatchInv.snoc_failed (s : Batch) (conditionId : String) (posts : Nat)
    (h : BatchInv s) :
    BatchInv { s with posts := posts,
                      hashed := s.hashed ++ [{ conditionId := conditionId, nonce := s.nonce,
                                               completed := false }] } := by
  refine ⟨?_, ?_⟩
  · refine List.pairwise_append.mpr ⟨h.1, List.pairwise_singleton _ _, ?_⟩
    intro a ha b hb
    rw [List.mem_singleton.mp hb]
    exact h.2 a ha
  · intro a ha
    rcases List.mem_append.mp ha with ha | ha
    · exact h.2 a ha
    · rw [List.mem_singleton.mp ha]
      exact ⟨Nat.le_refl _, fun hc => by cases hc⟩

theorem BatchInv.snoc_completed (s : Batch) (conditionId : String) (h : BatchInv s) :
    BatchInv { success := s.success + 1, nonce := s.nonce + 1, posts := s.posts + 1,
               hashed := s.hashed ++ [{ conditionId := conditionId, nonce := s.nonce,
                                        completed := true }] } := by
  refine ⟨?_, ?_⟩
  · refine List.pairwise_append.mpr ⟨h.1, List.pairwise_singleton _ _, ?_⟩
    intro a ha b hb
    rw [List.mem_singleton.mp hb]
    exact h.2 a ha
  · intro a ha
    rcases List.mem_append.mp ha with ha | ha
    · exact ⟨Nat.le_succ_of_le (h.2 a ha).1, fun _ => Nat.lt_succ_of_le (h.2 a ha).1⟩
    · rw [List.mem_singleton.mp ha]
      exact ⟨Nat.le_succ _, fun _ => Nat.lt_succ_self _⟩

theorem redeemOne_inv (w : World) (account conditionId : String) (s : Batch)
    (h : BatchInv s) : BatchInv (redeemOne w account conditionId s) := by
  unfold redeemOne
  split
  · exact h
  · split
    · exact h
    · dsimp only
      split
      · exact BatchInv.snoc_failed s conditionId s.posts h
      · split
        · exact BatchInv.snoc_completed s conditionId h
        · exact BatchInv.snoc_failed s conditionId (s.posts + 1) h

theorem foldl_redeemOne_inv (w : World) (account : String) :
    ∀ (resolved : List String) (s : Batch), BatchInv s →
      BatchInv (resolved.foldl (fun s conditionId => redeemOne w account conditionId s) s)
  | [], _, h => h
  | conditionId :: rest, s, h =>
    foldl_redeemOne_inv w account rest _ (redeemOne_inv w account conditionId s h)

set_option maxRecDepth 1000000 in
/-- Against C9: with a relayer that rejects every submission, the two candidates of a batch
started at nonce 5 are both hashed and signed with nonce 5, so the second nonce is not
greater than the first. -/
theorem nonce_reused_after_rejection :
    (redeemBatch rejectingWorld "0xabc" ["0xaa", "0xbb"] 5).hashed
        = [ { conditionId := "0xaa", nonce := 5, completed := false },
            { conditionId := "0xbb", nonce := 5, completed := false } ]
    ∧ ¬ (redeemBatch rejectingWorld "0xabc" ["0xaa", "0xbb"] 5).hashed.Pairwise
          (fun a b => a.nonce < b.nonce) := by
  have h : (redeemBatch rejectingWorld "0xabc" ["0xaa", "0xbb"] 5).hashed
      = [ { conditionId := "0xaa", nonce := 5, completed := false },
          { conditionId := "0xbb", nonce := 5, completed := false } ] := by
    decide
  refine ⟨h, ?_⟩
  rw [h]
  decide

end ViemRedeem

/-! ### The nonce read of `auto-redeem.js` -/

namespace AutoRedeem

theorem mem_events_bind_left {α β : Type} (m : Run α) (f : α → Run β) (clock cursor : Nat)
    (e : Event) (he : e ∈ (m clock cursor).events) :
    e ∈ ((m >>= f) clock cursor).events := by
  show e ∈ (Run.bind m f clock cursor).events
  unfold Run.bind
  cases hres : (m clock cursor).result with
  | error err => simpa only [hres] using he
  | ok x =>
    simp only [hres, List.mem_append]
    exact Or.inl he

theorem mem_events_bind_right {α β : Type} (m : Run α) (f : α → Run β) (clock cursor : Nat)
    (x : α) (hres : (m clock cursor).result = .ok x) (e : Event)
    (he : e ∈ (f x (m clock cursor).clock (m clock cursor).cursor).events) :
    e ∈ ((m >>= f) clock cursor).events := by
  show e ∈ (Run.bind m f clock cursor).events
  unfold Run.bind
  simp only [hres, List.mem_append]
  exact Or.inr he

theorem mem_events_bind {α β : Type} (m : Run α) (f : α → Run β) (clock cursor : Nat)
    (e : Event) (he : e ∈ ((m >>= f) clock cursor).events) :
    e ∈ (m clock cursor).events
      ∨ ∃ x, (m clock cursor).result = .ok x
          ∧ e ∈ (f x (m clock cursor).clock (m clock cursor).cursor).events := by
  change e ∈ (Run.bind m f clock cursor).events at he
  unfold Run.bind at he
  cases hres : (m clock cursor).result with
  | error err =>
    simp only [hres] at he
    exact Or.inl he
  | ok x =>
    simp only [hres, List.mem_append] at he
    rcases he with he | he
    · exact Or.inl he
    · exact Or.inr ⟨x, rfl, he⟩

theorem retryLoop_ok_source {ε α : Type} (fn : Nat → Except ε α) (maxAttempts : Int) :
    ∀ (remaining i : Nat) (x : α),
      (retryLoop fn maxAttempts remaining i).outcome = .ok (some x) →
      ∃ j, j < (retryLoop fn maxAttempts remaining i).calls ∧ fn (i + j) = .ok x := by
  intro remaining
  induction remaining with
  | zero =>
    intro i x h
    simp [retryLoop] at h
  | succ r ih =>
    intro i x h
    rw [retryLoop] at h ⊢
    cases hfn : fn i with
    | ok y =>
      simp only [hfn] at h ⊢
      injection h with h
      injection h with h
      exact ⟨0, Nat.zero_lt_one, by rw [Nat.add_zero, hfn, h]⟩
    | error e =>
      simp only [hfn] at h ⊢
      split at h
      · cases h
      · rename_i hne
        simp only [hne, if_false]
        obtain ⟨j, hj, hfj⟩ := ih (i + 1) x h
        exact ⟨j + 1, Nat.succ_lt_succ hj, by rw [← hfj]; congr 1; omega⟩

/-- A value that `retry` returns was returned by one of the invocations it made. -/
theorem retry_ok_event {α : Type} (oracle : Nat → Except JsError α)
    (call : Except JsError α → Call) (clock cursor : Nat) (x : α)
    (h : (Run.retry oracle call clock cursor).result = .ok (some x)) :
    ({ call := call (.ok x), viaRetry := true } : Event)
      ∈ (Run.retry oracle call clock cursor).events := by
  obtain ⟨j, hj, hfj⟩ := retryLoop_ok_source (fun i => oracle (clock + i)) 3 _ 0 x h
  simp only [Run.retry, List.mem_map, List.mem_range]
  refine ⟨j, hj, ?_⟩
  rw [Nat.zero_add] at hfj
  rw [hfj]

end AutoRedeem

namespace AutoRedeem

/-- In one candidate's `try` block, a `getTransactionHash` call carries the nonce that a
`nonce()` call of the same block returned. -/
theorem attempt_hashes_fresh_nonce (w : World) (conditionId : String) (clock cursor : Nat)
    (e : Event) (args : SafeTxArgs) (n : Nat)
    (he : e ∈ (attempt w conditionId clock cursor).events)
    (hcall : e.call = .getTransactionHash args n) :
    ({ call := .nonce (some n), viaRetry := true } : Event)
      ∈ (attempt w conditionId clock cursor).events := by
  unfold attempt at he ⊢
  rcases mem_events_bind _ _ _ _ _ he with hA | ⟨u, hu, he1⟩
  · exfalso
    have hall : Run.All (fun ev => ∀ a m, ev.call ≠ .getTransactionHash a m)
        (Run.tryCatch
          (do let _ ← Run.call w.getBlockNumber (fun _ => Call.getBlockNumber); pure ())
          (fun _ => do let _ ← Run.getWorkingProvider w; pure ())) := by
      refine all_tryCatch _ ?_ (fun _ => ?_)
      · exact all_bind _ (all_call _ _ _ (fun _ a m h => by cases h))
          (fun _ => all_pure _ _)
      · exact all_bind _ (all_getWorkingProvider _ w (fun _ a m h => by cases h))
          (fun _ => all_pure _ _)
    exact hall clock cursor e hA args n hcall
  refine mem_events_bind_right _ _ _ _ u hu _ ?_
  rcases mem_events_bind _ _ _ _ _ he1 with hB | ⟨redeemData, hdata, he2⟩
  · cases hB
  refine mem_events_bind_right _ _ _ _ redeemData hdata _ ?_
  rcases mem_events_bind _ _ _ _ _ he2 with hC | ⟨read, hread, he3⟩
  · exfalso
    have hall : Run.All (fun ev => ∀ a m, ev.call ≠ .getTransactionHash a m)
        (Run.retry w.nonce (fun r => Call.nonce r.toOption)) :=
      all_retry _ _ _ (fun _ a m h => by cases h)
    exact hall _ _ e hC args n hcall
  cases read with
  | none =>
    rcases mem_events_bind _ _ _ _ _ he3 with hD | ⟨x, hx, _⟩
    · cases hD
    · cases hx
  | some n0 =>
    have hev := retry_ok_event w.nonce (fun r => Call.nonce r.toOption) _ _ n0 hread
    rcases mem_events_bind _ _ _ _ _ he3 with hD | ⟨x, hx, he4⟩
    · cases hD
    have hx0 : x = n0 := by
      have hx2 : (Except.ok n0 : Except JsError Nat) = Except.ok x := hx
      injection hx2 with hx2
      exact hx2.symm
    subst hx0
    have hall : Run.All (fun ev => ∀ a m, ev.call = .getTransactionHash a m → m = x)
        (do
          let txHash ← Run.retry
            (fun t => w.getTransactionHash t
              { to_ := CTF, value := 0, data := redeemData, operation := 0, safeTxGas := 0,
                baseGas := 0, gasPrice := 0, gasToken := AddressZero,
                refundReceiver := AddressZero }
              x)
            (fun _ => Call.getTransactionHash
              { to_ := CTF, value := 0, data := redeemData, operation := 0, safeTxGas := 0,
                baseGas := 0, gasPrice := 0, gasToken := AddressZero,
                refundReceiver := AddressZero }
              x)
          let txHash ← Run.defined txHash
          let sig := w.signMessage txHash
          let packed ← Run.defined (packed sig)
          let _tx ← Run.call
            (fun t => w.execTransaction t
              { to_ := CTF, value := 0, data := redeemData, operation := 0, safeTxGas := 0,
                baseGas := 0, gasPrice := 0, gasToken := AddressZero,
                refundReceiver := AddressZero }
              packed)
            (fun _ => Call.execTransaction
              { to_ := CTF, value := 0, data := redeemData, operation := 0, safeTxGas := 0,
                baseGas := 0, gasPrice := 0, gasToken := AddressZero,
                refundReceiver := AddressZero }
              packed)
          let status ← Run.call w.wait (fun _ => Call.wait)
          pure status) := by
      refine all_bind _ (all_retry _ _ _ ?_) (fun _ => ?_)
      · intro _ a m h
        injection h with _ h
        exact h.symm
      refine all_bind _ (all_defined _ _) (fun _ => ?_)
      refine all_bind _ (all_defined _ _) (fun _ => ?_)
      refine all_bind _ (all_call _ _ _ (fun _ a m h => by cases h)) (fun _ => ?_)
      exact all_bind _ (all_call _ _ _ (fun _ a m h => by cases h))
        (fun _ => all_pure _ _)
    have hn : n = x := hall _ _ e he4 args n hcall
    rw [hn]
    exact mem_events_bind_left _ _ _ _ _ hev

end AutoRedeem

namespace AutoRedeem

theorem mem_events_tryCatch_left {α : Type} (body : Run α) (handler : JsError → Run α)
    (clock cursor : Nat) (e : Event) (he : e ∈ (body clock cursor).events) :
    e ∈ (Run.tryCatch body handler clock cursor).events := by
  unfold Run.tryCatch
  cases hres : (body clock cursor).result with
  | ok x => simpa only [hres] using he
  | error err =>
    simp only [hres, List.mem_append]
    exact Or.inl he

/-- The calls of one iteration of the loop are those of its `try` block up to the receipt:
what follows in the block, and the `catch` block, only count. -/
theorem mem_events_processCandidate (w : World) (conditionId : String) (tally : Tally)
    (clock cursor : Nat) (e : Event) :
    e ∈ (processCandidate w conditionId tally clock cursor).events
      ↔ e ∈ (attempt w conditionId clock cursor).events := by
  constructor
  · intro he
    have hbody : Run.All (fun ev => ev ∈ (attempt w conditionId clock cursor).events ∨ False)
        (fun c1 c2 => (processCandidate w conditionId tally clock cursor)) := by
      intro _ _ ev hev
      unfold processCandidate Run.tryCatch at hev
      cases hres : ((do
          let status ← attempt w conditionId
          if status = 1 then pure { tally with success := tally.success + 1 }
          else pure { tally with failed := tally.failed + 1 } : Run Tally) clock cursor).result with
      | ok x =>
        simp only [hres] at hev
        rcases mem_events_bind _ _ _ _ _ hev with h | ⟨status, _, h⟩
        · exact Or.inl h
        · split at h <;> cases h
      | error err =>
        simp only [hres, List.mem_append] at hev
        rcases hev with hev | hev
        · rcases mem_events_bind _ _ _ _ _ hev with h | ⟨status, _, h⟩
          · exact Or.inl h
          · split at h <;> cases h
        · split at hev
          · cases hev
          · split at hev <;> cases hev
    rcases hbody 0 0 e he with h | h
    · exact h
    · exact h.elim
  · intro he
    unfold processCandidate
    exact mem_events_tryCatch_left _ _ _ _ _ (mem_events_bind_left _ _ _ _ _ he)

end AutoRedeem

/-- C9, amended: in the relayer batch of `viem-redeem.js`, whatever the relayer answers, every
candidate is hashed and signed with a nonce that is at least the nonce of every earlier
candidate and greater than the nonce of every earlier candidate whose submission went
through, and no recorded nonce is above the tracked one.  In `auto-redeem.js`, whatever the
chain answers, the nonce a candidate is hashed with is one that this candidate's own
`nonce()` read returned. -/
theorem nonce_never_decreases (wv : ViemRedeem.World) (account : String)
    (resolved : List String) (nonce : Nat) (wa : AutoRedeem.World) :
    (ViemRedeem.redeemBatch wv account resolved nonce).hashed.Pairwise
        (fun a b => a.nonce ≤ b.nonce ∧ (a.completed = true → a.nonce < b.nonce))
    ∧ (∀ h ∈ (ViemRedeem.redeemBatch wv account resolved nonce).hashed,
        h.nonce ≤ (ViemRedeem.redeemBatch wv account resolved nonce).nonce
        ∧ (h.completed = true
            → h.nonce < (ViemRedeem.redeemBatch wv account resolved nonce).nonce))
    ∧ (∀ (conditionId : String) (tally : AutoRedeem.Tally) (clock cursor : Nat)
        (e : AutoRedeem.Event) (args : AutoRedeem.SafeTxArgs) (n : Nat),
        e ∈ (AutoRedeem.processCandidate wa conditionId tally clock cursor).events →
        e.call = .getTransactionHash args n →
        ({ call := .nonce (some n), viaRetry := true } : AutoRedeem.Event)
          ∈ (AutoRedeem.processCandidate wa conditionId tally clock cursor).events) := by
  have h := ViemRedeem.foldl_redeemOne_inv wv account resolved
    { success := 0, nonce := nonce, posts := 0, hashed := [] }
    ⟨List.Pairwise.nil, fun _ hmem => by cases hmem⟩
  refine ⟨h.1, h.2, ?_⟩
  intro conditionId tally clock cursor e args n he hcall
  rw [AutoRedeem.mem_events_processCandidate] at he ⊢
  exact AutoRedeem.attempt_hashes_fresh_nonce wa conditionId clock cursor e args n he hcall

/-! ### The rotation cursor -/

namespace AutoRedeem

theorem getNextRpcTimes_eq (rpcs : List String) :
    ∀ (n cur : Nat), cur < rpcs.length →
      getNextRpcTimes rpcs n cur = (selections rpcs cur n, (cur + n) % rpcs.length) := by
  intro n
  induction n with
  | zero =>
    intro cur hcur
    simp [getNextRpcTimes, selections, Nat.mod_eq_of_lt hcur]
  | succ n ih =>
    intro cur hcur
    have hpos : 0 < rpcs.length := by omega
    have hlt : (cur + 1) % rpcs.length < rpcs.length := Nat.mod_lt _ hpos
    rw [getNextRpcTimes, selections_succ rpcs cur n hcur]
    simp only [getNextRpc]
    rw [ih _ hlt]
    simp only [Nat.mod_add_mod]
    congr 2
    omega

theorem selections_one_round (rpcs : List String) (cur : Nat) :
    selections rpcs cur rpcs.length = (rpcs.rotate cur).map some := by
  apply List.ext_getElem
  · simp [selections]
  · intro k h1 h2
    have hk : k < rpcs.length := by simpa [selections] using h1
    simp only [selections, List.getElem_map, List.getElem_range]
    have hm : (cur + k) % rpcs.length < rpcs.length := Nat.mod_lt _ (by omega)
    rw [List.getElem?_eq_getElem hm, List.getElem_rotate]
    congr 2
    rw [Nat.add_comm]

/-- C19: for a cursor below `|RPCS|`, `getNextRpc` returns the endpoint at the cursor, a
member of the list and never `undefined`, and moves the cursor to the next position modulo
`|RPCS|`; after any number of calls the cursor is still below `|RPCS|` and every endpoint
returned is a member of the list; `|RPCS|` consecutive calls return the list read round from
the cursor, that is every endpoint once, and bring the cursor back. -/
theorem getNextRpc_rotates (rpcs : List String) (cur : Nat) (hcur : cur < rpcs.length) :
    getNextRpc rpcs cur = (some (rpcs.get ⟨cur, hcur⟩), (cur + 1) % rpcs.length)
    ∧ (getNextRpc rpcs cur).2 < rpcs.length
    ∧ (∀ n, (getNextRpcTimes rpcs n cur).2 < rpcs.length
        ∧ (getNextRpcTimes rpcs n cur).1.length = n
        ∧ ∀ r ∈ (getNextRpcTimes rpcs n cur).1, ∃ e ∈ rpcs, r = some e)
    ∧ (getNextRpcTimes rpcs rpcs.length cur).1 = (rpcs.rotate cur).map some
    ∧ (getNextRpcTimes rpcs rpcs.length cur).1
        = (rpcs.drop cur ++ rpcs.take cur).map some
    ∧ (getNextRpcTimes rpcs rpcs.length cur).2 = cur
    ∧ (rpcs.rotate cur).Perm rpcs
    ∧ (∀ e, ((getNextRpcTimes rpcs rpcs.length cur).1).count (some e) = rpcs.count e) := by
  have hpos : 0 < rpcs.length := by omega
  have hround : (getNextRpcTimes rpcs rpcs.length cur).1 = (rpcs.rotate cur).map some := by
    rw [getNextRpcTimes_eq rpcs _ cur hcur, selections_one_round]
  refine ⟨?_, Nat.mod_lt _ hpos, ?_, hround, ?_, ?_, List.rotate_perm rpcs cur, ?_⟩
  · simp [getNextRpc, List.getElem?_eq_getElem hcur]
  · intro n
    rw [getNextRpcTimes_eq rpcs n cur hcur]
    refine ⟨Nat.mod_lt _ hpos, by simp [selections], ?_⟩
    intro r hr
    simp only [selections, List.mem_map, List.mem_range] at hr
    obtain ⟨k, _, rfl⟩ := hr
    have hm : (cur + k) % rpcs.length < rpcs.length := Nat.mod_lt _ hpos
    exact ⟨rpcs[(cur + k) % rpcs.length], List.getElem_mem _,
      List.getElem?_eq_getElem hm⟩
  · rw [hround, List.rotate_eq_drop_append_take (Nat.le_of_lt hcur)]
  · rw [getNextRpcTimes_eq rpcs _ cur hcur]
    show (cur + rpcs.length) % rpcs.length = cur
    rw [Nat.add_mod_right, Nat.mod_eq_of_lt hcur]
  · intro e
    rw [hround, count_map_some, (List.rotate_perm rpcs cur).count_eq]

/-- Witness of C19 on the configured list, cursor at 3: five calls return the endpoints
4, 5, 1, 2, 3 of the list and leave the cursor at 3. -/
theorem getNextRpc_rotates_witness :
    (getNextRpcTimes RPCS RPCS.length 3).1 = (RPCS.drop 3 ++ RPCS.take 3).map some
    ∧ (getNextRpcTimes RPCS RPCS.length 3).2 = 3 :=
  have h := getNextRpc_rotates RPCS 3 (by decide)
  ⟨h.2.2.2.2.1, h.2.2.2.2.2.1⟩

end AutoRedeem

/-! ### The classification of a candidate -/

namespace AutoRedeem

theorem processCandidate_step (w : World) (conditionId : String) (tally : Tally)
    (clock cursor : Nat) :
    processCandidate w conditionId tally clock cursor
      = { result := .ok (Spec.record tally
            (Spec.classify (fun e => includes (errorText e) "revert")
              (attempt w conditionId clock cursor).result)),
          clock := (attempt w conditionId clock cursor).clock,
          cursor := (attempt w conditionId clock cursor).cursor,
          events := (attempt w conditionId clock cursor).events } := by
  simp only [processCandidate, Run.tryCatch, bind, Run.bind]
  cases hres : (attempt w conditionId clock cursor).result with
  | ok status =>
    by_cases h1 : status = 1
    · simp [h1, Spec.classify, Spec.record, pure, Run.pure]
    · simp [h1, Spec.classify, Spec.record, pure, Run.pure]
  | error e =>
    by_cases hr : includes (errorText e) "revert" = true
    · simp [hr, Spec.classify, Spec.record, pure, Run.pure]
    · by_cases hn : includes (errorText e) "network" = true
      · simp [hr, hn, Spec.classify, Spec.record, pure, Run.pure]
      · simp [hr, hn, Spec.classify, Spec.record, pure, Run.pure]

end AutoRedeem

namespace AutoRedeem

theorem candidateLoop_cons (w : World) (conditionId : String) (rest : List String)
    (tally : Tally) (clock cursor : Nat) :
    (candidateLoop w (conditionId :: rest) tally clock cursor).result
        = (candidateLoop w rest
            (Spec.record tally (Spec.classify (fun e => includes (errorText e) "revert")
              (attempt w conditionId clock cursor).result))
            (attempt w conditionId clock cursor).clock
            (attempt w conditionId clock cursor).cursor).result
    ∧ (candidateLoop w (conditionId :: rest) tally clock cursor).events
        = (attempt w conditionId clock cursor).events
          ++ (candidateLoop w rest
            (Spec.record tally (Spec.classify (fun e => includes (errorText e) "revert")
              (attempt w conditionId clock cursor).result))
            (attempt w conditionId clock cursor).clock
            (attempt w conditionId clock cursor).cursor).events
    ∧ (candidateLoop w (conditionId :: rest) tally clock cursor).clock
        = (candidateLoop w rest
            (Spec.record tally (Spec.classify (fun e => includes (errorText e) "revert")
              (attempt w conditionId clock cursor).result))
            (attempt w conditionId clock cursor).clock
            (attempt w conditionId clock cursor).cursor).clock
    ∧ (candidateLoop w (conditionId :: rest) tally clock cursor).cursor
        = (candidateLoop w rest
            (Spec.record tally (Spec.classify (fun e => includes (errorText e) "revert")
              (attempt w conditionId clock cursor).result))
            (attempt w conditionId clock cursor).clock
            (attempt w conditionId clock cursor).cursor).cursor := by
  rw [candidateLoop]
  simp only [bind, Run.bind, processCandidate_step]
  simp

/-- C11: an attempted candidate of `auto-redeem.js` raises exactly one counter, the one of
its class: `Success` exactly when the `try` block reaches the receipt and its status is 1,
`Skipped` exactly when an error is raised whose text (`e.reason`, else `e.message`) contains
`revert`, `Failed` in every other case (another status, another error); the iteration never
throws, and the loop goes on with the next candidate from where this one ended. -/
theorem candidate_classified (w : World) (conditionId : String) (rest : List String)
    (tally : Tally) (clock cursor : Nat) :
    (processCandidate w conditionId tally clock cursor).result
        = .ok (Spec.record tally
            (Spec.classify (fun e => includes (errorText e) "revert")
              (attempt w conditionId clock cursor).result))
    ∧ ((processCandidate w conditionId tally clock cursor).result
          = .ok { tally with success := tally.success + 1 }
        ↔ (attempt w conditionId clock cursor).result = .ok 1)
    ∧ ((processCandidate w conditionId tally clock cursor).result
          = .ok { tally with skipped := tally.skipped + 1 }
        ↔ ∃ e, (attempt w conditionId clock cursor).result = .error e
            ∧ includes (errorText e) "revert" = true)
    ∧ ((processCandidate w conditionId tally clock cursor).result
          = .ok { tally with failed := tally.failed + 1 }
        ↔ (∃ status, (attempt w conditionId clock cursor).result = .ok status ∧ status ≠ 1)
          ∨ ∃ e, (attempt w conditionId clock cursor).result = .error e
              ∧ includes (errorText e) "revert" = false)
    ∧ (candidateLoop w (conditionId :: rest) tally clock cursor).result
        = (candidateLoop w rest
            (Spec.record tally (Spec.classify (fun e => includes (errorText e) "revert")
              (attempt w conditionId clock cursor).result))
            (attempt w conditionId clock cursor).clock
            (attempt w conditionId clock cursor).cursor).result := by
  have hstep := processCandidate_step w conditionId tally clock cursor
  refine ⟨by rw [hstep], ?_, ?_, ?_, (candidateLoop_cons w conditionId rest tally clock cursor).1⟩
  · rw [hstep]
    cases hres : (attempt w conditionId clock cursor).result with
    | ok status =>
      by_cases h1 : status = 1
      · simp [Spec.classify, Spec.record, h1]
      · simp [Spec.classify, Spec.record, h1, Tally.mk.injEq]
    | error e =>
      by_cases hr : includes (errorText e) "revert" = true
      · simp [Spec.classify, Spec.record, hr, Tally.mk.injEq]
      · simp [Spec.classify, Spec.record, hr, Tally.mk.injEq]
  · rw [hstep]
    cases hres : (attempt w conditionId clock cursor).result with
    | ok status =>
      by_cases h1 : status = 1
      · simp [Spec.classify, Spec.record, h1, Tally.mk.injEq]
      · simp [Spec.classify, Spec.record, h1, Tally.mk.injEq]
    | error e =>
      by_cases hr : includes (errorText e) "revert" = true
      · simp [Spec.classify, Spec.record, hr]
      · simp [Spec.classify, Spec.record, hr, Tally.mk.injEq]
  · rw [hstep]
    cases hres : (attempt w conditionId clock cursor).result with
    | ok status =>
      by_cases h1 : status = 1
      · simp [Spec.classify, Spec.record, h1, Tally.mk.injEq]
      · simp [Spec.classify, Spec.record, h1]
    | error e =>
      by_cases hr : includes (errorText e) "revert" = true
      · simp [Spec.classify, Spec.record, hr, Tally.mk.injEq]
      · simp [Spec.classify, Spec.record, hr]

end AutoRedeem

/-! ### `main` of `auto-redeem.js` -/

namespace AutoRedeem

theorem loop_error_message (rpcs : List String) (probe : Nat → Option String → Bool) :
    ∀ (n i cur : Nat) (msg : String),
      (getWorkingProviderLoop rpcs probe n i cur).result = .error msg →
      msg = "All RPCs failed" := by
  intro n
  induction n with
  | zero =>
    intro i cur msg h
    simp only [getWorkingProviderLoop] at h
    injection h with h
    exact h.symm
  | succ n ih =>
    intro i cur msg h
    simp only [getWorkingProviderLoop] at h
    split at h
    · cases h
    · exact ih (i + 1) _ msg h

theorem run_getWorkingProvider_error (w : World) (clock cursor : Nat) (e : JsError)
    (h : (Run.getWorkingProvider w clock cursor).result = .error e) : e = poolError := by
  simp only [Run.getWorkingProvider] at h
  cases hres : (AutoRedeem.getWorkingProvider RPCS (fun i rpc => w.probe (clock + i) rpc)
      cursor).result with
  | ok rpc => rw [hres] at h; cases h
  | error msg =>
    rw [hres] at h
    have hmsg := loop_error_message RPCS _ _ 0 cursor msg hres
    injection h with h
    rw [← h, hmsg]
    rfl

theorem main_first_acquisition_fails (w : World) (clock cursor : Nat) (e : JsError)
    (h : (Run.getWorkingProvider w clock cursor).result = .error e) :
    main w clock cursor
      = { result := .ok .allRpcsFailed,
          clock := (Run.getWorkingProvider w clock cursor).clock,
          cursor := (Run.getWorkingProvider w clock cursor).cursor,
          events := (Run.getWorkingProvider w clock cursor).events } := by
  simp only [main, bind, Run.bind, Run.caught, h, pure, Run.pure, List.append_nil]

end AutoRedeem

namespace AutoRedeem

theorem run_getWorkingProvider_dead (w : World) (clock cursor : Nat)
    (hcur : cursor < RPCS.length) (hdead : ∀ t rpc, w.probe t rpc = false) :
    Run.getWorkingProvider w clock cursor
      = { result := .error poolError, clock := clock + 2 * RPCS.length, cursor := cursor,
          events := (RPCS.rotate cursor ++ RPCS.rotate cursor).map fun rpc =>
            { call := .probe (some rpc), viaRetry := false } } := by
  have hrun := loop_all_fail RPCS (fun i rpc => w.probe (clock + i) rpc)
    (fun i rpc => hdead (clock + i) rpc) (RPCS.length * 2) 0 cursor hcur
  have hback : (cursor + RPCS.length * 2) % RPCS.length = cursor := by
    rw [Nat.add_mul_mod_self_left, Nat.mod_eq_of_lt hcur]
  simp only [Run.getWorkingProvider, AutoRedeem.getWorkingProvider, hrun, hback,
    selections_two_rounds, List.map_map, List.length_map, List.length_append,
    List.length_rotate]
  have hclock : clock + (RPCS.length + RPCS.length) = clock + 2 * RPCS.length := by omega
  rw [hclock]
  rfl

/-- C14: when every endpoint is unreachable, `main` of `auto-redeem.js` ends right after the
failed acquisition: it returns through the `All RPCs failed` branch, and the only calls it
made are the `2 × |RPCS|` liveness probes, so no market lookup, no balance or nonce read,
no candidate and no submission. -/
theorem main_all_rpcs_unreachable (w : World) (clock cursor : Nat)
    (hcur : cursor < RPCS.length) (hdead : ∀ t rpc, w.probe t rpc = false) :
    (main w clock cursor).result = .ok .allRpcsFailed
    ∧ (main w clock cursor).events
        = (RPCS.rotate cursor ++ RPCS.rotate cursor).map
            (fun rpc => ({ call := .probe (some rpc), viaRetry := false } : Event))
    ∧ (main w clock cursor).events.length = 2 * RPCS.length
    ∧ (∀ e ∈ (main w clock cursor).events, ∃ rpc, e.call = .probe rpc)
    ∧ (∀ e ∈ (main w clock cursor).events,
        e.call.ofCandidate = false ∧ e.call.isRead = false ∧ e.call.isExec = false
        ∧ e.call ≠ .deriveApiKey ∧ e.call ≠ .getTrades ∧ ∀ m, e.call ≠ .getMarket m)
    ∧ (main w clock cursor).clock = clock + 2 * RPCS.length := by
  have hgwp := run_getWorkingProvider_dead w clock cursor hcur hdead
  have hmain := main_first_acquisition_fails w clock cursor poolError (by rw [hgwp])
  rw [hmain, hgwp]
  refine ⟨rfl, rfl, ?_, ?_, ?_, rfl⟩
  · simp only [List.length_map, List.length_append, List.length_rotate]
    omega
  · intro e he
    simp only [List.mem_map] at he
    obtain ⟨rpc, _, rfl⟩ := he
    exact ⟨_, rfl⟩
  · intro e he
    simp only [List.mem_map] at he
    obtain ⟨rpc, _, rfl⟩ := he
    refine ⟨rfl, rfl, rfl, ?_, ?_, ?_⟩
    · intro h; cases h
    · intro h; cases h
    · intro m h; cases h

/-- Witness of C14: the world with every endpoint unreachable, from the start of the
program (clock 0, cursor 0). -/
theorem main_all_rpcs_unreachable_witness :
    (main deadWorld 0 0).result = .ok .allRpcsFailed
    ∧ (main deadWorld 0 0).events.length = 2 * RPCS.length :=
  have h := main_all_rpcs_unreachable deadWorld 0 0 (by decide) (fun _ _ => rfl)
  ⟨h.1, h.2.2.1⟩

end AutoRedeem

namespace AutoRedeem

theorem attempt_pool_exhausted (w : World) (conditionId : String) (clock cursor : Nat)
    (e0 e1 : JsError) (hblock : w.getBlockNumber clock = .error e0)
    (hpool : (Run.getWorkingProvider w (clock + 1) cursor).result = .error e1) :
    attempt w conditionId clock cursor
      = { result := .error poolError,
          clock := (Run.getWorkingProvider w (clock + 1) cursor).clock,
          cursor := (Run.getWorkingProvider w (clock + 1) cursor).cursor,
          events := { call := .getBlockNumber, viaRetry := false }
            :: (Run.getWorkingProvider w (clock + 1) cursor).events } := by
  have he1 := run_getWorkingProvider_error w (clock + 1) cursor e1 hpool
  subst he1
  simp only [attempt, bind, Run.bind, Run.tryCatch, Run.call, hblock, hpool,
    List.singleton_append, List.append_nil]

theorem all_caught {α : Type} (P : Event → Prop) {m : Run α} (h : Run.All P m) :
    Run.All P (Run.caught m) :=
  fun clock cursor e he => h clock cursor e he

theorem findResolvedLoop_no_candidate (w : World) :
    ∀ (marketIds resolved : List String),
      Run.All (fun e => e.call.ofCandidate = false) (findResolvedLoop w marketIds resolved)
  | [], resolved => by
    unfold findResolvedLoop
    exact all_pure _ _
  | marketId :: rest, resolved => by
    unfold findResolvedLoop
    refine all_bind _ ?_ (fun r => findResolvedLoop_no_candidate w rest r)
    refine all_tryCatch _ ?_ (fun _ => all_pure _ _)
    refine all_bind _ (all_call _ _ _ (fun _ => rfl)) (fun market => ?_)
    split
    · split
      · split
        · exact all_pure _ _
        · exact all_pure _ _
      · exact all_pure _ _
    · exact all_pure _ _

theorem findResolved_no_candidate (w : World) :
    Run.All (fun e => e.call.ofCandidate = false) (findResolved w) := by
  unfold findResolved
  refine all_bind _ (all_call _ _ _ (fun _ => rfl)) (fun _ => ?_)
  refine all_bind _ (all_call _ _ _ (fun _ => rfl)) (fun trades => ?_)
  exact findResolvedLoop_no_candidate w _ _

theorem main_refresh_fails (w : World) (clock cursor : Nat) (rpc : Option String)
    (resolved : List String) (e : JsError)
    (h1 : (Run.getWorkingProvider w clock cursor).result = .ok rpc)
    (h2 : ((Run.getWorkingProvider w clock cursor).next (findResolved w)).result
        = .ok resolved)
    (hne : resolved ≠ [])
    (h3 : (((Run.getWorkingProvider w clock cursor).next (findResolved w)).next
        (Run.getWorkingProvider w)).result = .error e) :
    (main w clock cursor).result = .ok .lostRpc
    ∧ (main w clock cursor).events
        = (Run.getWorkingProvider w clock cursor).events
          ++ (((Run.getWorkingProvider w clock cursor).next (findResolved w)).events
          ++ (((Run.getWorkingProvider w clock cursor).next (findResolved w)).next
              (Run.getWorkingProvider w)).events) := by
  have hlen : ¬ (resolved.length = 0) := by
    intro h
    exact hne (List.length_eq_zero.mp h)
  simp only [Step.next] at h2 h3
  simp only [main, bind, Run.bind, Run.caught, h1, h2, h3, hlen, if_false, pure, Run.pure,
    Step.next, List.append_nil, and_self]

end AutoRedeem

namespace AutoRedeem

set_option maxRecDepth 1000000 in
/-- Against C15: the provider does not answer the first candidate's `getBlockNumber` and every
endpoint is unreachable, so `getWorkingProvider` raises `All RPCs failed` while reconnecting;
the first candidate is counted as failed and the second one is processed all the same: it
is submitted and counted as a success. -/
theorem candidate_processed_after_exhaustion :
    (Run.getWorkingProvider lapseWorld 1 0).result = .error poolError
    ∧ (redeemAll lapseWorld ["0xaa", "0xbb"] 0 0).result
        = .ok { success := 1, skipped := 0, failed := 1 }
    ∧ execCount (redeemAll lapseWorld ["0xaa", "0xbb"] 0 0).events = 1 := by
  decide

/-- C15, amended: exhaustion of the pool ends the run only before the candidate loop: when the
first acquisition of `main` fails the run ends with no other call made, and when the
refresh before the loop fails the run ends with no call made for any candidate.  Inside the
loop, when the provider does not answer and `getWorkingProvider` raises `All RPCs failed`,
the candidate at hand is counted as failed, with no nonce read, hash or submission made for
it, and the loop goes on with the next candidate. -/
theorem pool_exhaustion_in_loop (w : World) (conditionId : String) (rest : List String)
    (tally : Tally) (clock cursor : Nat) (e0 e1 : JsError)
    (hblock : w.getBlockNumber clock = .error e0)
    (hpool : (Run.getWorkingProvider w (clock + 1) cursor).result = .error e1) :
    (processCandidate w conditionId tally clock cursor).result
        = .ok { tally with failed := tally.failed + 1 }
    ∧ (processCandidate w conditionId tally clock cursor).events
        = { call := .getBlockNumber, viaRetry := false }
            :: (Run.getWorkingProvider w (clock + 1) cursor).events
    ∧ (∀ ev ∈ (processCandidate w conditionId tally clock cursor).events,
        ev.call = .getBlockNumber ∨ ∃ rpc, ev.call = .probe rpc)
    ∧ (candidateLoop w (conditionId :: rest) tally clock cursor).result
        = (candidateLoop w rest { tally with failed := tally.failed + 1 }
            (Run.getWorkingProvider w (clock + 1) cursor).clock
            (Run.getWorkingProvider w (clock + 1) cursor).cursor).result
    ∧ (∀ (clock0 cursor0 : Nat) (e : JsError),
        (Run.getWorkingProvider w clock0 cursor0).result = .error e →
        (main w clock0 cursor0).result = .ok .allRpcsFailed
        ∧ (main w clock0 cursor0).events = (Run.getWorkingProvider w clock0 cursor0).events)
    ∧ (∀ (clock0 cursor0 : Nat) (rpc : Option String) (resolved : List String) (e : JsError),
        (Run.getWorkingProvider w clock0 cursor0).result = .ok rpc →
        ((Run.getWorkingProvider w clock0 cursor0).next (findResolved w)).result
          = .ok resolved →
        resolved ≠ [] →
        (((Run.getWorkingProvider w clock0 cursor0).next (findResolved w)).next
          (Run.getWorkingProvider w)).result = .error e →
        (main w clock0 cursor0).result = .ok .lostRpc
        ∧ ∀ ev ∈ (main w clock0 cursor0).events, ev.call.ofCandidate = false) := by
  have hatt := attempt_pool_exhausted w conditionId clock cursor e0 e1 hblock hpool
  have hstep := processCandidate_step w conditionId tally clock cursor
  have hclass : Spec.record tally
      (Spec.classify (fun e => includes (errorText e) "revert") (Except.error poolError))
      = { tally with failed := tally.failed + 1 } := by
    have hno : includes (errorText poolError) "revert" = false := by decide
    simp [Spec.classify, Spec.record, hno]
  rw [hatt] at hstep
  simp only [hclass] at hstep
  have hcons := (candidateLoop_cons w conditionId rest tally clock cursor).1
  rw [hatt] at hcons
  simp only [hclass] at hcons
  refine ⟨by rw [hstep], by rw [hstep], ?_, hcons, ?_, ?_⟩
  · rw [hstep]
    intro ev hev
    rcases List.mem_cons.mp hev with h | h
    · exact Or.inl (by rw [h])
    · simp only [Run.getWorkingProvider, List.mem_map] at h
      obtain ⟨rpc, _, rfl⟩ := h
      exact Or.inr ⟨rpc, rfl⟩
  · intro clock0 cursor0 e h
    rw [main_first_acquisition_fails w clock0 cursor0 e h]
    exact ⟨rfl, rfl⟩
  · intro clock0 cursor0 rpc resolved e h1 h2 hne h3
    have hm := main_refresh_fails w clock0 cursor0 rpc resolved e h1 h2 hne h3
    refine ⟨hm.1, ?_⟩
    rw [hm.2]
    intro ev hev
    rcases List.mem_append.mp hev with h | h
    · exact all_getWorkingProvider (fun e => e.call.ofCandidate = false) w (fun _ => rfl)
        clock0 cursor0 ev h
    · rcases List.mem_append.mp h with h | h
      · exact findResolved_no_candidate w _ _ ev h
      · exact all_getWorkingProvider (fun e => e.call.ofCandidate = false) w (fun _ => rfl)
          _ _ ev h

set_option maxRecDepth 1000000 in
/-- Witness of the amended C15: in the world of the counterexample, the first candidate is
counted as failed and the loop goes on. -/
theorem pool_exhaustion_in_loop_witness :
    (processCandidate lapseWorld "0xaa" { success := 0, skipped := 0, failed := 0 } 0 0).result
        = .ok { success := 0, skipped := 0, failed := 0 + 1 }
    ∧ (candidateLoop lapseWorld ["0xaa", "0xbb"]
          { success := 0, skipped := 0, failed := 0 } 0 0).result
        = (candidateLoop lapseWorld ["0xbb"] { success := 0, skipped := 0, failed := 0 + 1 }
            (Run.getWorkingProvider lapseWorld (0 + 1) 0).clock
            (Run.getWorkingProvider lapseWorld (0 + 1) 0).cursor).result :=
  have h := pool_exhaustion_in_loop lapseWorld "0xaa" ["0xbb"]
    { success := 0, skipped := 0, failed := 0 } 0 0
    { reason := none, message := some "timeout" } poolError rfl (by decide)
  ⟨h.1, h.2.2.2.1⟩

end AutoRedeem

/-! ### `redeem.js`: a candidate with a zero payout denominator -/

namespace Redeem

open AutoRedeem

set_option maxRecDepth 100000 in
/-- Against C12: with a payout denominator of zero, the run of `redeem.js` over one candidate
ends with `skipped` still at 0, not at 1. -/
theorem zero_denominator_not_counted :
    unresolvedWorld.payoutDenominator 0 "0xaa" = .ok 0
    ∧ (candidateLoop unresolvedWorld ["0xaa"] { success := 0, skipped := 0 } 0 0).result
        = .ok { success := 0, skipped := 0 }
    ∧ (candidateLoop unresolvedWorld ["0xaa"] { success := 0, skipped := 0 } 0 0).result
        ≠ .ok { success := 0, skipped := 0 + 1 } := by
  decide

/-- C12, amended: in `redeem.js`, a candidate whose payout denominator reads zero is passed
over: the denominator read is the only call made for it, so no nonce is read and no Safe
transaction is submitted, neither `success` nor `skipped` changes, and the loop goes on
with the next candidate. -/
theorem zero_denominator_passed_over (w : World) (conditionId : String)
    (rest : List String) (tally : Tally) (clock cursor : Nat)
    (hzero : w.payoutDenominator clock conditionId = .ok 0) :
    processCandidate w conditionId tally clock cursor
      = { result := .ok tally, clock := clock + 1, cursor := cursor,
          events := [{ call := .payoutDenominator conditionId, viaRetry := false }] }
    ∧ execCount (processCandidate w conditionId tally clock cursor).events = 0
    ∧ (∀ e ∈ (processCandidate w conditionId tally clock cursor).events,
        e.call.ofCandidate = false)
    ∧ (candidateLoop w (conditionId :: rest) tally clock cursor).result
        = (candidateLoop w rest tally (clock + 1) cursor).result := by
  have hstep : processCandidate w conditionId tally clock cursor
      = { result := .ok tally, clock := clock + 1, cursor := cursor,
          events := [{ call := .payoutDenominator conditionId, viaRetry := false }] } := by
    simp only [processCandidate, attempt, Run.tryCatch, bind, Run.bind, Run.call, hzero,
      if_true, pure, Run.pure, List.append_nil]
  refine ⟨hstep, ?_, ?_, ?_⟩
  · rw [hstep]; rfl
  · rw [hstep]
    intro e he
    rw [List.mem_singleton.mp he]
    rfl
  · rw [candidateLoop]
    simp only [bind, Run.bind, hstep]

/-- Witness of the amended C12: the world where every payout denominator is zero. -/
theorem zero_denominator_passed_over_witness :
    processCandidate unresolvedWorld "0xaa" { success := 0, skipped := 0 } 0 0
      = { result := .ok { success := 0, skipped := 0 }, clock := 0 + 1, cursor := 0,
          events := [{ call := .payoutDenominator "0xaa", viaRetry := false }] } :=
  (zero_denominator_passed_over unresolvedWorld "0xaa" []
    { success := 0, skipped := 0 } 0 0 rfl).1

end Redeem

/-! ### The balance read after the batch -/

namespace AutoRedeem

theorem finalReport_read (w : World) (balBefore : Int) (tally : Tally) (clock cursor : Nat)
    (rpc : Option String) (balAfter : Int)
    (h1 : (Run.getWorkingProvider w clock cursor).result = .ok rpc)
    (h2 : ((Run.getWorkingProvider w clock cursor).next
        (Run.retry w.balanceOf (fun _ => Call.balanceOf))).result = .ok (some balAfter)) :
    (finalReport w balBefore tally clock cursor).result
      = .ok ([[""], [separator], ["💰 After:", formatUnits6 balAfter, "USDC"]]
          ++ (if 0 < balAfter - balBefore then
                [["✅ Claimed:", formatUnits6 (balAfter - balBefore)]]
              else [])
          ++ [[resultsLine tally], [separator]]) := by
  simp only [Step.next] at h2
  by_cases hd : 0 < balAfter - balBefore
  · have hd2 : balAfter - balBefore > 0 := hd
    simp only [finalReport, bind, Run.bind, Run.tryCatch, h1, h2, Run.defined, Run.pure, pure,
      if_pos hd, if_pos hd2]
    rfl
  · have hd2 : ¬ (balAfter - balBefore > 0) := hd
    simp only [finalReport, bind, Run.bind, Run.tryCatch, h1, h2, Run.defined, Run.pure, pure,
      if_neg hd, if_neg hd2]
    rfl

end AutoRedeem

set_option maxRecDepth 1000000 in
/-- Against C13: with a balance of 10 before the batch and 4 after it, the last section of
`auto-redeem.js` prints the balance and the results and nothing else: line for line what it
prints when the balance before was 4 as well; the same holds for `redeem.js`. -/
theorem decrease_not_flagged :
    (AutoRedeem.finalReport AutoRedeem.lossWorld 10
        { success := 0, skipped := 0, failed := 0 } 0 0).result
      = .ok [[""], [AutoRedeem.separator], ["💰 After:", "0.000004", "USDC"],
          [AutoRedeem.resultsLine { success := 0, skipped := 0, failed := 0 }],
          [AutoRedeem.separator]]
    ∧ (AutoRedeem.finalReport AutoRedeem.lossWorld 10
        { success := 0, skipped := 0, failed := 0 } 0 0).result
      = (AutoRedeem.finalReport AutoRedeem.lossWorld 4
        { success := 0, skipped := 0, failed := 0 } 0 0).result
    ∧ Redeem.finalReport 10 4 { success := 0, skipped := 0 }
      = Redeem.finalReport 4 4 { success := 0, skipped := 0 } := by
  decide

/-- C13, amended: when the balance is read after the batch, the last section of
`auto-redeem.js` prints it, then the difference with the balance read before as the amount
claimed when and only when that difference is positive, then the results; when the balance
is not higher than before, what is printed is what is printed for an unchanged balance, so a
decrease is neither reported nor flagged.  The last lines of `redeem.js` do the same. -/
theorem difference_reported_when_positive (w : AutoRedeem.World) (balBefore : Int)
    (tally : AutoRedeem.Tally) (clock cursor : Nat) (rpc : Option String) (balAfter : Int)
    (tally2 : Redeem.Tally)
    (h1 : (AutoRedeem.Run.getWorkingProvider w clock cursor).result = .ok rpc)
    (h2 : ((AutoRedeem.Run.getWorkingProvider w clock cursor).next
        (AutoRedeem.Run.retry w.balanceOf (fun _ => AutoRedeem.Call.balanceOf))).result
          = .ok (some balAfter)) :
    (AutoRedeem.finalReport w balBefore tally clock cursor).result
      = .ok ([[""], [AutoRedeem.separator],
              ["💰 After:", AutoRedeem.formatUnits6 balAfter, "USDC"]]
          ++ (if 0 < balAfter - balBefore then
                [["✅ Claimed:", AutoRedeem.formatUnits6 (balAfter - balBefore)]]
              else [])
          ++ [[AutoRedeem.resultsLine tally], [AutoRedeem.separator]])
    ∧ (balAfter ≤ balBefore →
        (AutoRedeem.finalReport w balBefore tally clock cursor).result
          = (AutoRedeem.finalReport w balAfter tally clock cursor).result)
    ∧ Redeem.finalReport balBefore balAfter tally2
      = [["\n═══════════════════════════════════════════════════════════════════"], ["💰 Balance after:", AutoRedeem.formatUnits6 balAfter, "USDC"]]
          ++ (if 0 < balAfter - balBefore then
                [["✅ Redeemed:", AutoRedeem.formatUnits6 (balAfter - balBefore), "USDC"]]
              else [])
          ++ [["Results:", toString tally2.success, "success,", toString tally2.skipped,
                "skipped"],
              ["═══════════════════════════════════════════════════════════════════"]]
    ∧ (balAfter ≤ balBefore →
        Redeem.finalReport balBefore balAfter tally2
          = Redeem.finalReport balAfter balAfter tally2) := by
  have hrep := AutoRedeem.finalReport_read w balBefore tally clock cursor rpc balAfter h1 h2
  have hsame := AutoRedeem.finalReport_read w balAfter tally clock cursor rpc balAfter h1 h2
  refine ⟨hrep, ?_, rfl, ?_⟩
  · intro hle
    have hd : ¬ (0 < balAfter - balBefore) := by omega
    have hd0 : ¬ (0 < balAfter - balAfter) := by omega
    rw [hrep, hsame, if_neg hd, if_neg hd0]
  · intro hle
    have hd : ¬ (balAfter - balBefore > 0) := by omega
    have hd0 : ¬ (balAfter - balAfter > 0) := by omega
    simp only [Redeem.finalReport, if_neg hd, if_neg hd0]

set_option maxRecDepth 1000000 in
/-- Witness of the amended C13: a balance of 100 before and 115 after, every call going
through. -/
theorem difference_reported_when_positive_witness :
    (AutoRedeem.finalReport { AutoRedeem.quietWorld with balanceOf := fun _ => .ok 115 } 100
        { success := 2, skipped := 1, failed := 0 } 0 0).result
      = .ok ([[""], [AutoRedeem.separator],
              ["💰 After:", AutoRedeem.formatUnits6 115, "USDC"]]
          ++ (if 0 < (115 : Int) - 100 then
                [["✅ Claimed:", AutoRedeem.formatUnits6 (115 - 100)]]
              else [])
          ++ [[AutoRedeem.resultsLine { success := 2, skipped := 1, failed := 0 }],
              [AutoRedeem.separator]]) :=
  (difference_reported_when_positive { AutoRedeem.quietWorld with balanceOf := fun _ => .ok 115 }
    100 { success := 2, skipped := 1, failed := 0 } 0 0 (some "https://polygon-rpc.com") 115
    { success := 0, skipped := 0 } (by decide) (by decide)).1

/-! ### The end-to-end scenario -/

namespace AutoRedeem

theorem run_retry_third_time {α : Type} (oracle : Nat → Except JsError α)
    (call : Except JsError α → Call) (clock cursor : Nat) (ea eb : JsError) (x : α)
    (ha : oracle clock = .error ea) (hb : oracle (clock + 1) = .error eb)
    (hc : oracle (clock + 2) = .ok x) :
    (Run.retry oracle call clock cursor).result = .ok (some x)
    ∧ (Run.retry oracle call clock cursor).clock = clock + 3
    ∧ (Run.retry oracle call clock cursor).events.length = 3 := by
  have h := retryLoop_succeeds (fun i => oracle (clock + i)) 3 2 x (by decide)
    (fun j hj => by
      have hj2 : j = 0 ∨ j = 1 := by omega
      rcases hj2 with rfl | rfl
      · exact ⟨ea, ha⟩
      · exact ⟨eb, hb⟩)
    hc 2 3 0 (by decide) (by decide)
  have hr : AutoRedeem.retry (fun i => oracle (clock + i)) 3 2000
      = { outcome := .ok (some x), calls := 2 + 1 } := h
  simp [Run.retry, hr]

theorem candidateLoop_nil (w : World) (tally : Tally) (clock cursor : Nat) :
    candidateLoop w [] tally clock cursor
      = { result := .ok tally, clock := clock, cursor := cursor, events := [] } := by
  rw [candidateLoop]
  rfl

/-- C16: three candidates, the first confirmed with status 1, the second ending in an error
whose text contains `revert`, the third confirmed with status 1 (after whatever transient
failures its reads went through inside `retry`), then a balance read that returns the
balance before plus 10 + 5 units: the run counts 2 successes, 1 skipped and 0 failed, and
reports 15 units as claimed.  Two rejected invocations of a read followed by an accepted
one are absorbed by `retry`: the read returns the value after three invocations. -/
theorem three_candidates_scenario (w : World) (c1 c2 c3 : String) (balBefore unit : Int)
    (clock cursor : Nat) (e2 : JsError) (rpc : Option String)
    (hunit : 0 < unit)
    (h1 : (attempt w c1 clock cursor).result = .ok 1)
    (h2 : ((attempt w c1 clock cursor).next (attempt w c2)).result = .error e2)
    (hrevert : includes (errorText e2) "revert" = true)
    (h3 : (((attempt w c1 clock cursor).next (attempt w c2)).next (attempt w c3)).result
        = .ok 1)
    (h4 : ((((attempt w c1 clock cursor).next (attempt w c2)).next (attempt w c3)).next
        (Run.getWorkingProvider w)).result = .ok rpc)
    (h5 : (((((attempt w c1 clock cursor).next (attempt w c2)).next (attempt w c3)).next
        (Run.getWorkingProvider w)).next
          (Run.retry w.balanceOf (fun _ => Call.balanceOf))).result
        = .ok (some (balBefore + (10 + 5) * unit))) :
    (redeemAndReport w [c1, c2, c3] balBefore clock cursor).result
      = .ok ({ success := 2, skipped := 1, failed := 0 },
          [[""], [separator],
            ["💰 After:", formatUnits6 (balBefore + 15 * unit), "USDC"],
            ["✅ Claimed:", formatUnits6 (15 * unit)],
            [resultsLine { success := 2, skipped := 1, failed := 0 }], [separator]])
    ∧ (∀ (t k : Nat) (ea eb : JsError) (n : Nat),
        w.nonce t = .error ea → w.nonce (t + 1) = .error eb → w.nonce (t + 2) = .ok n →
        (Run.retry w.nonce (fun r => Call.nonce r.toOption) t k).result = .ok (some n)
        ∧ (Run.retry w.nonce (fun r => Call.nonce r.toOption) t k).events.length = 3) := by
  refine ⟨?_, fun t k ea eb n ha hb hc =>
    ⟨(run_retry_third_time w.nonce _ t k ea eb n ha hb hc).1,
     (run_retry_third_time w.nonce _ t k ea eb n ha hb hc).2.2⟩⟩
  simp only [Step.next] at h2 h3 h4 h5
  have k1 := candidateLoop_cons w c1 [c2, c3] { success := 0, skipped := 0, failed := 0 }
    clock cursor
  rw [h1] at k1
  have k2 := candidateLoop_cons w c2 [c3]
    (Spec.record { success := 0, skipped := 0, failed := 0 }
      (Spec.classify (fun e => includes (errorText e) "revert") (Except.ok 1)))
    (attempt w c1 clock cursor).clock (attempt w c1 clock cursor).cursor
  rw [h2] at k2
  have k3 := candidateLoop_cons w c3 []
    (Spec.record (Spec.record { success := 0, skipped := 0, failed := 0 }
      (Spec.classify (fun e => includes (errorText e) "revert") (Except.ok 1)))
      (Spec.classify (fun e => includes (errorText e) "revert") (Except.error e2)))
    (attempt w c2 (attempt w c1 clock cursor).clock (attempt w c1 clock cursor).cursor).clock
    (attempt w c2 (attempt w c1 clock cursor).clock (attempt w c1 clock cursor).cursor).cursor
  rw [h3] at k3
  simp only [candidateLoop_nil] at k3
  have htally : Spec.record (Spec.record (Spec.record
        { success := 0, skipped := 0, failed := 0 }
        (Spec.classify (fun e => includes (errorText e) "revert") (Except.ok 1)))
        (Spec.classify (fun e => includes (errorText e) "revert") (Except.error e2)))
        (Spec.classify (fun e => includes (errorText e) "revert") (Except.ok 1))
      = { success := 2, skipped := 1, failed := 0 } := by
    simp [Spec.record, Spec.classify, hrevert]
  rw [htally] at k3
  have hres : (redeemAll w [c1, c2, c3] clock cursor).result
      = .ok { success := 2, skipped := 1, failed := 0 } := by
    show (candidateLoop w [c1, c2, c3] _ clock cursor).result = _
    rw [k1.1, k2.1, k3.1]
  have hclk : (redeemAll w [c1, c2, c3] clock cursor).clock
      = (attempt w c3
          (attempt w c2 (attempt w c1 clock cursor).clock (attempt w c1 clock cursor).cursor).clock
          (attempt w c2 (attempt w c1 clock cursor).clock
            (attempt w c1 clock cursor).cursor).cursor).clock := by
    show (candidateLoop w [c1, c2, c3] _ clock cursor).clock = _
    rw [k1.2.2.1, k2.2.2.1, k3.2.2.1]
  have hcur : (redeemAll w [c1, c2, c3] clock cursor).cursor
      = (attempt w c3
          (attempt w c2 (attempt w c1 clock cursor).clock (attempt w c1 clock cursor).cursor).clock
          (attempt w c2 (attempt w c1 clock cursor).clock
            (attempt w c1 clock cursor).cursor).cursor).cursor := by
    show (candidateLoop w [c1, c2, c3] _ clock cursor).cursor = _
    rw [k1.2.2.2, k2.2.2.2, k3.2.2.2]
  have hrep := finalReport_read w balBefore { success := 2, skipped := 1, failed := 0 }
    _ _ rpc (balBefore + (10 + 5) * unit) h4 h5
  have hdiff : balBefore + (10 + 5) * unit - balBefore = 15 * unit := by ring
  have hpos : (0 : Int) < 15 * unit := by omega
  have hsum : balBefore + (10 + 5) * unit = balBefore + 15 * unit := by ring
  rw [hdiff, if_pos hpos, hsum] at hrep
  simp only [redeemAndReport, bind, Run.bind, hres, hclk, hcur, hrep, pure, Run.pure]
  rfl

end AutoRedeem

namespace AutoRedeem

set_option maxRecDepth 1000000 in
/-- Witness of C16: in the scenario world the third candidate's nonce read is rejected twice
and accepted the third time, and the run started with a balance of 100 units of one
million ends with the tally 2, 1, 0 and 15 units claimed. -/
theorem three_candidates_scenario_witness :
    scenarioWorld.nonce 10 = .error { reason := none, message := some "timeout" }
    ∧ scenarioWorld.nonce 11 = .error { reason := none, message := some "timeout" }
    ∧ scenarioWorld.nonce 12 = .ok 7
    ∧ (redeemAndReport scenarioWorld ["0xaa", "0xbb", "0xcc"] 100000000 0 0).result
      = .ok ({ success := 2, skipped := 1, failed := 0 },
          [[""], [separator],
            ["💰 After:", formatUnits6 (100000000 + 15 * 1000000), "USDC"],
            ["✅ Claimed:", formatUnits6 (15 * 1000000)],
            [resultsLine { success := 2, skipped := 1, failed := 0 }], [separator]]) :=
  ⟨rfl, rfl, rfl,
    (three_candidates_scenario scenarioWorld "0xaa" "0xbb" "0xcc" 100000000 1000000 0 0
      { reason := some "execution reverted", message := some "call exception" }
      (some "https://polygon-rpc.com") (by decide) (by decide) (by decide) (by decide)
      (by decide) (by decide) (by decide)).1⟩

end AutoRedeem

/-! ### The digest that is signed -/

set_option maxRecDepth 100000 in
/-- Against C17: with the hash function that keeps the first 32 bytes and a signer that returns
the digest it is given, the digest handed to the signer for the all-zero hash starts with
the byte `0x19` of the signed-message prefix: it is neither the hash nor the hash of the
hash alone, in each of the three scripts; the bytes that are hashed are the prefix
`\x19Ethereum Signed Message:\n32` followed by the hash. -/
theorem digest_is_not_the_hash :
    AutoRedeem.sig (fun b => b.take 32) (fun d => d) (List.replicate 32 0)
      ≠ List.replicate 32 0
    ∧ BuilderRedeem.signature (fun b => b.take 32) (fun d => d) (List.replicate 32 0)
      ≠ List.replicate 32 0
    ∧ ViemRedeem.signature (fun b => b.take 32) (fun d => d) (List.replicate 32 0)
      ≠ List.replicate 32 0
    ∧ AutoRedeem.sig (fun b => b.take 32) (fun d => d) (List.replicate 32 0)
      ≠ (fun b : Bytes => b.take 32) (List.replicate 32 0)
    ∧ Viem.toPrefixedMessage (List.replicate 32 0)
      = utf8Bytes "\x19Ethereum Signed Message:\n32" ++ List.replicate 32 0
    ∧ (AutoRedeem.sig (fun b => b.take 32) (fun d => d) (List.replicate 32 0)).head? = some 0x19 := by
  decide

set_option maxRecDepth 100000 in
theorem prefix_bytes_32 :
    utf8Bytes ("\x19Ethereum Signed Message:\n" ++ toString (32 : Nat))
        = utf8Bytes "\x19Ethereum Signed Message:\n32"
    ∧ utf8Bytes Ethers.messagePrefix ++ utf8Bytes (toString (32 : Nat))
        = utf8Bytes "\x19Ethereum Signed Message:\n32"
    ∧ (utf8Bytes "\x19Ethereum Signed Message:\n32").length = 28 := by
  decide

/-- C17, amended: in each of the three scripts the signature is made with `signMessage`, so the
digest handed to ECDSA for a 32-byte Safe transaction hash is the hash of the 28 bytes of
the Ethereum signed-message prefix `\x19Ethereum Signed Message:\n32` followed by the 32
bytes of the Safe transaction hash, 60 bytes in all, and not the Safe transaction hash
itself. -/
theorem digest_is_prefixed_hash {σ : Type} (keccak256 : Bytes → Bytes)
    (signDigest : Bytes → σ) (txHash : Bytes) (hlen : txHash.length = 32) :
    AutoRedeem.sig keccak256 signDigest txHash
      = signDigest (keccak256 (utf8Bytes "\x19Ethereum Signed Message:\n32" ++ txHash))
    ∧ BuilderRedeem.signature keccak256 signDigest txHash
      = signDigest (keccak256 (utf8Bytes "\x19Ethereum Signed Message:\n32" ++ txHash))
    ∧ ViemRedeem.signature keccak256 signDigest txHash
      = signDigest (keccak256 (utf8Bytes "\x19Ethereum Signed Message:\n32" ++ txHash))
    ∧ (utf8Bytes "\x19Ethereum Signed Message:\n32" ++ txHash).length = 28 + 32
    ∧ (utf8Bytes "\x19Ethereum Signed Message:\n32" ++ txHash).take 28
      = utf8Bytes "\x19Ethereum Signed Message:\n32" := by
  have hp := prefix_bytes_32
  refine ⟨?_, ?_, ?_, ?_, ?_⟩
  · simp only [AutoRedeem.sig, Ethers.signMessage, Ethers.hashMessage, hlen, hp.2.1]
  · simp only [BuilderRedeem.signature, Viem.signMessage, Viem.hashMessage,
      Viem.toPrefixedMessage, hlen, hp.1]
  · simp only [ViemRedeem.signature, Viem.signMessage, Viem.hashMessage,
      Viem.toPrefixedMessage, hlen, hp.1]
  · rw [List.length_append, hp.2.2, hlen]
  · rw [List.take_append_of_le_length (by rw [hp.2.2]), List.take_of_length_le (by rw [hp.2.2])]

/-- Witness of the amended C17: the all-zero hash, the hash function that keeps the first 32
bytes, a signer that returns its digest. -/
theorem digest_is_prefixed_hash_witness :
    AutoRedeem.sig (fun b => b.take 32) (fun d => d) (List.replicate 32 0)
      = (fun d : Bytes => d) ((fun b : Bytes => b.take 32)
          (utf8Bytes "\x19Ethereum Signed Message:\n32" ++ List.replicate 32 0)) :=
  (digest_is_prefixed_hash (fun b => b.take 32) (fun d => d) (List.replicate 32 0)
    (List.length_replicate 32 0)).1

/-! ### The calldata of `redeemPositions` -/

set_option maxRecDepth 100000 in
theorem redeem_constants :
    Abi.parseHex AutoRedeem.USDC.toList
        = some [0x27, 0x91, 0xBc, 0xa1, 0xf2, 0xde, 0x46, 0x61, 0xED, 0x88, 0xA3, 0x0C, 0x99,
            0xA7, 0xa9, 0x44, 0x9A, 0xa8, 0x41, 0x74]
    ∧ Abi.parseHex AutoRedeem.HashZero.toList = some (List.replicate 32 0)
    ∧ AutoRedeem.HashZero = "0x" ++ Js.repeat "0" 64
    ∧ AutoRedeem.HashZero
        = "0x0000000000000000000000000000000000000000000000000000000000000000"
    ∧ BuilderRedeem.USDC = AutoRedeem.USDC ∧ ViemRedeem.USDC = AutoRedeem.USDC
    ∧ BuilderRedeem.CTF_ABI = AutoRedeem.ctfInterface
    ∧ ViemRedeem.CTF_ABI = AutoRedeem.ctfInterface
    ∧ AutoRedeem.ctfInterface.signature = "redeemPositions(address,bytes32,bytes32,uint256[])" := by
  decide

/-- C18: for a condition id that is the hex string of 32 bytes, the three scripts produce the
same calldata: the selector of `redeemPositions(address,bytes32,bytes32,uint256[])`, then
the word of the USDC address, 32 zero bytes for the parent collection id, the 32 bytes of
the condition id, the offset of the array (128), its length 2 and its elements 1 and 2.
Apart from the hash function the calldata is determined by the condition id alone, and the
three spellings of the zero parent id are one string, denoting 32 zero bytes. -/
theorem redeemPositions_calldata (keccak256 : Bytes → Bytes) (conditionId : String)
    (condition : Bytes) (hcid : Abi.parseHex conditionId.toList = some condition)
    (hlen : condition.length = 32) :
    AutoRedeem.redeemData keccak256 conditionId
      = some ((keccak256 (utf8Bytes "redeemPositions(address,bytes32,bytes32,uint256[])")).take 4
          ++ Spec.addressWord [0x27, 0x91, 0xBc, 0xa1, 0xf2, 0xde, 0x46, 0x61, 0xED, 0x88, 0xA3,
              0x0C, 0x99, 0xA7, 0xa9, 0x44, 0x9A, 0xa8, 0x41, 0x74]
          ++ List.replicate 32 0
          ++ condition
          ++ Spec.uintWord 128 ++ Spec.uintWord 2 ++ Spec.uintWord 1 ++ Spec.uintWord 2)
    ∧ BuilderRedeem.data keccak256 conditionId = AutoRedeem.redeemData keccak256 conditionId
    ∧ ViemRedeem.data keccak256 conditionId = AutoRedeem.redeemData keccak256 conditionId
    ∧ AutoRedeem.HashZero = "0x" ++ Js.repeat "0" 64
    ∧ AutoRedeem.HashZero
        = "0x0000000000000000000000000000000000000000000000000000000000000000"
    ∧ Abi.parseHex AutoRedeem.HashZero.toList = some (List.replicate 32 0)
    ∧ (∀ other : String, other = conditionId →
        AutoRedeem.redeemData keccak256 other = AutoRedeem.redeemData keccak256 conditionId) := by
  have hc := redeem_constants
  have h128 : (4 * 32 : Nat) < 2 ^ 256 := by norm_num
  have h2 : ([1, 2] : List Nat).length < 2 ^ 256 := by norm_num
  have h1lt : (1 : Nat) < 2 ^ 256 := by norm_num
  have h2lt : (2 : Nat) < 2 ^ 256 := by norm_num
  have h20 : ([0x27, 0x91, 0xBc, 0xa1, 0xf2, 0xde, 0x46, 0x61, 0xED, 0x88, 0xA3, 0x0C, 0x99,
      0xA7, 0xa9, 0x44, 0x9A, 0xa8, 0x41, 0x74] : Bytes).length = 20 := rfl
  have h32 : (List.replicate 32 0 : Bytes).length = 32 := List.length_replicate 32 0
  refine ⟨?_, ?_, ?_, hc.2.2.1, hc.2.2.2.1, hc.2.1, fun other h => by rw [h]⟩
  · simp only [AutoRedeem.redeemData, Abi.encodeFunctionData, Abi.selector, hc.1, hc.2.1, hcid,
      hc.2.2.2.2.2.2.2.2, ViemRedeem.encodeWord, Abi.encodeUints, if_pos hlen, if_pos h128,
      if_pos h2, if_pos h1lt, if_pos h2lt, if_pos h20, if_pos h32, bind, Option.bind, pure,
      Spec.addressWord, Spec.uintWord, List.append_nil, List.append_assoc]
    rfl
  · simp only [BuilderRedeem.data, AutoRedeem.redeemData, hc.2.2.2.2.1, hc.2.2.2.2.2.2.1,
      ← hc.2.2.1]
  · simp only [ViemRedeem.data, AutoRedeem.redeemData, hc.2.2.2.2.2.1, hc.2.2.2.2.2.2.2.1,
      ← hc.2.2.2.1]

set_option maxRecDepth 100000 in
/-- Witness of C18: the condition id `0xabab…ab`. -/
theorem redeemPositions_calldata_witness :
    BuilderRedeem.data (fun b => b.take 32) ("0x" ++ Js.repeat "ab" 32)
      = AutoRedeem.redeemData (fun b => b.take 32) ("0x" ++ Js.repeat "ab" 32)
    ∧ ViemRedeem.data (fun b => b.take 32) ("0x" ++ Js.repeat "ab" 32)
      = AutoRedeem.redeemData (fun b => b.take 32) ("0x" ++ Js.repeat "ab" 32) :=
  have h := redeemPositions_calldata (fun b => b.take 32) ("0x" ++ Js.repeat "ab" 32)
    (List.replicate 32 0xab) (by decide) (List.length_replicate 32 0xab)
  ⟨h.2.1, h.2.2.1⟩

/-! ### The depth of the order book -/

namespace MarketDataCollector

theorem foldl_size_eq_sum {α : Type} [AddGroup α] (levels : List (Level α)) (start : α) :
    levels.foldl (fun sum b => sum + b.size) start
      = start + (levels.map fun level => level.size).sum := by
  induction levels generalizing start with
  | nil => simp
  | cons level rest ih =>
    rw [List.foldl_cons, ih, List.map_cons, List.sum_cons, add_assoc]

/-- C20: for every order book that `fetchOrderBook` receives, the bid depth is the sum of the
sizes of the first five bid levels, of all of them when there are fewer (`min(5, length)`
levels), levels after the fifth change nothing, and a side that is empty or missing has
depth 0; likewise for the asks.  Sizes 100, 80, 60, 40, 20 give 300, also with further
levels behind them. -/
theorem depth_is_sum_of_top_five {α : Type} [AddGroup α] [DecidableEq α]
    (bids asks : List (Level α)) :
    (∃ summary, fetchOrderBook (.ok { bids := some bids, asks := some asks }) = some summary
      ∧ summary.bidDepth = ((bids.take 5).map fun level => level.size).sum
      ∧ summary.askDepth = ((asks.take 5).map fun level => level.size).sum)
    ∧ (bids.take 5).length = min 5 bids.length
    ∧ (asks.take 5).length = min 5 asks.length
    ∧ (fetchOrderBook (.ok { bids := some bids, asks := some asks })).map
          (fun summary => (summary.bidDepth, summary.askDepth))
        = (fetchOrderBook (.ok { bids := some (bids.take 5), asks := some (asks.take 5) })).map
          (fun summary => (summary.bidDepth, summary.askDepth))
    ∧ (fetchOrderBook (.ok { bids := some [], asks := some asks })).map
          (fun summary => summary.bidDepth) = some (0 : α)
    ∧ (fetchOrderBook (.ok { bids := none, asks := some asks })).map
          (fun summary => summary.bidDepth) = some (0 : α)
    ∧ (fetchOrderBook (.ok { bids := some bids, asks := some [] })).map
          (fun summary => summary.askDepth) = some (0 : α)
    ∧ (fetchOrderBook (.ok { bids := some bids, asks := none })).map
          (fun summary => summary.askDepth) = some (0 : α)
    ∧ (fetchOrderBook
          (.ok { bids := some (levelsOfSizes ([100, 80, 60, 40, 20] : List Int)),
                 asks := some (levelsOfSizes [90, 70, 50, 30, 10]) })).map
          (fun summary => (summary.bidDepth, summary.askDepth)) = some ((300 : Int), (250 : Int))
    ∧ (fetchOrderBook
          (.ok { bids := some (levelsOfSizes ([100, 80, 60, 40, 20, 7, 9] : List Int)),
                 asks := some [] })).map
          (fun summary => summary.bidDepth) = some (300 : Int) := by
  refine ⟨⟨_, rfl, ?_, ?_⟩, List.length_take _ _, List.length_take _ _, ?_, ?_, ?_, ?_, ?_, ?_,
    ?_⟩
  · simp only [Option.getD_some]
    rw [foldl_size_eq_sum, zero_add]
  · simp only [Option.getD_some]
    rw [foldl_size_eq_sum, zero_add]
  · simp [fetchOrderBook, List.take_take]
  · simp [fetchOrderBook]
  · simp [fetchOrderBook]
  · simp [fetchOrderBook]
  · simp [fetchOrderBook]
  · decide
  · decide

end MarketDataCollector

/-! ### The price stored by `collectData` -/

namespace MarketDataCollector

/-- For a book with a first bid and a first ask, `fetchOrderBook` reports their prices, and
`collectData` stores their average when both are non-zero, the outcome price otherwise. -/
theorem midPrice_of_first_levels {α : Type} [Field α] [DecidableEq α]
    (bid ask : Level α) (bids asks : List (Level α)) (price : Option α) :
    ∃ summary,
      fetchOrderBook (.ok { bids := some (bid :: bids), asks := some (ask :: asks) })
        = some summary
      ∧ summary.bestBid = some bid.price ∧ summary.bestAsk = some ask.price
      ∧ midPrice summary price
          = if bid.price ≠ 0 ∧ ask.price ≠ 0 then some ((bid.price + ask.price) / 2)
            else price := by
  refine ⟨_, rfl, ?_, ?_, ?_⟩
  · simp
  · simp
  · simp [midPrice]

/-- The stored price for best prices 0.55 and 0.56 is 0.555, whatever the outcome price. -/
theorem midPrice_example :
    (collectData (oneTokenWorld (2 / 5 : ℚ) (11 / 20) (14 / 25)) 1700000123456).map
        (fun row => (row.price, row.bid, row.ask))
      = [(some (111 / 200), some (11 / 20), some (14 / 25))] := by
  simp [collectData, slugLoop, tokenLoop, oneTokenWorld, fetchOrderBook, midPrice]
  norm_num

/-- C21, at the failing input: a book whose first bid is at price 0 and whose first ask is at
0.5, for a token with outcome price 0.4.  Both sides are there (`bid` is 0 and `ask` is 0.5
in the row), the mid price is 0.25, and the price stored is the outcome price 0.4. -/
theorem zero_bid_stores_outcome_price :
    (collectData (oneTokenWorld (2 / 5 : ℚ) 0 (1 / 2)) 1700000123456).map
        (fun row => (row.price, row.bid, row.ask))
      = [(some (2 / 5), some 0, some (1 / 2))]
    ∧ ((0 : ℚ) + 1 / 2) / 2 = 1 / 4
    ∧ (some (2 / 5) : Option ℚ) ≠ some (((0 : ℚ) + 1 / 2) / 2) := by
  refine ⟨?_, by norm_num, by norm_num⟩
  simp [collectData, slugLoop, tokenLoop, oneTokenWorld, fetchOrderBook, midPrice]

end MarketDataCollector


/-! ### The metrics of `calculate-buckets.js` -/

namespace CalculateBuckets

theorem length_logReturnsLoop {α : Type} [LinearOrderedField α] (log : α → α)
    (prices : List α) (remaining i : Nat) :
    (logReturnsLoop log prices remaining i).length = remaining := by
  induction remaining generalizing i with
  | zero => rfl
  | succ n ih => simp [logReturnsLoop, ih]

theorem getElem?_logReturnsLoop {α : Type} [LinearOrderedField α] (log : α → α)
    (prices : List α) (remaining i k : Nat) (hk : k < remaining) :
    (logReturnsLoop log prices remaining i)[k]?
      = some (log (prices.getD (i + k) 0 / prices.getD (i + k - 1) 0)) := by
  induction remaining generalizing i k with
  | zero => omega
  | succ n ih =>
    cases k with
    | zero => simp [logReturnsLoop]
    | succ k =>
      have h := ih (i + 1) k (by omega)
      have e : i + 1 + k = i + (k + 1) := by omega
      rw [e] at h
      simpa [logReturnsLoop] using h

theorem totalAbsMoveLoop_ge {α : Type} [LinearOrderedField α] (prices : List α)
    (remaining j : Nat) (total : α) :
    total + |prices.getD (j + remaining) 0 - prices.getD j 0|
      ≤ totalAbsMoveLoop prices remaining (j + 1) total := by
  induction remaining generalizing j total with
  | zero => simp [totalAbsMoveLoop]
  | succ n ih =>
    have h := ih (j + 1) (total + |prices.getD (j + 1) 0 - prices.getD j 0|)
    have e : j + 1 + n = j + (n + 1) := by omega
    rw [e] at h
    have tri := abs_sub_le (prices.getD (j + (n + 1)) 0) (prices.getD (j + 1) 0)
      (prices.getD j 0)
    have step : totalAbsMoveLoop prices (n + 1) (j + 1) total
        = totalAbsMoveLoop prices n (j + 1 + 1)
            (total + |prices.getD (j + 1) 0 - prices.getD j 0|) := by
      simp [totalAbsMoveLoop]
    rw [step]
    calc total + |prices.getD (j + (n + 1)) 0 - prices.getD j 0|
        ≤ total + (|prices.getD (j + (n + 1)) 0 - prices.getD (j + 1) 0|
            + |prices.getD (j + 1) 0 - prices.getD j 0|) := by
          exact add_le_add_left tri total
      _ = total + |prices.getD (j + 1) 0 - prices.getD j 0|
            + |prices.getD (j + (n + 1)) 0 - prices.getD (j + 1) 0| := by ring
      _ ≤ _ := h

theorem netMove_le_totalAbsMove {α : Type} [LinearOrderedField α] (prices : List α) :
    |prices.getD (prices.length - 1) 0 - prices.getD 0 0|
      ≤ totalAbsMoveLoop prices (prices.length - 1) 1 0 := by
  have h := totalAbsMoveLoop_ge prices (prices.length - 1) 0 0
  simpa using h

end CalculateBuckets


namespace CalculateBuckets

theorem calculateMetrics_enough_rows {α : Type} [LinearOrderedField α] (log sqrt : α → α)
    (marketId : String) (rows : List (PriceRow α)) (hnot : ¬ rows.length < 60) :
    calculateMetrics log sqrt marketId (.ok rows)
      = .ok (some
        { timestamp := (rows.reverse.map fun r => r.timestamp).getD (rows.reverse.length - 1) 0,
          marketId := marketId,
          logReturn := (logReturns log (rows.reverse.map fun r => r.price)).getD
            ((logReturns log (rows.reverse.map fun r => r.price)).length - 1) 0,
          realizedVol60 := sqrt ((logReturns log (rows.reverse.map fun r => r.price)).foldl
            (fun sum r => sum + r * r) 0),
          efficiency60 :=
            if totalAbsMoveLoop (rows.reverse.map fun r => r.price)
                ((rows.reverse.map fun r => r.price).length - 1) 1 0 > 0 then
              |(rows.reverse.map fun r => r.price).getD
                    ((rows.reverse.map fun r => r.price).length - 1) 0
                  - (rows.reverse.map fun r => r.price).getD 0 0|
                / totalAbsMoveLoop (rows.reverse.map fun r => r.price)
                    ((rows.reverse.map fun r => r.price).length - 1) 1 0
            else 0 }) := by
  simp only [calculateMetrics, if_neg hnot]

end CalculateBuckets


namespace CalculateBuckets

/-- C22: with the real logarithm for `Math.log`, the log return that `calculateMetrics`
computes for two consecutive positive prices `p1`, `p2` of a series of 60 is `ln(p2 / p1)`:
0 when `p2 = p1`, negative when `p2 < p1`, positive when `p2 > p1`; the one of the last two
prices is the `logReturn` of the metrics. -/
theorem log_return_sign (sqrt : ℝ → ℝ) (marketId : String) (rows : List (PriceRow ℝ))
    (k : Nat) (p1 p2 : ℝ) (hlen : rows.length = 60)
    (h1 : (rows.reverse.map fun r => r.price)[k]? = some p1)
    (h2 : (rows.reverse.map fun r => r.price)[k + 1]? = some p2)
    (hp1 : 0 < p1) (hp2 : 0 < p2) :
    (logReturns Real.log (rows.reverse.map fun r => r.price))[k]? = some (Real.log (p2 / p1))
    ∧ (p2 = p1 → Real.log (p2 / p1) = 0)
    ∧ (p2 < p1 → Real.log (p2 / p1) < 0)
    ∧ (p1 < p2 → 0 < Real.log (p2 / p1))
    ∧ (k = 58 → ∃ m, calculateMetrics Real.log sqrt marketId (.ok rows) = .ok (some m)
        ∧ m.logReturn = Real.log (p2 / p1)) := by
  have hnot : ¬ rows.length < 60 := by omega
  have hp : (rows.reverse.map fun r => r.price).length = 60 := by simp [hlen]
  have hk : k + 1 < 60 := by
    rw [← hp]
    exact (List.getElem?_eq_some.mp h2).1
  have hret : (logReturns Real.log (rows.reverse.map fun r => r.price))[k]?
      = some (Real.log (p2 / p1)) := by
    rw [logReturns, getElem?_logReturnsLoop _ _ _ _ _ (by rw [hp]; omega)]
    have e1 : (rows.reverse.map fun r => r.price).getD (1 + k) 0 = p2 := by
      rw [List.getD_eq_getElem?_getD, Nat.add_comm, h2]; rfl
    have e2 : (rows.reverse.map fun r => r.price).getD (1 + k - 1) 0 = p1 := by
      rw [List.getD_eq_getElem?_getD, Nat.add_sub_cancel_left, h1]; rfl
    rw [e1, e2]
  refine ⟨hret, ?_, ?_, ?_, ?_⟩
  · intro h
    rw [h, div_self (ne_of_gt hp1), Real.log_one]
  · intro h
    exact Real.log_neg (div_pos hp2 hp1) ((div_lt_one hp1).mpr h)
  · intro h
    exact Real.log_pos ((one_lt_div hp1).mpr h)
  · intro h58
    subst h58
    refine ⟨_, calculateMetrics_enough_rows Real.log sqrt marketId rows hnot, ?_⟩
    have hl : (logReturns Real.log (rows.reverse.map fun r => r.price)).length = 59 := by
      rw [logReturns, length_logReturnsLoop, hp]
    dsimp only
    rw [hl, List.getD_eq_getElem?_getD, hret]
    rfl

/-- Witness of C22: the prices 1, 2, …, 60; the last two are 59 and 60. -/
theorem log_return_sign_witness :
    (logReturns Real.log ((risingRows ℝ).reverse.map fun r => r.price))[58]?
      = some (Real.log (((60 : Nat) : ℝ) / ((59 : Nat) : ℝ)))
    ∧ 0 < Real.log (((60 : Nat) : ℝ) / ((59 : Nat) : ℝ)) :=
  have h := log_return_sign (fun x => x) "0xabc123" (risingRows ℝ) 58 ((59 : Nat) : ℝ)
    ((60 : Nat) : ℝ) (by simp [risingRows]) rfl rfl (Nat.cast_pos.mpr (by decide))
    (Nat.cast_pos.mpr (by decide))
  ⟨h.1, h.2.2.2.1 (Nat.cast_lt.mpr (by decide))⟩

end CalculateBuckets


namespace CalculateBuckets

/-- C29: for every series of 60 rows, `calculateMetrics` resolves with metrics whose
`efficiency60` is the net move divided by the total of the absolute moves, or 0 when that
total is not positive, and lies between 0 and 1, over any linearly ordered field (the
reals among them). -/
theorem efficiency60_in_unit_interval {α : Type} [LinearOrderedField α] (log sqrt : α → α)
    (marketId : String) (rows : List (PriceRow α)) (hlen : rows.length = 60) :
    ∃ m, calculateMetrics log sqrt marketId (.ok rows) = .ok (some m)
      ∧ m.efficiency60
          = (if totalAbsMoveLoop (rows.reverse.map fun r => r.price) 59 1 0 > 0 then
              |(rows.reverse.map fun r => r.price).getD 59 0
                  - (rows.reverse.map fun r => r.price).getD 0 0|
                / totalAbsMoveLoop (rows.reverse.map fun r => r.price) 59 1 0
             else 0)
      ∧ 0 ≤ m.efficiency60 ∧ m.efficiency60 ≤ 1 := by
  have hnot : ¬ rows.length < 60 := by omega
  have hp : (rows.reverse.map fun r => r.price).length = 60 := by simp [hlen]
  have hle := netMove_le_totalAbsMove (rows.reverse.map fun r => r.price)
  rw [hp] at hle
  have hrun := calculateMetrics_enough_rows log sqrt marketId rows hnot
  rw [hp] at hrun
  refine ⟨_, hrun, rfl, ?_, ?_⟩
  · dsimp only
    split
    · exact div_nonneg (abs_nonneg _) (le_of_lt (by assumption))
    · exact le_refl 0
  · dsimp only
    split
    · rename_i hpos
      exact (div_le_one hpos).mpr hle
    · exact zero_le_one

/-- Witness of C29: the prices 1, 2, …, 60 over the rationals. -/
theorem efficiency60_in_unit_interval_witness :
    ∃ m, calculateMetrics (fun x => x) (fun x => x) "0xabc123" (.ok (risingRows ℚ)) = .ok (some m)
      ∧ 0 ≤ m.efficiency60 ∧ m.efficiency60 ≤ 1 :=
  have h := efficiency60_in_unit_interval (fun x : ℚ => x) (fun x => x) "0xabc123"
    (risingRows ℚ) (by simp [risingRows])
  h.elim fun m hm => ⟨m, hm.1, hm.2.2.1, hm.2.2.2⟩

end CalculateBuckets


/-! ### The headers of a relayer request -/

/-- C23: in both relayer scripts the request of `relayerPost` carries the API key, the
timestamp, the passphrase and the signature in its headers, and the signature is the
URL-safe base64 of the HMAC of `timestamp + 'POST' + path + body` where `timestamp` is the
value of the `POLY_BUILDER_TIMESTAMP` header and `body` is the string that is posted; the
request of `relayerGet` has no body and is signed over `timestamp + 'GET' + path`. -/
theorem headers_sign_what_is_sent {δ : Type} (hmacSha256 : Bytes → Bytes → Bytes)
    (stringify : δ → List Char) (env : BuilderEnv) (now : Nat) (path : List Char) (data : δ) :
    (∀ post, (post = BuilderRedeem.relayerPost hmacSha256 stringify env now path data
          ∨ post = ViemRedeem.relayerPost hmacSha256 stringify env now path data) →
        post.url = "https://relayer-v2.polymarket.com".toList ++ path
        ∧ post.body = some (stringify data)
        ∧ post.headers.POLY_BUILDER_API_KEY = env.BUILDER_KEY
        ∧ post.headers.POLY_BUILDER_PASSPHRASE = env.BUILDER_PASSPHRASE
        ∧ post.headers.POLY_BUILDER_TIMESTAMP = (toString (now / 1000)).toList
        ∧ post.headers.POLY_BUILDER_SIGNATURE
            = Js.replaceAll (Js.replaceAll (Node.base64Encode
                (hmacSha256
                  (Node.bufferFromBase64
                    (Js.replaceAll (Js.replaceAll env.BUILDER_SECRET '-' '+') '_' '/'))
                  (utf8Bytes (String.mk (post.headers.POLY_BUILDER_TIMESTAMP ++ "POST".toList
                    ++ path ++ post.body.getD []))))) '+' '-') '/' '_')
    ∧ (∀ get, (get = BuilderRedeem.relayerGet hmacSha256 env now path
          ∨ get = ViemRedeem.relayerGet hmacSha256 env now path) →
        get.url = "https://relayer-v2.polymarket.com".toList ++ path
        ∧ get.body = none
        ∧ get.headers.POLY_BUILDER_API_KEY = env.BUILDER_KEY
        ∧ get.headers.POLY_BUILDER_PASSPHRASE = env.BUILDER_PASSPHRASE
        ∧ get.headers.POLY_BUILDER_TIMESTAMP = (toString (now / 1000)).toList
        ∧ get.headers.POLY_BUILDER_SIGNATURE
            = Js.replaceAll (Js.replaceAll (Node.base64Encode
                (hmacSha256
                  (Node.bufferFromBase64
                    (Js.replaceAll (Js.replaceAll env.BUILDER_SECRET '-' '+') '_' '/'))
                  (utf8Bytes (String.mk (get.headers.POLY_BUILDER_TIMESTAMP ++ "GET".toList
                    ++ path))))) '+' '-') '/' '_') := by
  constructor
  · intro post h
    rcases h with rfl | rfl
    · refine ⟨rfl, rfl, rfl, rfl, rfl, ?_⟩
      simp [BuilderRedeem.relayerPost, BuilderRedeem.getBuilderHeaders, BuilderRedeem.signHmac,
        Node.createHmac, Node.Hmac.update, Node.Hmac.digest]
    · refine ⟨rfl, rfl, rfl, rfl, rfl, ?_⟩
      simp [ViemRedeem.relayerPost, ViemRedeem.getBuilderHeaders, ViemRedeem.signHmac,
        Node.createHmac, Node.Hmac.update, Node.Hmac.digest]
  · intro get h
    rcases h with rfl | rfl
    · refine ⟨rfl, rfl, rfl, rfl, rfl, ?_⟩
      simp [BuilderRedeem.relayerGet, BuilderRedeem.getBuilderHeaders, BuilderRedeem.signHmac,
        Node.createHmac, Node.Hmac.update, Node.Hmac.digest]
    · refine ⟨rfl, rfl, rfl, rfl, rfl, ?_⟩
      simp [ViemRedeem.relayerGet, ViemRedeem.getBuilderHeaders, ViemRedeem.signHmac,
        Node.createHmac, Node.Hmac.update, Node.Hmac.digest]


/-! ### The transaction that is submitted -/

namespace AutoRedeem

/-- A submission made in one candidate's `try` block carries the arguments of a
`getTransactionHash` call of the same block, and the packed signature of the hash that this
call returned. -/
theorem attempt_exec_is_hashed (w : World) (conditionId : String) (clock cursor : Nat)
    (e : Event) (args : SafeTxArgs) (sigs : Bytes)
    (he : e ∈ (attempt w conditionId clock cursor).events)
    (hcall : e.call = .execTransaction args sigs) :
    ∃ (redeemData : Bytes) (nonce : Nat) (txHash : Bytes) (t : Nat),
      w.encodeFunctionData conditionId = .ok redeemData
      ∧ args = { to_ := CTF, value := 0, data := redeemData, operation := 0, safeTxGas := 0,
                 baseGas := 0, gasPrice := 0, gasToken := AddressZero,
                 refundReceiver := AddressZero }
      ∧ ({ call := .getTransactionHash args nonce, viaRetry := true } : Event)
          ∈ (attempt w conditionId clock cursor).events
      ∧ w.getTransactionHash t args nonce = .ok txHash
      ∧ packed (w.signMessage txHash) = some sigs := by
  unfold attempt at he ⊢
  rcases mem_events_bind _ _ _ _ _ he with hA | ⟨u, hu, he1⟩
  · exfalso
    have hall : Run.All (fun ev => ∀ a m, ev.call ≠ .execTransaction a m)
        (Run.tryCatch
          (do let _ ← Run.call w.getBlockNumber (fun _ => Call.getBlockNumber); pure ())
          (fun _ => do let _ ← Run.getWorkingProvider w; pure ())) := by
      refine all_tryCatch _ ?_ (fun _ => ?_)
      · exact all_bind _ (all_call _ _ _ (fun _ a m h => by cases h))
          (fun _ => all_pure _ _)
      · exact all_bind _ (all_getWorkingProvider _ w (fun _ a m h => by cases h))
          (fun _ => all_pure _ _)
    exact hall clock cursor e hA args sigs hcall
  rcases mem_events_bind _ _ _ _ _ he1 with hB | ⟨redeemData, hdata, he2⟩
  · cases hB
  have hdata2 : w.encodeFunctionData conditionId = .ok redeemData := hdata
  rcases mem_events_bind _ _ _ _ _ he2 with hC | ⟨read, hread, he3⟩
  · exfalso
    have hall : Run.All (fun ev => ∀ a m, ev.call ≠ .execTransaction a m)
        (Run.retry w.nonce (fun r => Call.nonce r.toOption)) :=
      all_retry _ _ _ (fun _ a m h => by cases h)
    exact hall _ _ e hC args sigs hcall
  cases read with
  | none =>
    rcases mem_events_bind _ _ _ _ _ he3 with hD | ⟨x, hx, _⟩
    · cases hD
    · cases hx
  | some n0 =>
    rcases mem_events_bind _ _ _ _ _ he3 with hD | ⟨x, hx, he4⟩
    · cases hD
    have hx0 : x = n0 := by
      have hx2 : (Except.ok n0 : Except JsError Nat) = Except.ok x := hx
      injection hx2 with hx2
      exact hx2.symm
    subst hx0
    rcases mem_events_bind _ _ _ _ _ he4 with hE | ⟨hashed, hhashed, he5⟩
    · exfalso
      have hall : Run.All (fun ev => ∀ a m, ev.call ≠ .execTransaction a m)
          (Run.retry
            (fun t => w.getTransactionHash t
              { to_ := CTF, value := 0, data := redeemData, operation := 0, safeTxGas := 0,
                baseGas := 0, gasPrice := 0, gasToken := AddressZero,
                refundReceiver := AddressZero }
              x)
            (fun _ => Call.getTransactionHash
              { to_ := CTF, value := 0, data := redeemData, operation := 0, safeTxGas := 0,
                baseGas := 0, gasPrice := 0, gasToken := AddressZero,
                refundReceiver := AddressZero }
              x)) :=
        all_retry _ _ _ (fun _ a m h => by cases h)
      exact hall _ _ e hE args sigs hcall
    cases hashed with
    | none =>
      rcases mem_events_bind _ _ _ _ _ he5 with hF | ⟨y, hy, _⟩
      · cases hF
      · cases hy
    | some txHash =>
      have hev := retry_ok_event _ _ _ _ txHash hhashed
      obtain ⟨j, _, hsrc⟩ := retryLoop_ok_source _ 3 _ 0 txHash hhashed
      obtain ⟨t, ht⟩ : ∃ t, w.getTransactionHash t
          { to_ := CTF, value := 0, data := redeemData, operation := 0, safeTxGas := 0,
            baseGas := 0, gasPrice := 0, gasToken := AddressZero,
            refundReceiver := AddressZero } x = .ok txHash := ⟨_, hsrc⟩
      rcases mem_events_bind _ _ _ _ _ he5 with hF | ⟨y, hy, he6⟩
      · cases hF
      have hy0 : y = txHash := by
        have hy2 : (Except.ok txHash : Except JsError Bytes) = Except.ok y := hy
        injection hy2 with hy2
        exact hy2.symm
      subst hy0
      rcases mem_events_bind _ _ _ _ _ he6 with hG | ⟨pk, hpk, he7⟩
      · exfalso
        exact all_defined (fun _ => False) _ _ _ e hG
      have hpacked : packed (w.signMessage y) = some pk := by
        cases hp : packed (w.signMessage y) with
        | none => rw [hp] at hpk; cases hpk
        | some q =>
          rw [hp] at hpk
          have hq : (Except.ok q : Except JsError Bytes) = Except.ok pk := hpk
          injection hq with hq
          rw [hq]
      rcases mem_events_bind _ _ _ _ _ he7 with hH | ⟨_, _, he8⟩
      · simp only [Run.call, List.mem_singleton] at hH
        rw [hH] at hcall
        injection hcall with hargs hsigs
        refine ⟨redeemData, x, y, t, hdata2, hargs.symm, ?_, ?_, ?_⟩
        · rw [← hargs]
          refine mem_events_bind_right _ _ _ _ u hu _ ?_
          refine mem_events_bind_right _ _ _ _ redeemData hdata _ ?_
          refine mem_events_bind_right _ _ _ _ (some x) hread _ ?_
          refine mem_events_bind_right _ _ _ _ x hx _ ?_
          exact mem_events_bind_left _ _ _ _ _ hev
        · rw [← hargs]
          exact ht
        · rw [← hsigs]
          exact hpacked
      · exfalso
        have hall : Run.All (fun ev => ∀ a m, ev.call ≠ .execTransaction a m)
            (do
              let status ← Run.call w.wait (fun _ => Call.wait)
              pure status) :=
          all_bind _ (all_call _ _ _ (fun _ a m h => by cases h)) (fun _ => all_pure _ _)
        exact hall _ _ e he8 args sigs hcall

end AutoRedeem


namespace ViemRedeem

/-- What `prepare` returns: the request is built from the values that were hashed, and its
signature is the adjusted signature of their hash. -/
theorem prepare_fields (w : World) (account conditionId : String) (nonce : Nat)
    (args : HashArgs) (req : Request)
    (hprep : prepare w account conditionId nonce = some (args, req)) :
    (∃ data, w.encodeFunctionData conditionId = .ok data
      ∧ args = { chainId := 137, safeAddress := hexBytes PROXY, to_ := hexBytes CTF, value := 0,
                 data := data, operation := 0, nonce := nonce }
      ∧ req.data = data)
    ∧ req.to_ = CTF ∧ req.proxyWallet = PROXY ∧ req.from_ = account
    ∧ req.nonce = toString nonce
    ∧ req.signatureParams
        = { gasPrice := "0", operation := "0", safeTxnGas := "0", baseGas := "0",
            gasToken := "0x0000000000000000000000000000000000000000",
            refundReceiver := "0x0000000000000000000000000000000000000000" }
    ∧ ∃ safeTxHash, args.hash w.keccak256 = some safeTxHash
        ∧ adjustedSig (w.signMessage safeTxHash) = some req.signature := by
  unfold prepare at hprep
  cases hdata : w.encodeFunctionData conditionId with
  | error err => simp [hdata] at hprep
  | ok data =>
    simp only [hdata] at hprep
    cases hhash : HashArgs.hash w.keccak256
        { chainId := 137, safeAddress := hexBytes PROXY, to_ := hexBytes CTF, value := 0,
          data := data, operation := 0, nonce := nonce } with
    | none => simp [hhash] at hprep
    | some safeTxHash =>
      simp only [hhash] at hprep
      cases hsig : adjustedSig (w.signMessage safeTxHash) with
      | none => simp [hsig] at hprep
      | some adjusted =>
        simp only [hsig, Option.some.injEq, Prod.mk.injEq] at hprep
        obtain ⟨hargs, hreq⟩ := hprep
        subst hargs
        subst hreq
        exact ⟨⟨data, rfl, rfl, rfl⟩, rfl, rfl, rfl, rfl, rfl, safeTxHash, hhash, hsig⟩

/-- The POST of one iteration is made with the request that `prepare` returns, and no POST
is made when `prepare` returns none. -/
theorem redeemOne_posts_prepared (w : World) (account conditionId : String) (s : Batch) :
    (∀ args req, prepare w account conditionId s.nonce = some (args, req) →
      redeemOne w account conditionId s
        = match w.relayerPost s.posts "/submit" req with
          | .ok (some _) =>
            { success := s.success + 1, nonce := s.nonce + 1, posts := s.posts + 1,
              hashed := s.hashed ++ [{ conditionId := conditionId, nonce := s.nonce,
                                       completed := true }] }
          | _ =>
            { s with posts := s.posts + 1,
                     hashed := s.hashed ++ [{ conditionId := conditionId, nonce := s.nonce,
                                              completed := false }] })
    ∧ (prepare w account conditionId s.nonce = none →
        (redeemOne w account conditionId s).posts = s.posts) := by
  unfold prepare redeemOne HashArgs.hash
  cases hdata : w.encodeFunctionData conditionId with
  | error err => simp
  | ok data =>
    simp only
    cases hhash : calculateSafeTxHash w.keccak256 137 (hexBytes PROXY) (hexBytes CTF) 0 data 0
        s.nonce with
    | none => simp
    | some safeTxHash =>
      simp only
      cases hsig : adjustedSig (w.signMessage safeTxHash) with
      | none => simp
      | some adjusted =>
        simp only [Option.some.injEq, Prod.mk.injEq, reduceCtorEq, false_implies, and_true]
        intro args req h
        rw [← h.2]

end ViemRedeem


set_option maxRecDepth 1000000 in
theorem zero_address_bytes :
    ViemRedeem.hexBytes "0x0000000000000000000000000000000000000000" = ViemRedeem.zeroAddress
    ∧ toString (0 : Nat) = "0" := by
  decide

/-- C24: the transaction that is submitted is the one that was hashed and signed.  In
`auto-redeem.js` a submission made for a candidate carries, as its first nine arguments,
the arguments `CTF, 0, redeemData, 0, 0, 0, 0, AddressZero, AddressZero` of a
`getTransactionHash` call made for the same candidate, and as its tenth the packed
signature of the hash this call returned.  In `viem-redeem.js` the request that is posted
has the `to`, `proxyWallet`, `data` and `nonce` that were given to `calculateSafeTxHash`,
its `signatureParams` spell the operation 0, the three zero gas values and the two zero
addresses that enter the hash, and its signature is the adjusted signature of that
hash. -/
theorem submitted_is_hashed_and_signed (w : AutoRedeem.World) (conditionId : String)
    (clock cursor : Nat) (e : AutoRedeem.Event) (args : AutoRedeem.SafeTxArgs) (sigs : Bytes)
    (wv : ViemRedeem.World) (account candidate : String) (s : ViemRedeem.Batch)
    (hashArgs : ViemRedeem.HashArgs) (req : ViemRedeem.Request)
    (he : e ∈ (AutoRedeem.attempt w conditionId clock cursor).events)
    (hcall : e.call = .execTransaction args sigs)
    (hprep : ViemRedeem.prepare wv account candidate s.nonce = some (hashArgs, req)) :
    (∃ (redeemData : Bytes) (nonce : Nat) (txHash : Bytes) (t : Nat),
      w.encodeFunctionData conditionId = .ok redeemData
      ∧ args = { to_ := AutoRedeem.CTF, value := 0, data := redeemData, operation := 0,
                 safeTxGas := 0, baseGas := 0, gasPrice := 0,
                 gasToken := AutoRedeem.AddressZero, refundReceiver := AutoRedeem.AddressZero }
      ∧ ({ call := .getTransactionHash args nonce, viaRetry := true } : AutoRedeem.Event)
          ∈ (AutoRedeem.attempt w conditionId clock cursor).events
      ∧ w.getTransactionHash t args nonce = .ok txHash
      ∧ AutoRedeem.packed (w.signMessage txHash) = some sigs)
    ∧ hashArgs.to_ = ViemRedeem.hexBytes req.to_
    ∧ hashArgs.safeAddress = ViemRedeem.hexBytes req.proxyWallet
    ∧ hashArgs.data = req.data
    ∧ hashArgs.nonce = s.nonce ∧ req.nonce = toString hashArgs.nonce
    ∧ req.signatureParams.operation = toString hashArgs.operation
    ∧ hashArgs.value = 0
    ∧ req.signatureParams.safeTxnGas = toString (0 : Nat)
    ∧ req.signatureParams.baseGas = toString (0 : Nat)
    ∧ req.signatureParams.gasPrice = toString (0 : Nat)
    ∧ hashArgs.hash wv.keccak256
        = (do
            let domainSeparator ← ViemRedeem.calculateDomainSeparator wv.keccak256 137
              (ViemRedeem.hexBytes req.proxyWallet)
            let safeTxHash ← (ViemRedeem.encodeAbiParameters
              [ .bytes32 (ViemRedeem.SAFE_TX_TYPEHASH wv.keccak256),
                .address (ViemRedeem.hexBytes req.to_),
                .uint256 0,
                .bytes32 (wv.keccak256 req.data),
                .uint8 0,
                .uint256 0,
                .uint256 0,
                .uint256 0,
                .address (ViemRedeem.hexBytes req.signatureParams.gasToken),
                .address (ViemRedeem.hexBytes req.signatureParams.refundReceiver),
                .uint256 s.nonce ]).map wv.keccak256
            pure (wv.keccak256 ([0x19, 0x01] ++ domainSeparator ++ safeTxHash)))
    ∧ (∃ safeTxHash, hashArgs.hash wv.keccak256 = some safeTxHash
        ∧ ViemRedeem.adjustedSig (wv.signMessage safeTxHash) = some req.signature)
    ∧ ViemRedeem.redeemOne wv account candidate s
        = (match wv.relayerPost s.posts "/submit" req with
          | .ok (some _) =>
            { success := s.success + 1, nonce := s.nonce + 1, posts := s.posts + 1,
              hashed := s.hashed ++ [{ conditionId := candidate, nonce := s.nonce,
                                       completed := true }] }
          | _ =>
            { s with posts := s.posts + 1,
                     hashed := s.hashed ++ [{ conditionId := candidate, nonce := s.nonce,
                                              completed := false }] }) := by
  obtain ⟨⟨data, _, hargs, hdata⟩, hto, hproxy, _, hnonce, hparams, hsigned⟩ :=
    ViemRedeem.prepare_fields wv account candidate s.nonce hashArgs req hprep
  have hz := zero_address_bytes
  refine ⟨AutoRedeem.attempt_exec_is_hashed w conditionId clock cursor e args sigs he hcall,
    ?_, ?_, ?_, ?_, ?_, ?_, ?_, ?_, ?_, ?_, ?_, hsigned,
    (ViemRedeem.redeemOne_posts_prepared wv account candidate s).1 hashArgs req hprep⟩
  · rw [hargs, hto]
  · rw [hargs, hproxy]
  · rw [hargs, hdata]
  · rw [hargs]
  · rw [hargs, hnonce]
  · rw [hargs, hparams]; exact hz.2.symm
  · rw [hargs]
  · rw [hparams]; exact hz.2.symm
  · rw [hparams]; exact hz.2.symm
  · rw [hparams]; exact hz.2.symm
  · rw [hargs, hparams, hto, hproxy, hdata]
    simp only [ViemRedeem.HashArgs.hash, ViemRedeem.calculateSafeTxHash, hz.1]

set_option maxRecDepth 1000000 in
/-- Witness of C24: the first candidate in the world where every call goes through, and the
request built in the world whose relayer rejects every submission. -/
theorem submitted_is_hashed_and_signed_witness :
    ∃ (redeemData : Bytes) (nonce : Nat) (txHash : Bytes) (t : Nat),
      AutoRedeem.quietWorld.encodeFunctionData "0xaa" = .ok redeemData
      ∧ ({ to_ := AutoRedeem.CTF, value := 0, data := [1, 2, 3], operation := 0,
           safeTxGas := 0, baseGas := 0, gasPrice := 0, gasToken := AutoRedeem.AddressZero,
           refundReceiver := AutoRedeem.AddressZero } : AutoRedeem.SafeTxArgs)
        = { to_ := AutoRedeem.CTF, value := 0, data := redeemData, operation := 0,
            safeTxGas := 0, baseGas := 0, gasPrice := 0,
            gasToken := AutoRedeem.AddressZero, refundReceiver := AutoRedeem.AddressZero }
      ∧ ({ call := .getTransactionHash
              { to_ := AutoRedeem.CTF, value := 0, data := [1, 2, 3], operation := 0,
                safeTxGas := 0, baseGas := 0, gasPrice := 0,
                gasToken := AutoRedeem.AddressZero, refundReceiver := AutoRedeem.AddressZero }
              nonce,
           viaRetry := true } : AutoRedeem.Event)
          ∈ (AutoRedeem.attempt AutoRedeem.quietWorld "0xaa" 0 0).events
      ∧ AutoRedeem.quietWorld.getTransactionHash t
          { to_ := AutoRedeem.CTF, value := 0, data := [1, 2, 3], operation := 0,
            safeTxGas := 0, baseGas := 0, gasPrice := 0, gasToken := AutoRedeem.AddressZero,
            refundReceiver := AutoRedeem.AddressZero } nonce = .ok txHash
      ∧ AutoRedeem.packed (AutoRedeem.quietWorld.signMessage txHash)
          = some (List.replicate 64 7 ++ [31]) :=
  (submitted_is_hashed_and_signed AutoRedeem.quietWorld "0xaa" 0 0
    { call := .execTransaction
        { to_ := AutoRedeem.CTF, value := 0, data := [1, 2, 3], operation := 0,
          safeTxGas := 0, baseGas := 0, gasPrice := 0, gasToken := AutoRedeem.AddressZero,
          refundReceiver := AutoRedeem.AddressZero }
        (List.replicate 64 7 ++ [31]),
      viaRetry := false }
    { to_ := AutoRedeem.CTF, value := 0, data := [1, 2, 3], operation := 0,
      safeTxGas := 0, baseGas := 0, gasPrice := 0, gasToken := AutoRedeem.AddressZero,
      refundReceiver := AutoRedeem.AddressZero }
    (List.replicate 64 7 ++ [31])
    ViemRedeem.rejectingWorld "0xme" "0xaa"
    { success := 0, nonce := 5, posts := 0, hashed := [] }
    { chainId := 137, safeAddress := ViemRedeem.hexBytes ViemRedeem.PROXY,
      to_ := ViemRedeem.hexBytes ViemRedeem.CTF, value := 0, data := [1, 2, 3], operation := 0,
      nonce := 5 }
    { from_ := "0xme",
      to_ := ViemRedeem.CTF,
      proxyWallet := ViemRedeem.PROXY,
      data := [1, 2, 3],
      nonce := "5",
      signature := Viem.bytesToHex (List.replicate 64 7 ++ [31]),
      signatureParams :=
        { gasPrice := "0", operation := "0", safeTxnGas := "0", baseGas := "0",
          gasToken := "0x0000000000000000000000000000000000000000",
          refundReceiver := "0x0000000000000000000000000000000000000000" },
      type_ := "SAFE",
      metadata := "" }
    (by decide) rfl (by decide)).1


/-! ### The nonce tracked by `viem-redeem.js` -/

namespace ViemRedeem

theorem nonceTracks_snoc (initial : Nat) (s : Batch) (entry : Hashed) (posts : Nat)
    (hentry : entry.nonce = s.nonce) (h : NonceTracks initial s) :
    NonceTracks initial
      { success := s.success + (if entry.completed then 1 else 0),
        nonce := s.nonce + (if entry.completed then 1 else 0),
        posts := posts,
        hashed := s.hashed ++ [entry] } := by
  obtain ⟨h1, h2, h3⟩ := h
  refine ⟨?_, ?_, ?_⟩
  · show s.nonce + _ = initial + (s.success + _)
    rw [h1, Nat.add_assoc]
  · show s.success + _ = _
    rw [List.countP_append, ← h2]
    cases hc : entry.completed <;> simp [List.countP_cons, hc]
  · intro k x hx
    show x.nonce = initial + ((s.hashed ++ [entry]).take k).countP _
    have hx2 : (s.hashed ++ [entry])[k]? = some x := hx
    rcases Nat.lt_or_ge k s.hashed.length with hk | hk
    · rw [List.take_append_of_le_length (Nat.le_of_lt hk)]
      rw [List.getElem?_append_left hk] at hx2
      exact h3 k x hx2
    · rw [List.getElem?_append_right hk] at hx2
      have hk0 : k - s.hashed.length = 0 := by
        rcases Nat.eq_zero_or_pos (k - s.hashed.length) with h0 | h0
        · exact h0
        · rw [List.getElem?_eq_none (by rw [List.length_singleton]; exact h0)] at hx2
          cases hx2
      rw [hk0] at hx2
      have hxe : x = entry := by simpa using hx2.symm
      have hke : k = s.hashed.length := by omega
      rw [hxe, hke, List.take_left' rfl, hentry, h1, h2]

theorem redeemOne_nonceTracks (w : World) (account conditionId : String) (initial : Nat)
    (s : Batch) (h : NonceTracks initial s) :
    NonceTracks initial (redeemOne w account conditionId s) := by
  unfold redeemOne
  split
  · exact h
  · split
    · exact h
    · dsimp only
      split
      · exact nonceTracks_snoc initial s (Hashed.mk conditionId s.nonce false) s.posts rfl h
      · split
        · exact nonceTracks_snoc initial s (Hashed.mk conditionId s.nonce true) (s.posts + 1) rfl h
        · exact nonceTracks_snoc initial s (Hashed.mk conditionId s.nonce false) (s.posts + 1) rfl h

theorem foldl_redeemOne_nonceTracks (w : World) (account : String) (initial : Nat) :
    ∀ (resolved : List String) (s : Batch), NonceTracks initial s →
      NonceTracks initial
        (resolved.foldl (fun s conditionId => redeemOne w account conditionId s) s)
  | [], _, h => h
  | conditionId :: rest, s, h =>
    foldl_redeemOne_nonceTracks w account initial rest _
      (redeemOne_nonceTracks w account conditionId initial s h)

/-- In every batch the tracked nonce ends at the fetched nonce plus `success`, and every
candidate is hashed with the fetched nonce plus the number of earlier candidates whose
`try` block ran to the end. -/
theorem redeemBatch_nonceTracks (w : World) (account : String) (resolved : List String)
    (nonce : Nat) : NonceTracks nonce (redeemBatch w account resolved nonce) :=
  foldl_redeemOne_nonceTracks w account nonce resolved _
    ⟨rfl, rfl, fun k h hk => by cases k <;> cases hk⟩

set_option maxRecDepth 1000000 in
/-- C25, at the failing input: the relayer answers the first POST without error, with the
body `null`, and the second with a transaction id.  Two POSTs returned without error, yet
the tracked nonce went from 5 to 6 only, `success` is 1, and the second candidate was hashed
with nonce 5 again, not with 5 plus the one earlier POST that returned. -/
theorem nonce_kept_after_null_answer :
    nullAnswerWorld.relayerPost 0 "/submit"
        { from_ := "0xabc", to_ := CTF, proxyWallet := PROXY, data := [1, 2, 3], nonce := "5",
          signature := Viem.bytesToHex (List.replicate 64 7 ++ [31]),
          signatureParams :=
            { gasPrice := "0", operation := "0", safeTxnGas := "0", baseGas := "0",
              gasToken := "0x0000000000000000000000000000000000000000",
              refundReceiver := "0x0000000000000000000000000000000000000000" },
          type_ := "SAFE", metadata := "" } = .ok none
    ∧ redeemBatch nullAnswerWorld "0xabc" ["0xaa", "0xbb"] 5
        = { success := 1, nonce := 6, posts := 2,
            hashed := [ { conditionId := "0xaa", nonce := 5, completed := false },
                        { conditionId := "0xbb", nonce := 5, completed := true } ] } := by
  decide

end ViemRedeem


/-! ### The tally of a run of `auto-redeem.js` -/

namespace AutoRedeem

theorem record_total (tally : Tally) (outcome : Spec.Outcome) :
    (Spec.record tally outcome).success + (Spec.record tally outcome).skipped
        + (Spec.record tally outcome).failed
      = tally.success + tally.skipped + tally.failed + 1 := by
  cases outcome <;> simp only [Spec.record] <;> omega

theorem candidateLoop_total (w : World) :
    ∀ (candidates : List String) (tally : Tally) (clock cursor : Nat),
      ∃ t, (candidateLoop w candidates tally clock cursor).result = .ok t
        ∧ t.success + t.skipped + t.failed
            = tally.success + tally.skipped + tally.failed + candidates.length
  | [], tally, clock, cursor => ⟨tally, by rw [candidateLoop_nil], rfl⟩
  | conditionId :: rest, tally, clock, cursor => by
    obtain ⟨t, ht, hsum⟩ := candidateLoop_total w rest
      (Spec.record tally (Spec.classify (fun e => includes (errorText e) "revert")
        (attempt w conditionId clock cursor).result))
      (attempt w conditionId clock cursor).clock (attempt w conditionId clock cursor).cursor
    refine ⟨t, ?_, ?_⟩
    · rw [(candidateLoop_cons w conditionId rest tally clock cursor).1, ht]
    · rw [hsum, record_total, List.length_cons]
      omega

theorem redeemAll_total (w : World) (resolved : List String) (clock cursor : Nat) :
    ∃ t, (redeemAll w resolved clock cursor).result = .ok t
      ∧ t.success + t.skipped + t.failed = min 8 resolved.length := by
  obtain ⟨t, ht, hsum⟩ := candidateLoop_total w (resolved.take 8)
    { success := 0, skipped := 0, failed := 0 } clock cursor
  refine ⟨t, ht, ?_⟩
  rw [hsum, List.length_take]
  simp

theorem finalReport_returns (w : World) (balBefore : Int) (tally : Tally)
    (clock cursor : Nat) :
    ∃ lines, (finalReport w balBefore tally clock cursor).result = .ok lines := by
  simp only [finalReport, bind, Run.bind, Run.tryCatch]
  split <;> split <;> simp_all [pure, Run.pure]

theorem result_bind_ok {α β : Type} (m : Run α) (f : α → Run β) (clock cursor : Nat) (y : β)
    (h : ((m >>= f) clock cursor).result = .ok y) :
    ∃ x, (m clock cursor).result = .ok x
      ∧ (f x (m clock cursor).clock (m clock cursor).cursor).result = .ok y := by
  change (Run.bind m f clock cursor).result = .ok y at h
  unfold Run.bind at h
  cases hres : (m clock cursor).result with
  | error err =>
    simp only [hres] at h
    cases h
  | ok x =>
    simp only [hres] at h
    exact ⟨x, rfl, h⟩

theorem main_finished (w : World) (clock cursor : Nat) (tally : Tally)
    (report : List (List String))
    (hend : (main w clock cursor).result = .ok (.finished tally report)) :
    ∃ resolved : List String, resolved.length ≠ 0
      ∧ ((Run.getWorkingProvider w clock cursor).next (findResolved w)).result = .ok resolved
      ∧ tally.success + tally.skipped + tally.failed = min 8 resolved.length := by
  unfold main at hend
  obtain ⟨r1, _, hend⟩ := result_bind_ok _ _ _ _ _ hend
  cases r1 with
  | error e => cases hend
  | ok rpc =>
    obtain ⟨r2, hr2, hend⟩ := result_bind_ok _ _ _ _ _ hend
    cases r2 with
    | error e => cases hend
    | ok resolved =>
      have hfound : ((Run.getWorkingProvider w clock cursor).next (findResolved w)).result
          = .ok resolved := by
        have h : (Except.ok (findResolved w (Run.getWorkingProvider w clock cursor).clock
            (Run.getWorkingProvider w clock cursor).cursor).result
              : Except JsError (Except JsError (List String))) = .ok (.ok resolved) := hr2
        injection h
      refine ⟨resolved, ?_, hfound, ?_⟩
      · intro hlen
        simp only [hlen, if_true] at hend
        cases hend
      · by_cases hlen : resolved.length = 0
        · simp only [hlen, if_true] at hend
          cases hend
        · simp only [hlen, if_false] at hend
          obtain ⟨r3, _, hend⟩ := result_bind_ok _ _ _ _ _ hend
          cases r3 with
          | error e => cases hend
          | ok rpc2 =>
            obtain ⟨r4, _, hend⟩ := result_bind_ok _ _ _ _ _ hend
            cases r4 with
            | error e => cases hend
            | ok balBefore =>
              obtain ⟨done, hdone, hend⟩ := result_bind_ok _ _ _ _ _ hend
              unfold redeemAndReport at hdone
              obtain ⟨t, ht, hdone⟩ := result_bind_ok _ _ _ _ _ hdone
              obtain ⟨rep, _, hdone⟩ := result_bind_ok _ _ _ _ _ hdone
              obtain ⟨t2, ht2, hsum⟩ := redeemAll_total w resolved _ _
              rw [ht] at ht2
              have htt : t = t2 := by injection ht2
              have hd : (Except.ok (t, rep) : Except JsError (Tally × List (List String)))
                  = .ok done := hdone
              have hd2 : (t, rep) = done := by injection hd
              have hf : (Except.ok (MainEnd.finished done.1 done.2) : Except JsError MainEnd)
                  = .ok (.finished tally report) := hend
              have hf2 : MainEnd.finished done.1 done.2 = .finished tally report := by
                injection hf
              have hf3 : done.1 = tally := by injection hf2
              rw [← hf3, ← hd2, htt]
              exact hsum

end AutoRedeem


namespace AutoRedeem

/-- C26: a run of `auto-redeem.js` that reaches the candidate loop, and so ends with its
report, has `success + skipped + failed = min(8, number of resolved candidates)`.  The loop
runs over the first 8 candidates in list order, each iteration ends without an exception
and adds one to exactly one of the three counters, and the next candidate starts from
there; this holds for every list and every behaviour of the chain. -/
theorem tally_counts_attempted (w : World) (clock cursor : Nat) (tally : Tally)
    (report : List (List String))
    (hend : (main w clock cursor).result = .ok (.finished tally report)) :
    (∃ resolved : List String, resolved.length ≠ 0
      ∧ ((Run.getWorkingProvider w clock cursor).next (findResolved w)).result = .ok resolved
      ∧ tally.success + tally.skipped + tally.failed = min 8 resolved.length)
    ∧ (∀ (resolved : List String) (at_ cur : Nat),
        redeemAll w resolved at_ cur
          = candidateLoop w (resolved.take 8) { success := 0, skipped := 0, failed := 0 } at_ cur
        ∧ (resolved.take 8).length = min 8 resolved.length
        ∧ ∃ t, (redeemAll w resolved at_ cur).result = .ok t
            ∧ t.success + t.skipped + t.failed = min 8 resolved.length)
    ∧ (∀ (conditionId : String) (rest : List String) (t : Tally) (at_ cur : Nat),
        ∃ t2, (processCandidate w conditionId t at_ cur).result = .ok t2
          ∧ (t2 = { t with success := t.success + 1 }
              ∨ t2 = { t with skipped := t.skipped + 1 }
              ∨ t2 = { t with failed := t.failed + 1 })
          ∧ (candidateLoop w (conditionId :: rest) t at_ cur).result
              = (candidateLoop w rest t2
                  (processCandidate w conditionId t at_ cur).clock
                  (processCandidate w conditionId t at_ cur).cursor).result) := by
  refine ⟨main_finished w clock cursor tally report hend, ?_, ?_⟩
  · intro resolved at_ cur
    exact ⟨rfl, List.length_take _ _, redeemAll_total w resolved at_ cur⟩
  · intro conditionId rest t at_ cur
    refine ⟨Spec.record t (Spec.classify (fun e => includes (errorText e) "revert")
      (attempt w conditionId at_ cur).result), ?_, ?_, ?_⟩
    · rw [processCandidate_step]
    · cases Spec.classify (fun e => includes (errorText e) "revert")
          (attempt w conditionId at_ cur).result
      · exact Or.inl rfl
      · exact Or.inr (Or.inl rfl)
      · exact Or.inr (Or.inr rfl)
    · rw [(candidateLoop_cons w conditionId rest t at_ cur).1, processCandidate_step]

set_option maxRecDepth 1000000 in
/-- Witness of C26: an account with ten resolved markets in the world where every call goes
through; eight candidates are attempted and the tally is 8, 0, 0. -/
theorem tally_counts_attempted_witness :
    ∃ resolved : List String, resolved.length ≠ 0
      ∧ ((Run.getWorkingProvider busyWorld 0 0).next (findResolved busyWorld)).result
          = .ok resolved
      ∧ 8 + 0 + 0 = min 8 resolved.length :=
  (tally_counts_attempted busyWorld 0 0 { success := 8, skipped := 0, failed := 0 }
    [[""], [separator], ["💰 After:", formatUnits6 0, "USDC"],
     [resultsLine { success := 8, skipped := 0, failed := 0 }], [separator]]
    (by decide)).1

end AutoRedeem


/-! ### `retry` without attempts -/

namespace AutoRedeem

/-- C28: for `maxAttempts ≤ 0` the loop of `retry` does not run: `fn` is not invoked, and
`retry` completes with `undefined`, neither a result of `fn` nor an error, whatever `fn`
would do. -/
theorem retry_without_attempts {ε α : Type} (fn : Nat → Except ε α) (maxAttempts : Int)
    (delay : Nat) (h : maxAttempts ≤ 0) :
    retry fn maxAttempts delay = { outcome := .ok none, calls := 0 }
    ∧ (retry fn maxAttempts delay).calls = 0
    ∧ (∀ x, (retry fn maxAttempts delay).outcome ≠ .ok (some x))
    ∧ (∀ e, (retry fn maxAttempts delay).outcome ≠ .error e) := by
  have hrun : retry fn maxAttempts delay = { outcome := .ok none, calls := 0 } := by
    unfold retry
    rw [Int.toNat_eq_zero.mpr h]
    rfl
  rw [hrun]
  exact ⟨rfl, rfl, fun x hx => (by cases hx), fun e he => (by cases he)⟩

/-- Witness of C28: `maxAttempts = -2`, with a function that would return 7 and with one
that would throw. -/
theorem retry_without_attempts_witness :
    retry (fun _ => (.ok 7 : Except String Nat)) (-2) 2000 = { outcome := .ok none, calls := 0 }
    ∧ retry (fun _ => (.error "boom" : Except String Nat)) 0 2000
        = { outcome := .ok none, calls := 0 } :=
  ⟨(retry_without_attempts (fun _ => (.ok 7 : Except String Nat)) (-2) 2000 (by decide)).1,
   (retry_without_attempts (fun _ => (.error "boom" : Except String Nat)) 0 2000
      (by decide)).1⟩

end AutoRedeem


/-! ### The two computations of the Safe transaction hash -/

set_option maxRecDepth 1000000 in
theorem typed_data_type_strings :
    Viem.encodeType "EIP712Domain"
        [{ name := "chainId", type_ := .uint256 }, { name := "verifyingContract", type_ := .address }]
      = ViemRedeem.DOMAIN_SEPARATOR_TYPE
    ∧ Viem.encodeType "SafeTx"
        [ { name := "to", type_ := .address },
          { name := "value", type_ := .uint256 },
          { name := "data", type_ := .bytes },
          { name := "operation", type_ := .uint8 },
          { name := "safeTxGas", type_ := .uint256 },
          { name := "baseGas", type_ := .uint256 },
          { name := "gasPrice", type_ := .uint256 },
          { name := "gasToken", type_ := .address },
          { name := "refundReceiver", type_ := .address },
          { name := "nonce", type_ := .uint256 } ]
      = ViemRedeem.SAFE_TX_TYPE := by
  decide

/-- C27: for every chain id, Safe, target, value, calldata, operation and nonce,
`createSafeTxHash` of `builder-redeem.js` (viem's `hashTypedData` with the domain
`{ chainId, verifyingContract }` and the ten-member `SafeTx` type) and `calculateSafeTxHash`
of `viem-redeem.js` (domain separator, struct hash and `0x1901` put together by hand) give
the same result: the same hash, and no hash for the same arguments. -/
theorem createSafeTxHash_eq_calculateSafeTxHash (keccak256 : Bytes → Bytes) (chainId : Nat)
    (safe to_ : Bytes) (value : Nat) (data : Bytes) (operation nonce : Nat) :
    BuilderRedeem.createSafeTxHash keccak256 chainId safe to_ value data operation nonce
      = ViemRedeem.calculateSafeTxHash keccak256 chainId safe to_ value data operation nonce := by
  have hz := zero_address_bytes.1
  have ht := typed_data_type_strings
  simp only [BuilderRedeem.createSafeTxHash, Viem.hashTypedData, Viem.getTypesForEIP712Domain,
    Viem.TypedDataDomain.data, Viem.hashStruct, ViemRedeem.calculateSafeTxHash,
    ViemRedeem.calculateDomainSeparator,
    ViemRedeem.SAFE_TX_TYPEHASH, ViemRedeem.DOMAIN_SEPARATOR_TYPEHASH, hz, ← ht.1, ← ht.2]
  simp [List.lookup, Viem.validateData, Viem.encodeFields, Viem.encodeField]
  by_cases h1 : chainId < 2 ^ 256
  · by_cases h2 : safe.length = 20
    · by_cases h3 : to_.length = 20
      · by_cases h4 : value < 2 ^ 256
        · by_cases h5 : operation < 2 ^ 8
          · by_cases h6 : nonce < 2 ^ 256
            · have hzl : ViemRedeem.zeroAddress.length = 20 := List.length_replicate 20 0
              simp only [Nat.reducePow] at h1 h4 h5 h6
              simp [h1, h2, h3, h4, h5, h6, hzl, Option.map_eq_bind]
            · simp only [Nat.reducePow] at h6
              simp [ViemRedeem.encodeAbiParameters, ViemRedeem.encodeWord, h6]
          · simp only [Nat.reducePow] at h5
            simp [ViemRedeem.encodeAbiParameters, ViemRedeem.encodeWord, h5]
        · simp only [Nat.reducePow] at h4
          simp [ViemRedeem.encodeAbiParameters, ViemRedeem.encodeWord, h4]
      · simp [ViemRedeem.encodeAbiParameters, ViemRedeem.encodeWord, h3]
    · simp [ViemRedeem.encodeAbiParameters, ViemRedeem.encodeWord, h2]
  · simp only [Nat.reducePow] at h1
    simp [ViemRedeem.encodeAbiParameters, ViemRedeem.encodeWord, h1]


/-! ### The summary of the trade log -/

namespace TradeLogger

theorem settle_keeps {α : Type} [Ring α] (now : Nat) (market : MarketAnswer)
    (trade : Trade α) (summary : Summary α) (updated : Nat) :
    (settle now market trade summary updated).1.status ≠ "PENDING"
    ∧ (settle now market trade summary updated).2.1.pending = summary.pending - 1
    ∧ (settle now market trade summary updated).2.1.wins
        + (settle now market trade summary updated).2.1.losses
      = summary.wins + summary.losses + 1
    ∧ (settle now market trade summary updated).2.2 = updated + 1 := by
  by_cases hwon : (trade.outcome = some "Up"
      ∧ orElse market.outcome market.winner = some "Up")
      ∨ (trade.outcome = some "Down" ∧ orElse market.outcome market.winner = some "Down")
  · have hst : (settle now market trade summary updated).1.status = "WIN" := by
      simp [settle, hwon]
    have hp : (settle now market trade summary updated).2.1.pending = summary.pending - 1 := by
      simp [settle, hwon]
    have hw : (settle now market trade summary updated).2.1.wins = summary.wins + 1 := by
      simp [settle, hwon]
    have hl : (settle now market trade summary updated).2.1.losses = summary.losses := by
      simp [settle, hwon]
    refine ⟨?_, hp, ?_, rfl⟩
    · rw [hst]; decide
    · rw [hw, hl]; ring
  · have hst : (settle now market trade summary updated).1.status = "LOSS" := by
      simp [settle, hwon]
    have hp : (settle now market trade summary updated).2.1.pending = summary.pending - 1 := by
      simp [settle, hwon]
    have hw : (settle now market trade summary updated).2.1.wins = summary.wins := by
      simp [settle, hwon]
    have hl : (settle now market trade summary updated).2.1.losses = summary.losses + 1 := by
      simp [settle, hwon]
    refine ⟨?_, hp, ?_, rfl⟩
    · rw [hst]; decide
    · rw [hw, hl]; ring

theorem checkTrade_cases {α : Type} [Ring α] (lookup : Lookup) (trade : Trade α)
    (summary : Summary α) (updated : Nat) :
    checkTrade lookup trade summary updated = (trade, summary, updated)
    ∨ (trade.status = "PENDING"
        ∧ ∃ market, checkTrade lookup trade summary updated
            = settle lookup.now market trade summary updated) := by
  unfold checkTrade
  by_cases hs : trade.status = "PENDING"
  · rw [if_neg (fun h => h hs)]
    by_cases hearly : tooEarly lookup.now trade.marketSlug = true
    · rw [if_pos hearly]
      exact Or.inl rfl
    · rw [if_neg hearly]
      cases hresp : lookup.response with
      | error e => exact Or.inl rfl
      | ok answer =>
        cases answer with
        | none => exact Or.inl rfl
        | some market =>
          by_cases hres : market.resolved = true ∨ (orElse market.outcome none).isSome = true
          · exact Or.inr ⟨hs, market, by simp only [if_pos hres]⟩
          · exact Or.inl (by simp only [if_neg hres])
  · rw [if_pos hs]
    exact Or.inl rfl

theorem checkTrade_keeps {α : Type} [Ring α] (lookup : Lookup) (trade : Trade α)
    (summary : Summary α) (updated : Nat) :
    (checkTrade lookup trade summary updated).2.1.pending
        + (checkTrade lookup trade summary updated).2.1.wins
        + (checkTrade lookup trade summary updated).2.1.losses
      = summary.pending + summary.wins + summary.losses
    ∧ (checkTrade lookup trade summary updated).2.1.pending
        - (pendingCount [(checkTrade lookup trade summary updated).1] : Int)
      = summary.pending - (pendingCount [trade] : Int) := by
  rcases checkTrade_cases lookup trade summary updated with h | ⟨hs, market, h⟩
  · rw [h]
    exact ⟨rfl, rfl⟩
  · rw [h]
    obtain ⟨h1, h2, h3, _⟩ := settle_keeps lookup.now market trade summary updated
    refine ⟨?_, ?_⟩
    · rw [h2]
      omega
    · rw [h2]
      simp only [pendingCount, List.countP_cons, List.countP_nil, hs, h1, decide_True,
        decide_False]
      simp

theorem checkLoop_keeps {α : Type} [Ring α] (env : Nat → Lookup) :
    ∀ (trades : List (Trade α)) (i : Nat) (summary : Summary α) (updated : Nat),
      (checkLoop env i trades summary updated).1.length = trades.length
      ∧ (checkLoop env i trades summary updated).2.1.pending
          + (checkLoop env i trades summary updated).2.1.wins
          + (checkLoop env i trades summary updated).2.1.losses
        = summary.pending + summary.wins + summary.losses
      ∧ (checkLoop env i trades summary updated).2.1.pending
          - (pendingCount (checkLoop env i trades summary updated).1 : Int)
        = summary.pending - (pendingCount trades : Int)
  | [], i, summary, updated => by
    simp [checkLoop]
  | trade :: rest, i, summary, updated => by
    obtain ⟨ih1, ih2, ih3⟩ := checkLoop_keeps env rest (i + 1)
      (checkTrade (env i) trade summary updated).2.1
      (checkTrade (env i) trade summary updated).2.2
    obtain ⟨hh1, hh2⟩ := checkTrade_keeps (env i) trade summary updated
    have hc : ∀ (t : Trade α) (l : List (Trade α)),
        (pendingCount (t :: l) : Int) = (pendingCount [t] : Int) + (pendingCount l : Int) := by
      intro t l
      simp only [pendingCount, List.countP_cons, List.countP_nil]
      push_cast
      ring
    refine ⟨?_, ?_, ?_⟩
    · simp only [checkLoop, List.length_cons, ih1]
    · simp only [checkLoop]
      rw [ih2, hh1]
    · simp only [checkLoop]
      have hca := hc (checkTrade (env i) trade summary updated).1
        (checkLoop env (i + 1) rest (checkTrade (env i) trade summary updated).2.1
          (checkTrade (env i) trade summary updated).2.2).1
      have hcb := hc trade rest
      omega

theorem initLog_consistent {α : Type} [Ring α] (file : Option (Data α))
    (h : ∀ data, file = some data → Consistent data) :
    Consistent (initLog file).1 ∧ (initLog file).2 = some (initLog file).1 := by
  cases file with
  | none => exact ⟨⟨rfl, rfl⟩, rfl⟩
  | some data => exact ⟨h data rfl, rfl⟩

theorem logTrade_consistent {α : Type} [Ring α] (now : Nat) (trade : TradeInput α)
    (file : Option (Data α)) (h : ∀ data, file = some data → Consistent data) :
    ∃ data, (logTrade now trade file).2 = some data ∧ Consistent data
      ∧ data.trades.length = (initLog file).1.trades.length + 1
      ∧ data.summary.pending = (initLog file).1.summary.pending + 1 := by
  obtain ⟨⟨h1, h2⟩, _⟩ := initLog_consistent file h
  refine ⟨_, rfl, ⟨?_, ?_⟩, ?_, rfl⟩
  · simp only [List.length_append, List.length_singleton]
    push_cast
    omega
  · simp only [pendingCount, List.countP_append, List.countP_cons, List.countP_nil] at h2 ⊢
    push_cast
    simp
    omega
  · simp

theorem checkPendingTrades_consistent {α : Type} [Ring α] (env : Nat → Lookup)
    (file : Option (Data α)) (h : ∀ data, file = some data → Consistent data) :
    ∃ data, (checkPendingTrades env file).2 = some data ∧ Consistent data
      ∧ data.trades.length = (initLog file).1.trades.length := by
  obtain ⟨⟨h1, h2⟩, hfile⟩ := initLog_consistent file h
  obtain ⟨k1, k2, k3⟩ := checkLoop_keeps env (initLog file).1.trades 0
    (initLog file).1.summary 0
  unfold checkPendingTrades
  by_cases hu : (checkLoop env 0 (initLog file).1.trades (initLog file).1.summary 0).2.2 > 0
  · simp only [hu, if_true]
    refine ⟨_, rfl, ⟨?_, ?_⟩, k1⟩
    · show _ = ((checkLoop env 0 (initLog file).1.trades (initLog file).1.summary 0).1.length
        : Int)
      rw [k2, k1]
      exact h1
    · show (checkLoop env 0 (initLog file).1.trades (initLog file).1.summary 0).2.1.pending
        = ((pendingCount (checkLoop env 0 (initLog file).1.trades
            (initLog file).1.summary 0).1 : Nat) : Int)
      omega
  · simp only [hu, if_false]
    exact ⟨_, hfile, ⟨h1, h2⟩, rfl⟩

end TradeLogger


namespace TradeLogger

theorem run_consistent {α : Type} [Ring α] :
    ∀ (ops : List (Op α)) (file : Option (Data α)),
      (∃ data, file = some data ∧ Consistent data) →
      ∃ data, run ops file = some data ∧ Consistent data
  | [], file, h => h
  | .logTrade now trade :: rest, file, h => by
    obtain ⟨d, hd, hc⟩ := h
    obtain ⟨d2, hd2, hc2, _⟩ := logTrade_consistent now trade file
      (fun data hdata => by rw [hd] at hdata; injection hdata with hdata; rw [← hdata]; exact hc)
    exact run_consistent rest _ ⟨d2, hd2, hc2⟩
  | .checkPendingTrades env :: rest, file, h => by
    obtain ⟨d, hd, hc⟩ := h
    obtain ⟨d2, hd2, hc2, _⟩ := checkPendingTrades_consistent env file
      (fun data hdata => by rw [hd] at hdata; injection hdata with hdata; rw [← hdata]; exact hc)
    exact run_consistent rest _ ⟨d2, hd2, hc2⟩

/-- C30: from the freshly initialised log, after any sequence of `logTrade` calls and
`checkPendingTrades` runs, whatever the markets answer, the file holds a log in which
`summary.pending + summary.wins + summary.losses` is the number of trades and
`summary.pending` is the number of trades whose status is `'PENDING'`. -/
theorem summary_stays_consistent {α : Type} [Ring α] (ops : List (Op α)) :
    ∃ data, run ops (initLog (none : Option (Data α))).2 = some data
      ∧ data.summary.pending + data.summary.wins + data.summary.losses
          = (data.trades.length : Int)
      ∧ data.summary.pending
          = ((data.trades.countP fun trade => trade.status = "PENDING" : Nat) : Int) := by
  obtain ⟨data, hrun, h1, h2⟩ := run_consistent ops (initLog (none : Option (Data α))).2
    ⟨_, rfl, rfl, rfl⟩
  exact ⟨data, hrun, h1, h2⟩

set_option maxRecDepth 1000000 in
/-- Two trades are logged, then a check finds the market of both resolved `Up`: the first
trade (`Up`) is a win, the second (`Down`) a loss, and no trade is pending. -/
theorem two_trades_example :
    (run
        ([ .logTrade 1700000100000
            { slug := some "btc-updown-15m-1700000000", tokenId := some "token_up",
              side := some "BUY", outcome := some "Up", size := 10, price := 2,
              orderId := none },
          .logTrade 1700000200000
            { slug := some "btc-updown-15m-1700000000", tokenId := some "token_down",
              side := some "BUY", outcome := some "Down", size := 5, price := 3,
              orderId := none },
          .checkPendingTrades fun _ =>
            { now := 1700002000000,
              response := .ok (some { resolved := true, outcome := some "Up",
                                      winner := none }) } ] : List (Op Int))
        (initLog (none : Option (Data Int))).2).map
      (fun data => (data.trades.map (fun trade => trade.status), data.summary.pending,
        data.summary.wins, data.summary.losses, data.summary.totalCost,
        data.summary.totalPayout))
      = some (["WIN", "LOSS"], 0, 1, 1, 35, 10) := by
  decide

end TradeLogger


end Bob
